import Mathlib

/-! # NAT-PMP client (`natpmp` package): shallow embedding

The embedding follows `natpmp/client.go`, `natpmp/clientrpc.go`, `natpmp/retry.go`,
`natpmp/transport.go` and `natpmp/options.go`, plus the test double `testTransport`
of `natpmp/client_test.go`, the legacy client of `natpmp/natpmp.go` and
`natpmp/network.go` (names under `Legacy`), and `PortSpec` and `IPValue` of
`flags/values.go`.

Conventions.
* A Go `byte` is `Fin 256`, `uint16` is `Fin 65536`, `uint32` is `Fin 4294967296`;
  arithmetic is done on the underlying naturals, with an explicit `%` at every
  narrowing conversion.  `int` and `time.Duration` (an `int64` count of
  nanoseconds) are `Int`; `wrapInt64` is the two's complement wrap-around.
* A `time.Time` is an `Int` count of nanoseconds; the zero `time.Time` is `0`.
* A Go `error` is `Option Err`; `none` is the `nil` error.
* A `[]byte` and a `net.IP` are lists of bytes; the `nil` slice is `[]`.  Only
  `IPValue`, which is compared with `nil`, keeps the nil slice apart as `none`.
* Side effects (the wall clock, the transport) are modelled by explicit state
  passing over a world type `σ`.  Loops take a `fuel` bound on the number of
  iterations; running out of fuel is reported as `none`.
-/

namespace Natpmp

/-! ## Machine integers, bytes, time -/

abbrev Byte := Fin 256
abbrev U16 := Fin 65536
abbrev U32 := Fin 4294967296
abbrev Bytes := List Byte
abbrev IP := List Byte
abbrev Time := Int
abbrev Duration := Int

/-- Conversion to `byte`: the low 8 bits. -/
def byte (n : Nat) : Byte := ⟨n % 256, Nat.mod_lt n (by decide)⟩

/-- Conversion to `uint16`: the low 16 bits. -/
def u16 (n : Nat) : U16 := ⟨n % 65536, Nat.mod_lt n (by decide)⟩

/-- Conversion to `uint32`: the low 32 bits. -/
def u32 (n : Nat) : U32 := ⟨n % 4294967296, Nat.mod_lt n (by decide)⟩

/-- Go's `uint16(x)` for an `int` x: reduction modulo 2^16. -/
def u16OfInt (x : Int) : U16 := u16 (x % 65536).toNat

/-- Two's complement wrap-around of an `int64` result. -/
def wrapInt64 (x : Int) : Int := (x + 9223372036854775808) % 18446744073709551616 - 9223372036854775808

def Millisecond : Duration := 1000000
def Second : Duration := 1000000000

/-- Go's `time.Duration(s) * time.Second` for a `uint32` s. -/
def secondsDuration (s : U32) : Duration := wrapInt64 ((s.val : Int) * Second)

/-! ## Constants of `clientrpc.go` -/

def defaultPort : Int := 5351
def maxRetries : Nat := 9
def initialPause : Duration := 250 * Millisecond

/-! ## Errors -/

/-- The error values that occur.  `io` and `timeout` stand for errors produced
outside this package (by a transport): `timeout` is an error for which
`errors.As(err, &ne) && ne.Timeout()` holds with `ne` a `net.Error`, `io` is any
other one.  `wrap p e` is `fmt.Errorf(p + "%w", e)`. -/
inductive Err where
  | io (msg : String)
  | timeout (msg : String)
  | wrap (pre : String) (inner : Err)
  | mistmatchedGatewayErr (Remote : IP) (Gateways : IP)
  | timedOut
  | EOF
  | ErrUnexpectedEOF
  | unexpectedSize (got : Nat) (want : Nat)
  | unexpectedSizeForType (got : Nat) (ty : String)
  | unknownVersion (v : Int)
  | unexpectedOpcode (got : Byte) (want : Byte)
  | ResultCodeErr (code : Int)
  | unknownProtocol (protocol : String)
deriving DecidableEq, Repr

abbrev error := Option Err

/-- Upper-case hexadecimal, the `%X` verb. -/
def hexUpper (n : Nat) : String := String.mk ((Nat.toDigits 16 n).map Char.toUpper)

/-- The `%v` rendering of a byte slice, `[1 2 3]`. -/
def fmtBytes (b : Bytes) : String :=
  "[" ++ " ".intercalate (b.map (fun x => toString x.val)) ++ "]"

/-- Lower-case hexadecimal without leading zeros, the `%x` verb. -/
def hexLower (n : Nat) : String := String.mk (Nat.toDigits 16 n)

/-- Two lower-case hexadecimal digits for each byte, as `hexString` of package
`net` prints a slice. -/
def hexString (b : Bytes) : String :=
  String.join (b.map (fun x => hexLower (x.val / 16) ++ hexLower (x.val % 16)))

/-- Go's `net.IP.To4`: the four bytes of an IPv4 address given in 4-byte or in
16-byte form, nil for anything else. -/
def IP.To4 (ip : IP) : IP :=
  if ip.length = 4 then ip
  else if ip.length = 16 ∧ ip.take 12 = [0, 0, 0, 0, 0, 0, 0, 0, 0, 0, 0xff, 0xff] then
    ip.drop 12
  else []

/-- The eight 16-bit groups of a 16-byte address. -/
def groups16 : Bytes → List Nat
  | a :: b :: t => (a.val * 256 + b.val) :: groups16 t
  | _ => []

/-- The number of zero groups at the head of a list of groups. -/
def zeroRun : List Nat → Nat
  | 0 :: t => zeroRun t + 1
  | _ => 0

/-- The search for the run of zero groups to abbreviate in the text of an
IPv6 address: the first longest run of at least two groups, as the pair of its
first index and the index after its last; `i` is the index of the head of the
list. -/
def findZeros : List Nat → Nat → Nat × Nat → Nat × Nat
  | [], _, best => best
  | a :: t, i, best =>
    findZeros t (i + 1)
      (if 2 ≤ zeroRun (a :: t) ∧ best.2 - best.1 < zeroRun (a :: t) then
        (i, i + zeroRun (a :: t))
      else best)

/-- The groups of an IPv6 address from index `i` on, in text, with the run from
`zs` to `ze` written `::`. -/
def groupsText (g : List Nat) (zs ze : Nat) : Nat → Nat → String
  | 0, _ => ""
  | fuel + 1, i =>
    if 8 ≤ i then ""
    else if i = zs then
      if 8 ≤ ze then "::"
      else "::" ++ hexLower (g.getD ze 0) ++ groupsText g zs ze fuel (ze + 1)
    else (if 0 < i then ":" else "") ++ hexLower (g.getD i 0) ++ groupsText g zs ze fuel (i + 1)

/-- Go's `net.IP.String`, which is what the verb `%s` prints for a `net.IP`:
`<nil>` for an empty slice, `?` and the bytes in hexadecimal for a length other
than 4 and 16, dotted decimal for an IPv4 address in either form, and the
abbreviated IPv6 text otherwise. -/
def IP.String (ip : IP) : String :=
  if ip.length = 0 then "<nil>"
  else if ip.length ≠ 4 ∧ ip.length ≠ 16 then "?" ++ hexString ip
  else if (IP.To4 ip).length = 4 then
    ".".intercalate ((IP.To4 ip).map (fun x => toString x.val))
  else
    groupsText (groups16 ip) (findZeros (groups16 ip) 0 (255, 255)).1
      (findZeros (groups16 ip) 0 (255, 255)).2 8 0

/-- The `Error()` text of each error value. -/
def Err.Error : Err → String
  | .io msg => msg
  | .timeout msg => msg
  | .wrap pre inner => pre ++ inner.Error
  | .mistmatchedGatewayErr remote gateways =>
      "error remote address " ++ IP.String remote ++ " does not match specified gateway "
        ++ IP.String gateways
  | .timedOut => "Timed out trying to contact gateway"
  | .EOF => "EOF"
  | .ErrUnexpectedEOF => "unexpected EOF"
  | .unexpectedSize got want =>
      "unexpected result size " ++ toString got ++ ", expected " ++ toString want
  | .unexpectedSizeForType got ty =>
      "unexpected result size " ++ toString got ++ " for type " ++ ty
  | .unknownVersion v => "unknown protocol version " ++ toString v
  | .unexpectedOpcode got want =>
      "unexpected opcode 0x" ++ hexUpper got.val ++ " (not 0x" ++ hexUpper want.val ++ ")"
  | .ResultCodeErr code => "error NAT-PMP non-zero result code:" ++ toString code
  | .unknownProtocol protocol => "unknown protocol " ++ protocol

/-- The chain walk of `errors.As(err, &ne) && ne.Timeout()`. -/
def Err.isTimeout : Err → Bool
  | .timeout _ => true
  | .wrap _ inner => inner.isTimeout
  | _ => false

/-- The chain walk of `errors.Is(err, &mistmatchedGatewayErr{})`: the method
`mistmatchedGatewayErr.Is` answers true for any target of its own type. -/
def Err.isMismatchedGateway : Err → Bool
  | .mistmatchedGatewayErr _ _ => true
  | .wrap _ inner => inner.isMismatchedGateway
  | _ => false

/-- The chain walk of `errors.Is(err, io.EOF)`. -/
def Err.isEOF : Err → Bool
  | .EOF => true
  | .wrap _ inner => inner.isEOF
  | _ => false

/-- The function `retryTimeoutErrors` of `clientrpc.go`. -/
def retryTimeoutErrors (err : error) : Bool :=
  match err with
  | none => false
  | some e => e.isTimeout

/-- The `retryImmediate` closure built in `Client.rpc`. -/
def retryMismatched (err : error) : Bool :=
  match err with
  | none => false
  | some e => e.isMismatchedGateway

/-! ## `net.IP.Equal` -/

def v4InV6Prefix : Bytes := [0, 0, 0, 0, 0, 0, 0, 0, 0, 0, 0xff, 0xff]

/-- Go's `net.IP.Equal`: equal slices, or an IPv4 address and its 16-byte form. -/
def IP.Equal (ip x : IP) : Bool :=
  if ip.length = x.length then decide (ip = x)
  else if ip.length = 4 ∧ x.length = 16 then
    decide (x.take 12 = v4InV6Prefix) && decide (ip = x.drop 12)
  else if ip.length = 16 ∧ x.length = 4 then
    decide (ip.take 12 = v4InV6Prefix) && decide (ip.drop 12 = x)
  else false

/-! ## Wire records (`client.go`) and `encoding/binary` with `binary.BigEndian` -/

/-- Big-endian `uint16` from two bytes. -/
def be16 (a b : Byte) : U16 := u16 (a.val * 256 + b.val)

/-- Big-endian `uint32` from four bytes. -/
def be32 (a b c d : Byte) : U32 :=
  u32 (a.val * 16777216 + b.val * 65536 + c.val * 256 + d.val)

/-- The two big-endian bytes of a `uint16`. -/
def putU16 (x : U16) : Bytes := [byte (x.val / 256), byte x.val]

/-- The four big-endian bytes of a `uint32`. -/
def putU32 (x : U32) : Bytes :=
  [byte (x.val / 16777216), byte (x.val / 65536), byte (x.val / 256), byte x.val]

/-- A Go `[4]byte`. -/
structure Byte4 where
  b0 : Byte
  b1 : Byte
  b2 : Byte
  b3 : Byte
deriving DecidableEq, Repr

structure extAddrReq where
  Version : Byte
  Opcode : Byte
deriving DecidableEq, Repr

structure extAddrResp where
  Version : Byte
  Opcode : Byte
  ResultCode : U16
  DurationSecs : U32
  IPAddr : Byte4
deriving DecidableEq, Repr

/-- The request record of a mapping; the blank `int16` field of the Go struct
(reserved) holds no value and is written as two zero bytes. -/
structure mappingReq where
  Version : Byte
  Opcode : Byte
  InternalPort : U16
  RequestedPort : U16
  LifetimeSecs : U32
deriving DecidableEq, Repr

structure mappingResp where
  Version : Byte
  Opcode : Byte
  ResultCode : U16
  DurationSecs : U32
  InternalPort : U16
  MappedPort : U16
  LifetimeSecs : U32
deriving DecidableEq, Repr

/-- The values behind the `request` interface. -/
inductive request where
  | extAddr (r : extAddrReq)
  | mapping (r : mappingReq)
deriving DecidableEq, Repr

/-- The dynamic types behind the `response` interface. -/
inductive responseType where
  | extAddrResp
  | mappingResp
deriving DecidableEq, Repr

/-- The record a `response` of each dynamic type points to. -/
abbrev responseType.record : responseType → Type
  | .extAddrResp => Natpmp.extAddrResp
  | .mappingResp => Natpmp.mappingResp

def request.version : request → Int
  | .extAddr r => (r.Version.val : Int)
  | .mapping r => (r.Version.val : Int)

def request.opcode : request → Byte
  | .extAddr r => r.Opcode
  | .mapping r => r.Opcode

/-- The method `version()` of a response. -/
def responseType.version : (k : responseType) → k.record → Int
  | .extAddrResp, r => (r.Version.val : Int)
  | .mappingResp, r => (r.Version.val : Int)

/-- The method `opcode()` of a response. -/
def responseType.opcode : (k : responseType) → k.record → Byte
  | .extAddrResp, r => r.Opcode
  | .mappingResp, r => r.Opcode

/-- The method `resultCode()` of a response. -/
def responseType.resultCode : (k : responseType) → k.record → Int
  | .extAddrResp, r => (r.ResultCode.val : Int)
  | .mappingResp, r => (r.ResultCode.val : Int)

/-- The zero value of each response record (`var resp extAddrResp`). -/
def extAddrResp.zero : extAddrResp := ⟨0, 0, 0, 0, ⟨0, 0, 0, 0⟩⟩
def mappingResp.zero : mappingResp := ⟨0, 0, 0, 0, 0, 0, 0⟩

/-- The call `binary.Write(&buf, binary.BigEndian, v)` on each record: the fields in
declaration order, big-endian, blank fields as zeros. -/
def extAddrReq.encode (r : extAddrReq) : Bytes := [r.Version, r.Opcode]

def mappingReq.encode (r : mappingReq) : Bytes :=
  [r.Version, r.Opcode, 0, 0] ++ putU16 r.InternalPort ++ putU16 r.RequestedPort
    ++ putU32 r.LifetimeSecs

def extAddrResp.encode (r : extAddrResp) : Bytes :=
  [r.Version, r.Opcode] ++ putU16 r.ResultCode ++ putU32 r.DurationSecs
    ++ [r.IPAddr.b0, r.IPAddr.b1, r.IPAddr.b2, r.IPAddr.b3]

def mappingResp.encode (r : mappingResp) : Bytes :=
  [r.Version, r.Opcode] ++ putU16 r.ResultCode ++ putU32 r.DurationSecs
    ++ putU16 r.InternalPort ++ putU16 r.MappedPort ++ putU32 r.LifetimeSecs

/-- The request bytes `rpc` writes into `reqBuf`. -/
def binaryWrite : request → Bytes
  | .extAddr r => r.encode
  | .mapping r => r.encode

/-- Decoding of the first 12 bytes into an `extAddrResp`; `none` when fewer
than 12 bytes are there. -/
def extAddrResp.decode : Bytes → Option extAddrResp
  | v :: o :: r0 :: r1 :: d0 :: d1 :: d2 :: d3 :: a0 :: a1 :: a2 :: a3 :: _ =>
      some ⟨v, o, be16 r0 r1, be32 d0 d1 d2 d3, ⟨a0, a1, a2, a3⟩⟩
  | _ => none

/-- Decoding of the first 16 bytes into a `mappingResp`; `none` when fewer
than 16 bytes are there. -/
def mappingResp.decode : Bytes → Option mappingResp
  | v :: o :: r0 :: r1 :: d0 :: d1 :: d2 :: d3 :: i0 :: i1 :: m0 :: m1
      :: l0 :: l1 :: l2 :: l3 :: _ =>
      some ⟨v, o, be16 r0 r1, be32 d0 d1 d2 d3, be16 i0 i1, be16 m0 m1, be32 l0 l1 l2 l3⟩
  | _ => none

/-- The error of `io.ReadFull` on a reader that is too short. -/
def shortRead (data : Bytes) : Err :=
  if data.length = 0 then Err.EOF else Err.ErrUnexpectedEOF

/-- Decoding into the record of a response type. -/
def responseType.decode : (k : responseType) → Bytes → Option k.record
  | .extAddrResp, data => Natpmp.extAddrResp.decode data
  | .mappingResp, data => Natpmp.mappingResp.decode data

/-- The call `binary.Read(bytes.NewReader(data), binary.BigEndian, resp)`: reads exactly the
record's size; the record is left as it was when the reader is too short. -/
def binaryRead (k : responseType) (data : Bytes) (resp : k.record) : error × k.record :=
  match k.decode data with
  | some r1 => (none, r1)
  | none => (some (shortRead data), resp)

/-- The size `reflect` reports for each response record. -/
def responseType.size : responseType → Nat
  | .extAddrResp => 12
  | .mappingResp => 16

/-- The `%T` rendering of the pointer passed as `resp`. -/
def responseType.typeName : responseType → String
  | .extAddrResp => "*natpmp.extAddrResp"
  | .mappingResp => "*natpmp.mappingResp"

/-! ## The retry scheduler (`retry.go`) -/

/-- The function `minTime` of `retry.go`: the zero time stands for "no bound". -/
def minTime (a b : Time) : Time :=
  if a = 0 then b
  else if b = 0 then a
  else if a < b then a
  else b

/-- The `retry` record.  A predicate field may be a nil func (`none`). -/
structure retry where
  initial : Duration
  timeout : Duration
  maxRetries : Int
  retryImmediate : Option (error → Bool)
  retryDelay : Option (error → Bool)

/-- The test `p != nil && p(err)` on a predicate field. -/
def callPred (p : Option (error → Bool)) (err : error) : Bool :=
  match p with
  | none => false
  | some f => f err

/-- What one pass through the `for` statement of `retry.run` does: go round
again with new loop variables, or return. -/
inductive Step (τ : Type) where
  | next (tries : Nat) (nextDeadline : Time) (w : τ)
  | ret (err : error) (w : τ)

/-- The loop condition
`(tries < maxRetries && finalDeadline.IsZero()) || time.Now().Before(finalDeadline)`;
the clock is read only when the first disjunct is false. -/
def retry.cond {τ : Type} (timeNow : τ → Time × τ) (finalDeadline : Time) (tries : Nat)
    (w : τ) : Bool × τ :=
  if tries < Natpmp.maxRetries ∧ finalDeadline = 0 then (true, w)
  else ((decide ((timeNow w).1 < finalDeadline)), (timeNow w).2)

/-- The pause `initialPause * 1 << tries`, an `int64` product and shift. -/
def backoff (tries : Nat) : Duration := wrapInt64 (initialPause * 1 * 2 ^ tries)

/-- One pass of the `for` statement of `retry.run`: the condition, then the
body.  `tries` is a `uint`, so `tries++` wraps at 2^64.  The loop uses the
package constants `maxRetries` and `initialPause`, as the source does. -/
def retry.step {τ : Type} (r : retry) (timeNow : τ → Time × τ) (fn : Time → τ → error × τ)
    (finalDeadline : Time) (tries : Nat) (nextDeadline : Time) (w : τ) : Step τ :=
  let c := retry.cond timeNow finalDeadline tries w
  if c.1 then
    let a := fn (minTime nextDeadline finalDeadline) c.2
    if callPred r.retryImmediate a.1 then Step.next tries nextDeadline a.2
    else if callPred r.retryDelay a.1 then
      let tries1 := (tries + 1) % 18446744073709551616
      let n := timeNow a.2
      Step.next tries1 (n.1 + backoff tries1) n.2
    else Step.ret a.1 a.2
  else Step.ret (some Err.timedOut) c.2

/-- The `for` statement of `retry.run`, at most `fuel` passes; `none` when the
fuel runs out before the loop returns. -/
def retry.loop {τ : Type} (r : retry) (timeNow : τ → Time × τ) (fn : Time → τ → error × τ)
    (finalDeadline : Time) : Nat → Nat → Time → τ → Option error × τ
  | 0, _, _, w => (none, w)
  | fuel + 1, tries, nextDeadline, w =>
    match r.step timeNow fn finalDeadline tries nextDeadline w with
    | Step.next tries1 nextDeadline1 w1 => retry.loop r timeNow fn finalDeadline fuel tries1 nextDeadline1 w1
    | Step.ret err w1 => (some err, w1)

/-- The overall deadline computed at the start of `retry.run`, with the world
after the clock reading (if any). -/
def retry.finalDeadline {τ : Type} (r : retry) (timeNow : τ → Time × τ) (w : τ) : Time × τ :=
  if r.timeout ≠ 0 then ((timeNow w).1 + r.timeout, (timeNow w).2) else (0, w)

/-- The method `retry.run`. -/
def retry.run {τ : Type} (r : retry) (timeNow : τ → Time × τ) (fn : Time → τ → error × τ)
    (fuel : Nat) (w : τ) : Option error × τ :=
  let f := r.finalDeadline timeNow w
  let n := timeNow f.2
  r.loop timeNow fn f.1 fuel 0 (n.1 + initialPause) n.2

/-! ## Transport (`transport.go`) and client (`client.go`, `options.go`) -/

/-- The `Transport` interface over a world `σ`: each method returns its results
and the world it leaves behind. -/
structure Transport (σ : Type) where
  Open : IP → Int → σ → error × σ
  Close : σ → error × σ
  Send : Bytes → Bytes → Time → σ → (Bytes × IP × error) × σ

structure Client (σ : Type) where
  gatewayIP : IP
  port : Int
  timeout : Duration
  transport : Transport σ

/-- The record `rpc` builds: the package constants, the client's timeout, and
one second when that timeout is zero. -/
def rpcRetry (timeout : Duration) : retry :=
  let r : retry :=
    { initial := initialPause
      maxRetries := (Natpmp.maxRetries : Int)
      timeout := timeout
      retryDelay := some retryTimeoutErrors
      retryImmediate := some retryMismatched }
  if r.timeout = 0 then { r with timeout := 1 * Second } else r

/-- The closure `rpc` passes to `retry.run`.  Its state is the captured
variable `result` together with the world. -/
def rpcAttempt {σ : Type} (c : Client σ) (reqBuf : Bytes) (deadline : Time)
    (st : Bytes × σ) : error × (Bytes × σ) :=
  let out := c.transport.Send reqBuf st.1 deadline st.2
  let d := out.1.1
  let remoteIP := out.1.2.1
  let err := out.1.2.2
  if !(IP.Equal remoteIP c.gatewayIP) then
    (some (Err.mistmatchedGatewayErr c.gatewayIP remoteIP), (st.1, out.2))
  else (err, (d, out.2))

/-- The clock seen from inside the closure's state. -/
def liftNow {σ : Type} (timeNow : σ → Time × σ) (st : Bytes × σ) : Time × (Bytes × σ) :=
  ((timeNow st.2).1, (st.1, (timeNow st.2).2))

/-- The validation `switch` at the end of `rpc`, with the `binary.Read` before
it: the error and the record as decoded. -/
def rpcChecks (req : request) (k : responseType) (resp : k.record) (result : Bytes) :
    error × k.record :=
  let expectedSize := k.size
  let expectedOp : Byte := byte (req.opcode.val ||| 0x80)
  let rd := binaryRead k result resp
  let resp1 := rd.2
  if result.length ≠ expectedSize then
    (some (Err.unexpectedSize result.length expectedSize), resp1)
  else if (match rd.1 with | none => false | some e => e.isEOF) then
    (some (Err.unexpectedSizeForType result.length k.typeName), resp1)
  else if k.version resp1 ≠ 0 then
    (some (Err.unknownVersion (k.version resp1)), resp1)
  else if k.opcode resp1 ≠ expectedOp then
    (some (Err.unexpectedOpcode (k.opcode resp1) expectedOp), resp1)
  else if k.resultCode resp1 ≠ 0 then
    (some (Err.ResultCodeErr (k.resultCode resp1)), resp1)
  else (none, resp1)

/-- The receive buffer `make([]byte, 16)` of `rpc`. -/
def resultBuffer : Bytes := List.replicate 16 0

/-- The method `Client.rpc`: the error returned and the record behind `resp`, with the
world left behind; `none` when the retry loop ran out of fuel.  The deferred
`Close` runs on every return after a successful `Open`. -/
def rpc {σ : Type} (c : Client σ) (timeNow : σ → Time × σ) (req : request)
    (k : responseType) (resp : k.record) (fuel : Nat) (s : σ) :
    Option (error × k.record) × σ :=
  match c.transport.Open c.gatewayIP c.port s with
  | (some err, s1) => (some (some (Err.wrap "error net.DialUDP(): " err), resp), s1)
  | (none, s1) =>
    let reqBuf := binaryWrite req
    let result : Bytes := resultBuffer
    match (rpcRetry c.timeout).run (liftNow timeNow) (rpcAttempt c reqBuf) fuel (result, s1) with
    | (none, st) => (none, st.2)
    | (some (some err), st) => (some (some err, resp), (c.transport.Close st.2).2)
    | (some none, st) => (some (rpcChecks req k resp st.1), (c.transport.Close st.2).2)

/-- Go's `netip.Addr` for an IPv4 address, as built by `netip.AddrFrom4`. -/
abbrev Addr := Byte4

/-- The method `Client.GetExternalAddress`. -/
def GetExternalAddress {σ : Type} (c : Client σ) (timeNow : σ → Time × σ) (fuel : Nat) (s : σ) :
    Option (Except Err (Addr × Duration)) × σ :=
  match rpc c timeNow (request.extAddr ⟨0, 0⟩) responseType.extAddrResp extAddrResp.zero fuel s with
  | (none, s1) => (none, s1)
  | (some (some err, _), s1) => (some (Except.error (Err.wrap "ExternalAddress Failed: " err)), s1)
  | (some (none, resp), s1) =>
      (some (Except.ok (resp.IPAddr, secondsDuration resp.DurationSecs)), s1)

structure PortMapping where
  EpochDuration : Duration
  InternalPort : U16
  MappedExternalPort : U16
  Lifetime : Duration
deriving DecidableEq, Repr

/-- The conversion `uint32(lifetime.Seconds())`.  `Seconds` computes
`float64(sec) + float64(nsec)/1e9` in floating point, which is exact for a whole
number of seconds `0 <= sec < 2^32`, and the conversion back then gives `sec`.
Elsewhere the result depends on floating-point rounding and on the platform's
out-of-range conversion; it is left to the parameter `fp`. -/
def lifetimeSecs (fp : Duration → Nat) (lifetime : Duration) : U32 :=
  if lifetime % Second = 0 ∧ 0 ≤ lifetime / Second ∧ lifetime / Second < 4294967296 then
    u32 (lifetime / Second).toNat
  else u32 (fp lifetime)

/-- The opcode `switch` of `AddPortMapping`. -/
def protocolOpcode (protocol : String) : Except Err Byte :=
  if protocol = "udp" then Except.ok 1
  else if protocol = "tcp" then Except.ok 2
  else Except.error (Err.unknownProtocol protocol)

/-- The request record `AddPortMapping` builds. -/
def mappingRequest (fp : Duration → Nat) (opcode : Byte) (internalPort requestedExternalPort : Int)
    (lifetime : Duration) : mappingReq :=
  { Version := 0
    Opcode := opcode
    InternalPort := u16OfInt internalPort
    RequestedPort := u16OfInt requestedExternalPort
    LifetimeSecs := lifetimeSecs fp lifetime }

/-- The method `Client.AddPortMapping`. -/
def AddPortMapping {σ : Type} (c : Client σ) (timeNow : σ → Time × σ) (fp : Duration → Nat)
    (protocol : String) (internalPort requestedExternalPort : Int) (lifetime : Duration)
    (fuel : Nat) (s : σ) : Option (Except Err PortMapping) × σ :=
  match protocolOpcode protocol with
  | Except.error e => (some (Except.error e), s)
  | Except.ok opcode =>
    let req := mappingRequest fp opcode internalPort requestedExternalPort lifetime
    match rpc c timeNow (request.mapping req) responseType.mappingResp mappingResp.zero fuel s with
    | (none, s1) => (none, s1)
    | (some (some err, _), s1) =>
        (some (Except.error (Err.wrap "ExternalAddress Failed: " err)), s1)
    | (some (none, resp), s1) =>
        (some (Except.ok
          { EpochDuration := secondsDuration resp.DurationSecs
            InternalPort := resp.InternalPort
            MappedExternalPort := resp.MappedPort
            Lifetime := secondsDuration resp.LifetimeSecs }), s1)

/-- The type `Option` of `options.go`: a function modifying the client. -/
abbrev ClientOption (σ : Type) := Client σ → Client σ

/-- The option `Timeout` of `options.go`. -/
def Timeout {σ : Type} (timeout : Duration) : ClientOption σ :=
  fun client => { client with timeout := timeout }

/-- The option `Port` of `options.go`. -/
def Port {σ : Type} (port : Int) : ClientOption σ :=
  fun client => if port ≠ 0 then { client with port := port } else client

/-- The option `WithTransport` of `options.go`. -/
def WithTransport {σ : Type} (transport : Transport σ) : ClientOption σ :=
  fun client => { client with transport := transport }

/-- The constructor `NewClient`; `dflt` is what `DefaultTransport()` returns. -/
def NewClient {σ : Type} (dflt : Transport σ) (gatewayIP : IP) (opts : List (ClientOption σ)) :
    Client σ :=
  opts.foldl (fun c opt => opt c)
    { gatewayIP := gatewayIP, port := defaultPort, timeout := 0, transport := dflt }

/-! ## `udpTransport` (`transport.go`) over an abstract socket layer -/

/-- What `udpTransport` uses of package `net`.  `ReadFromUDP` is given the
length of the buffer and answers with the bytes it stored there (at most that
many), the sender's IP, and an error. -/
structure UDPConn (σ : Type) where
  DialUDP : IP → Int → σ → error × σ
  Close : σ → error × σ
  SetDeadline : Time → σ → error × σ
  Write : Bytes → σ → error × σ
  ReadFromUDP : Nat → σ → (Bytes × IP × error) × σ

/-- The method `udpTransport.Send`: every failure returns `nil, nil, err`; on success the
buffer is trimmed to the bytes received. -/
def udpSend {σ : Type} (n : UDPConn σ) (req resp : Bytes) (deadline : Time) (s : σ) :
    (Bytes × IP × error) × σ :=
  match n.SetDeadline deadline s with
  | (some err, s1) => (([], [], some (Err.wrap "SetDeadline(): " err)), s1)
  | (none, s1) =>
    match n.Write req s1 with
    | (some err, s2) => (([], [], some (Err.wrap "Write(): " err)), s2)
    | (none, s2) =>
      match n.ReadFromUDP resp.length s2 with
      | ((_, _, some err), s3) => (([], [], some (Err.wrap "ReadFromUDP(): " err)), s3)
      | ((got, remoteIP, none), s3) => ((got.take resp.length, remoteIP, none), s3)

/-- The transport `DefaultTransport()` returns. -/
def udpTransport {σ : Type} (n : UDPConn σ) : Transport σ where
  Open := fun gateway port s => n.DialUDP gateway port s
  Close := fun s => n.Close s
  Send := udpSend n

/-! ## The test double `testTransport` (`client_test.go`) -/

structure testCall where
  req : Bytes
  resp : Bytes
deriving DecidableEq, Repr

structure testTransport where
  err : error
  gateway : IP
  testCall : testCall
deriving DecidableEq, Repr

/-- A world for runs against the test double: a wall clock and the double's
own fields. -/
structure World where
  clock : Time
  t : testTransport
deriving DecidableEq, Repr

/-- The method `testTransport.Send`: `copy(resp, t.testCall.resp)` fills at most
`len(resp)` bytes, and `resp[:n]` is returned with the stored gateway. -/
def testSend (req resp : Bytes) (_deadline : Time) (w : World) : (Bytes × IP × error) × World :=
  if req ≠ w.t.testCall.req then
    (([], [], some (Err.io ("got=" ++ fmtBytes req ++ "  want=" ++ fmtBytes w.t.testCall.req))), w)
  else
    match w.t.err with
    | some e => (([], [], some e), w)
    | none => ((w.t.testCall.resp.take (min resp.length w.t.testCall.resp.length), w.t.gateway, none), w)

/-- The methods of `testTransport`. -/
def testTransportOf : Transport World where
  Open := fun g _ w => (none, { w with t := { w.t with gateway := g } })
  Close := fun w => (none, w)
  Send := testSend

/-- A wall clock on which every reading is `step` later than the one before. -/
def tickClock (step : Duration) (w : World) : Time × World :=
  (w.clock, { w with clock := w.clock + step })

/-! ## Observing the transport: the request bytes of every `Send` -/

/-- The transport `T` with a log of the request bytes of each `Send`, oldest first. -/
def Transport.recording {σ : Type} (T : Transport σ) : Transport (σ × List Bytes) where
  Open := fun g p s => ((T.Open g p s.1).1, ((T.Open g p s.1).2, s.2))
  Close := fun s => ((T.Close s.1).1, ((T.Close s.1).2, s.2))
  Send := fun req resp d s => ((T.Send req resp d s.1).1, ((T.Send req resp d s.1).2, s.2 ++ [req]))

/-- The client `c` on the recording transport. -/
def Client.recording {σ : Type} (c : Client σ) : Client (σ × List Bytes) :=
  { gatewayIP := c.gatewayIP, port := c.port, timeout := c.timeout,
    transport := c.transport.recording }

/-- The clock on the world with a log. -/
def recNow {σ : Type} (timeNow : σ → Time × σ) (s : σ × List Bytes) : Time × (σ × List Bytes) :=
  ((timeNow s.1).1, ((timeNow s.1).2, s.2))

/-! ## Concrete inputs taken from `client_test.go` -/

/-- The address `net.ParseIP("10.0.0.1")`: the 16-byte form. -/
def ip10 : IP := [0, 0, 0, 0, 0, 0, 0, 0, 0, 0, 0xff, 0xff, 10, 0, 0, 1]

/-- The client of `TestProtocolChecks`:
`NewClient(net.ParseIP("10.0.0.1"), WithTransport(transport))`. -/
def testClient : Client World := NewClient testTransportOf ip10 [WithTransport testTransportOf]

/-- A test double whose `Send` fails with `e` (its field `err`). -/
def failingDouble (e : Err) : testTransport :=
  { err := some e, gateway := [], testCall := ⟨[0, 0], []⟩ }

/-- A test double that answers `req` with `resp`. -/
def answeringDouble (req resp : Bytes) : testTransport :=
  { err := none, gateway := [], testCall := ⟨req, resp⟩ }

/-- The world at the start of a test run. -/
def startWorld (t : testTransport) : World := { clock := 1000000000000, t := t }

/-- The world of a test run once `Open` has stored the gateway. -/
def openedWorld (clock : Time) (t : testTransport) : World :=
  { clock := clock, t := { t with gateway := ip10 } }

/-- The request of the `TestProtocolChecks` cases: tcp, 123, 456, 1200 s. -/
def tcpRequest : request := request.mapping (mappingRequest (fun _ => 0) 2 123 456 (1200 * Second))

def tcpRequestBytes : Bytes := [0x0, 0x2, 0x0, 0x0, 0x0, 0x7b, 0x1, 0xc8, 0x0, 0x0, 0x4, 0xb0]

/-! ## Observing the scheduler: the clock and the deadline of every attempt -/

/-- The world a `Step` carries. -/
def Step.world {τ : Type} : Step τ → τ
  | Step.next _ _ w => w
  | Step.ret _ w => w

/-- The attempt function `fn` with a log of its invocations, oldest first:
the clock `clk` of the world at the moment of the call, and the deadline
passed. -/
def logAttempts {τ : Type} (clk : τ → Time) (fn : Time → τ → error × τ) (deadline : Time)
    (w : τ × List (Time × Time)) : error × (τ × List (Time × Time)) :=
  ((fn deadline w.1).1, ((fn deadline w.1).2, w.2 ++ [(clk w.1, deadline)]))

/-- The clock on a world with a log. -/
def logNow {τ α : Type} (timeNow : τ → Time × τ) (w : τ × α) : Time × (τ × α) :=
  ((timeNow w.1).1, ((timeNow w.1).2, w.2))

/-- The clock field of the world inside the state of the closure of `rpc`. -/
def worldClock (st : Bytes × World) : Time := st.2.clock

/-- The clock of a world that is nothing but a clock, in nanoseconds. -/
def natClock (n : Nat) : Time × Nat := ((n : Int), n)

/-- An attempt that blocks until its deadline and then reports a timeout, on
a world that is nothing but a clock. -/
def blockUntil (deadline : Time) (n : Nat) : error × Nat :=
  (some (Err.timeout "i/o timeout"), max n deadline.toNat)

/-- A retry record with the predicates `rpc` installs. -/
def policy (initial timeout : Duration) (maxRetries : Int) : retry :=
  { initial := initial, timeout := timeout, maxRetries := maxRetries,
    retryImmediate := some retryMismatched, retryDelay := some retryTimeoutErrors }

/-! ## A gateway that never answers -/

/-- A `Send` for a gateway that never answers: it blocks until the deadline
and reports a timeout.  It names the stored gateway as the sender, so that
the closure of `rpc` passes the timeout on to the scheduler. -/
def silentSend (_req _resp : Bytes) (deadline : Time) (w : World) : (Bytes × IP × error) × World :=
  (([], w.t.gateway, some (Err.timeout "i/o timeout")), { w with clock := max w.clock deadline })

/-- The transport of a gateway that never answers. -/
def silentTransport : Transport World where
  Open := testTransportOf.Open
  Close := testTransportOf.Close
  Send := silentSend

/-- A client made by `NewClient` with no option, on the silent gateway. -/
def silentClient : Client World := NewClient silentTransport ip10 []

/-! ## The helper `errContains` of `client_test.go` -/

/-- Go's `strings.Contains`. -/
def stringsContains (s substr : String) : Bool :=
  s.data.tails.any (fun t => substr.data.isPrefixOf t)

/-- The helper `errContains` of `client_test.go`. -/
def errContains (err : error) (substr : String) : Bool :=
  match err with
  | none => false
  | some e => stringsContains e.Error substr

/-- The error of a call, `nil` on success. -/
def errorOf {α : Type} : Except Err α → error
  | Except.ok _ => none
  | Except.error e => some e

/-- The reply of the case "Non-success result code" of `TestProtocolChecks`. -/
def resultCode17Reply : Bytes :=
  [0x0, 0x82, 0x0, 0x11, 0x0, 0x14, 0x4, 0x96, 0x0, 0x7b, 0x0, 0x0, 0x0, 0x0, 0x0, 0x0]

/-! ## Replies longer than the receive buffer -/

/-- The world in which the reply the test double holds is cut to its first 16
bytes. -/
def cutReply (w : World) : World :=
  { w with t := { w.t with testCall := { w.t.testCall with resp := w.t.testCall.resp.take 16 } } }

/-- The same on the state of the closure of `rpc`. -/
def cutReplySt (st : Bytes × World) : Bytes × World := (st.1, cutReply st.2)

/-- A client on the test double. -/
def doubleClient (gatewayIP : IP) (port : Int) (timeout : Duration) : Client World :=
  { gatewayIP := gatewayIP, port := port, timeout := timeout, transport := testTransportOf }

/-- The request of the case "Add UDP" of `TestAddPortMapping`. -/
def udpRequestBytes : Bytes := [0x0, 0x1, 0x0, 0x0, 0x0, 0x7b, 0x1, 0xc8, 0x0, 0x0, 0x4, 0xb0]

/-- The reply of the case "Add UDP" of `TestAddPortMapping`, 16 bytes. -/
def udpReply : Bytes :=
  [0x0, 0x81, 0x0, 0x0, 0x0, 0x13, 0xfe, 0xff, 0x0, 0x7b, 0x1, 0xc8, 0x0, 0x0, 0x4, 0xb0]

/-! ## Package `flags` (`flags/values.go`): `PortSpec` -/

/-- The two errors of `strconv`: `ErrSyntax` and `ErrRange`. -/
inductive NumErr where
  | ErrSyntax
  | ErrRange
deriving DecidableEq, Repr

/-- The value of a decimal digit, `none` for any other character. -/
def digitValue (c : Char) : Option Nat :=
  if '0' ≤ c ∧ c ≤ '9' then some (c.toNat - '0'.toNat) else none

/-- The number written by a non-empty run of decimal digits. -/
def parseDecimal (cs : List Char) : Option Nat :=
  match cs with
  | [] => none
  | _ => cs.foldlM (fun acc c => (digitValue c).map (fun d => acc * 10 + d)) 0

/-- Go's `strconv.Atoi` on a 64-bit platform: an optional sign, then decimal
digits; the value has to fit an `int`. -/
def Atoi (s : String) : Except NumErr Int :=
  match s.data with
  | [] => Except.error NumErr.ErrSyntax
  | c :: ds =>
    if c = '-' then
      match parseDecimal ds with
      | none => Except.error NumErr.ErrSyntax
      | some n => if n ≤ 9223372036854775808 then Except.ok (-(n : Int)) else Except.error NumErr.ErrRange
    else
      match parseDecimal (if c = '+' then ds else c :: ds) with
      | none => Except.error NumErr.ErrSyntax
      | some n => if n < 9223372036854775808 then Except.ok (n : Int) else Except.error NumErr.ErrRange

/-- Go's `strings.HasPrefix`. -/
def HasPrefix (s pre : String) : Bool := pre.data.isPrefixOf s.data

/-- The errors of package `flags`: the `*strconv.NumError` of `Atoi` for the
string `num`, or the text of a `fmt.Errorf`. -/
inductive FlagsErr where
  | numError (num : String) (err : NumErr)
  | errorf (msg : String)
deriving DecidableEq, Repr

/-- The record `PortSpec` of `flags/values.go`. -/
structure PortSpec where
  ExtPort : Int
  IntPort : Int
  Protocol : String
  Lifetime : Duration
deriving DecidableEq, Repr

/-- The method `PortSpec.IsSet`. -/
def PortSpec.IsSet (p : PortSpec) : Bool :=
  decide (p.IntPort > 0) && decide (p.ExtPort > 0) && decide (p.Protocol ≠ "")

/-- The method `PortSpec.Set`: the record it leaves and the error. -/
def PortSpec.Set (p : PortSpec) (s : String) : PortSpec × Option FlagsErr :=
  match Atoi s with
  | Except.error e => (p, some (FlagsErr.numError s e))
  | Except.ok d =>
    if d ≤ 0 then
      ({ p with ExtPort := d }, some (FlagsErr.errorf ("invalid ext port: " ++ toString d)))
    else ({ p with ExtPort := d }, none)

/-- The method `PortSpec.consume`: the record it leaves, the arguments it
returns and the error. -/
def PortSpec.consume (p : PortSpec) (args : List String) :
    PortSpec × List String × Option FlagsErr :=
  if p.ExtPort = 0 ∨ p.IsSet = true then (p, args, none)
  else
    match args with
    | [] => (p, args, some (FlagsErr.errorf "missing public port"))
    | a0 :: rest0 =>
      if HasPrefix a0 "-" then (p, args, some (FlagsErr.errorf "missing public port"))
      else
        match Atoi a0 with
        | Except.error _ => (p, args, some (FlagsErr.errorf ("invalid private port: " ++ a0)))
        | Except.ok d =>
          let p1 := { p with IntPort := d }
          match rest0 with
          | [] => (p1, args, some (FlagsErr.errorf "missing protocol"))
          | a1 :: rest1 =>
            if HasPrefix a1 "-" then (p1, args, some (FlagsErr.errorf "missing protocol"))
            else
              let p2 := { p1 with Protocol := a1 }
              match rest1 with
              | [] => (p2, args.drop 2, none)
              | a2 :: rest2 =>
                if HasPrefix a2 "-" then (p2, args.drop 2, none)
                else
                  match Atoi a2 with
                  | Except.error _ =>
                      (p2, args, some (FlagsErr.errorf ("invalid Lifetime: " ++ a2)))
                  | Except.ok d2 =>
                      ({ p2 with Lifetime := wrapInt64 (d2 * Second) }, rest2, none)

/-- The record after the flag `-a 10`, that is after `Set("10")` on the zero
record. -/
def afterFlagA : PortSpec := (PortSpec.Set ⟨0, 0, "", 0⟩ "10").1

/-! ## The legacy `minTime` (`network.go`) -/

/-- The function `minTime` of the legacy `network.go`, the same text as the one
of `retry.go`. -/
def Legacy.minTime (a b : Time) : Time :=
  if a = 0 then b
  else if b = 0 then a
  else if a < b then a
  else b

/-! ## Observing the scheduler: the last clock reading and the errors returned -/

/-- The clock on a world that remembers the last reading taken. -/
def rememberNow {τ : Type} (timeNow : τ → Time × τ) (w : τ × Time) : Time × (τ × Time) :=
  ((timeNow w.1).1, ((timeNow w.1).2, (timeNow w.1).1))

/-- The attempt function on a world that remembers the last clock reading. -/
def rememberFn {τ : Type} (fn : Time → τ → error × τ) (deadline : Time) (w : τ × Time) :
    error × (τ × Time) :=
  ((fn deadline w.1).1, ((fn deadline w.1).2, w.2))

/-- The attempt function `fn` with a log of the errors it returned, oldest
first. -/
def logErrors {τ : Type} (fn : Time → τ → error × τ) (deadline : Time) (w : τ × List error) :
    error × (τ × List error) :=
  ((fn deadline w.1).1, ((fn deadline w.1).2, w.2 ++ [(fn deadline w.1).1]))

/-- The number of logged attempts that did not end in an immediate retry. -/
def retry.counted (r : retry) (log : List error) : Nat :=
  (log.filter (fun e => !callPred r.retryImmediate e)).length

/-- An attempt that receives, 100ms later, a packet from a sender other than
the gateway, on a world that is nothing but a clock. -/
def foreignPacket (_deadline : Time) (n : Nat) : error × Nat :=
  (some (Err.mistmatchedGatewayErr ip10 [10, 0, 0, 2]), n + 100000000)

/-! ## The legacy client (`natpmp.go`) -/

/-- The errors of the legacy client (`natpmp.go`): the error of the caller, or
one of its own `fmt.Errorf`. -/
inductive LegacyErr where
  | caller (e : Err)
  | unknownProtocol (protocol : String)
  | unexpectedSize (got : Nat) (want : Nat)
  | unknownVersion (v : Byte)
  | unexpectedOpcode (got : Byte) (want : Byte)
  | nonZeroResultCode (code : U16)
deriving DecidableEq, Repr

/-- The `Error()` text of each error of the legacy client. -/
def LegacyErr.Error : LegacyErr → String
  | .caller e => e.Error
  | .unknownProtocol protocol => "unknown protocol " ++ protocol
  | .unexpectedSize got want =>
      "unexpected result size " ++ toString got ++ ", expected " ++ toString want
  | .unknownVersion v => "unknown protocol version " ++ toString v.val
  | .unexpectedOpcode got want =>
      "Unexpected opcode " ++ toString got.val ++ ". Expected " ++ toString want.val
  | .nonZeroResultCode code => "Non-zero result code " ++ toString code.val

/-- The interface `caller` of `natpmp.go`: `call` returns the result and the
error, `none` when it does not return. -/
structure Legacy.caller (σ : Type) where
  call : Bytes → Duration → σ → Option (Bytes × error) × σ

/-- The legacy `Client`. -/
structure Legacy.Client (σ : Type) where
  caller : Legacy.caller σ
  timeout : Duration

/-- The legacy type `Option`. -/
abbrev Legacy.ClientOption (σ : Type) := Legacy.Client σ → Legacy.Client σ

/-- The legacy option `WithTimeout`. -/
def Legacy.WithTimeout {σ : Type} (timeout : Duration) : Legacy.ClientOption σ :=
  fun client => { client with timeout := timeout }

/-- Go's `uint32(x)` for an `int` x: reduction modulo 2^32. -/
def u32OfInt (x : Int) : U32 := u32 (x % 4294967296).toNat

/-- The function `protocolChecks` of `natpmp.go`.  The indexed bytes exist
once the length test has passed, `n` being 12 or 16. -/
def Legacy.protocolChecks (msg : Bytes) (n : Nat) (result : Bytes) : Option LegacyErr :=
  if result.length ≠ n then some (LegacyErr.unexpectedSize result.length n)
  else if result.getD 0 0 ≠ 0 then some (LegacyErr.unknownVersion (result.getD 0 0))
  else if result.getD 1 0 ≠ byte ((msg.getD 1 0).val ||| 0x80) then
    some (LegacyErr.unexpectedOpcode (result.getD 1 0) (byte ((msg.getD 1 0).val ||| 0x80)))
  else if be16 (result.getD 2 0) (result.getD 3 0) ≠ 0 then
    some (LegacyErr.nonZeroResultCode (be16 (result.getD 2 0) (result.getD 3 0)))
  else none

/-- The legacy `Client.rpc`. -/
def Legacy.rpc {σ : Type} (c : Legacy.Client σ) (msg : Bytes) (resultSize : Nat) (s : σ) :
    Option (Bytes × Option LegacyErr) × σ :=
  match c.caller.call msg c.timeout s with
  | (none, s1) => (none, s1)
  | (some (result, some e), s1) => (some (result, some (LegacyErr.caller e)), s1)
  | (some (result, none), s1) => (some (result, Legacy.protocolChecks msg resultSize result), s1)

/-- The 12 bytes the legacy `AddPortMapping` builds in `msg`. -/
def Legacy.mappingMsg (opcode : Byte) (internalPort requestedExternalPort lifetime : Int) :
    Bytes :=
  [0, opcode, 0, 0] ++ putU16 (u16OfInt internalPort) ++ putU16 (u16OfInt requestedExternalPort)
    ++ putU32 (u32OfInt lifetime)

/-- The opcode chosen at the start of the legacy `AddPortMapping`. -/
def Legacy.protocolOpcode (protocol : String) : Except LegacyErr Byte :=
  if protocol = "udp" then Except.ok 1
  else if protocol = "tcp" then Except.ok 2
  else Except.error (LegacyErr.unknownProtocol protocol)

/-- The legacy `Client.AddPortMapping`; its lifetime is an `int` of seconds. -/
def Legacy.AddPortMapping {σ : Type} (c : Legacy.Client σ) (protocol : String)
    (internalPort requestedExternalPort lifetime : Int) (s : σ) :
    Option (Except LegacyErr PortMapping) × σ :=
  match Legacy.protocolOpcode protocol with
  | Except.error e => (some (Except.error e), s)
  | Except.ok opcode =>
    match Legacy.rpc c (Legacy.mappingMsg opcode internalPort requestedExternalPort lifetime)
        16 s with
    | (none, s1) => (none, s1)
    | (some (_, some e), s1) => (some (Except.error e), s1)
    | (some (response, none), s1) =>
        (some (Except.ok
          { EpochDuration := secondsDuration (be32 (response.getD 4 0) (response.getD 5 0)
              (response.getD 6 0) (response.getD 7 0))
            InternalPort := be16 (response.getD 8 0) (response.getD 9 0)
            MappedExternalPort := be16 (response.getD 10 0) (response.getD 11 0)
            Lifetime := secondsDuration (be32 (response.getD 12 0) (response.getD 13 0)
              (response.getD 14 0) (response.getD 15 0)) }), s1)

/-! ## The legacy caller `network` (`network.go`) -/

/-- The test `ne, ok := err.(net.Error); ok && ne.Timeout()` of `network.call`:
a type assertion on the error itself, with no unwrapping. -/
def Err.isNetTimeout : Err → Bool
  | .timeout _ => true
  | _ => false

/-- What one pass through the `for` statement of `network.call` does: go
round again with new loop variables, or return. -/
inductive Legacy.CallStep (σ : Type) where
  | next (tries : Nat) (needNewDeadline : Bool) (result : Bytes) (s : σ)
  | ret (result : Bytes) (err : error) (s : σ)

/-- The part of a pass of `network.call` after the deadline has been dealt
with: `Write`, then `ReadFromUDP` into `result`. -/
def Legacy.exchange {σ : Type} (n : UDPConn σ) (gateway : IP) (msg : Bytes) (tries : Nat)
    (result : Bytes) (s : σ) : Legacy.CallStep σ :=
  match n.Write msg s with
  | (some e, s1) => Legacy.CallStep.ret result (some e) s1
  | (none, s1) =>
    match n.ReadFromUDP result.length s1 with
    | ((got, _, some e), s2) =>
      if e.isNetTimeout then
        Legacy.CallStep.next ((tries + 1) % 18446744073709551616) true
          (got.take result.length ++ result.drop got.length) s2
      else Legacy.CallStep.ret (got.take result.length ++ result.drop got.length) (some e) s2
    | ((got, remoteIP, none), s2) =>
      if !(IP.Equal remoteIP gateway) then
        Legacy.CallStep.next tries false (got.take result.length ++ result.drop got.length) s2
      else Legacy.CallStep.ret (got.take result.length) none s2

/-- One pass of the `for` statement of `network.call`: the condition (the same
expression as in `retry.run`), a new deadline when one is needed, then the
exchange. -/
def Legacy.callStep {σ : Type} (n : UDPConn σ) (timeNow : σ → Time × σ) (gateway : IP)
    (msg : Bytes) (finalTimeout : Time) (tries : Nat) (needNewDeadline : Bool) (result : Bytes)
    (s : σ) : Legacy.CallStep σ :=
  let c := retry.cond timeNow finalTimeout tries s
  if c.1 then
    if needNewDeadline then
      match n.SetDeadline
          (Legacy.minTime ((timeNow c.2).1 + backoff tries) finalTimeout) (timeNow c.2).2 with
      | (some e, s1) => Legacy.CallStep.ret result (some e) s1
      | (none, s1) => Legacy.exchange n gateway msg tries result s1
    else Legacy.exchange n gateway msg tries result c.2
  else Legacy.CallStep.ret result (some Err.timedOut) c.2

/-- The `for` statement of `network.call`, at most `fuel` passes. -/
def Legacy.callLoop {σ : Type} (n : UDPConn σ) (timeNow : σ → Time × σ) (gateway : IP)
    (msg : Bytes) (finalTimeout : Time) : Nat → Nat → Bool → Bytes → σ → Option (Bytes × error) × σ
  | 0, _, _, _, s => (none, s)
  | fuel + 1, tries, needNewDeadline, result, s =>
    match Legacy.callStep n timeNow gateway msg finalTimeout tries needNewDeadline result s with
    | Legacy.CallStep.next tries1 need1 result1 s1 =>
        Legacy.callLoop n timeNow gateway msg finalTimeout fuel tries1 need1 result1 s1
    | Legacy.CallStep.ret result1 err s1 => (some (result1, err), s1)

/-- The method `network.call` of `network.go`, on the gateway port
`defaultPort`; the deferred `Close` runs on every return after a successful
dial. -/
def Legacy.networkCall {σ : Type} (n : UDPConn σ) (timeNow : σ → Time × σ) (fuel : Nat)
    (gateway : IP) (msg : Bytes) (timeout : Duration) (s : σ) : Option (Bytes × error) × σ :=
  match n.DialUDP gateway defaultPort s with
  | (some e, s1) => (some ([], some e), s1)
  | (none, s1) =>
    let f : Time × σ := if timeout ≠ 0 then ((timeNow s1).1 + timeout, (timeNow s1).2) else (0, s1)
    match Legacy.callLoop n timeNow gateway msg f.1 fuel 0 true resultBuffer f.2 with
    | (none, s2) => (none, s2)
    | (some out, s2) => (some out, (n.Close s2).2)

/-- The caller `&network{gateway}`. -/
def Legacy.network {σ : Type} (n : UDPConn σ) (timeNow : σ → Time × σ) (fuel : Nat)
    (gateway : IP) : Legacy.caller σ where
  call := Legacy.networkCall n timeNow fuel gateway

/-- The legacy `NewClient`: it returns `&Client{&network{gateway}, 0}` and does
not look at `opts`. -/
def Legacy.NewClient {σ : Type} (n : UDPConn σ) (timeNow : σ → Time × σ) (fuel : Nat)
    (gateway : IP) (_opts : List (Legacy.ClientOption σ)) : Legacy.Client σ :=
  { caller := Legacy.network n timeNow fuel gateway, timeout := 0 }

/-! ## A socket to a gateway that never answers -/

/-- A world for runs on a socket: the wall clock, the deadline set on the
socket and the number of datagrams written. -/
structure UdpWorld where
  clock : Time
  deadline : Time
  written : Nat
deriving DecidableEq, Repr

/-- A socket to a gateway that never answers: `ReadFromUDP` blocks until the
deadline set on the socket and reports a timeout. -/
def silentConn : UDPConn UdpWorld where
  DialUDP := fun _ _ w => (none, w)
  Close := fun w => (none, w)
  SetDeadline := fun d w => (none, { w with deadline := d })
  Write := fun _ w => (none, { w with written := w.written + 1 })
  ReadFromUDP := fun _ w =>
    (([], [], some (Err.timeout "i/o timeout")), { w with clock := max w.clock w.deadline })

/-- The wall clock of the socket world. -/
def udpClock (w : UdpWorld) : Time × UdpWorld := (w.clock, w)

/-! ## Comparing the outcomes of the legacy and the new client -/

/-- The stage at which a call fails: the protocol test, the exchange with the
gateway, or one of the four checks on the reply. -/
inductive Stage where
  | protocol
  | exchange
  | size
  | version
  | opcode
  | resultCode
deriving DecidableEq, Repr

/-- The stage of an error of the legacy client. -/
def LegacyErr.stage : LegacyErr → Stage
  | .caller _ => Stage.exchange
  | .unknownProtocol _ => Stage.protocol
  | .unexpectedSize _ _ => Stage.size
  | .unknownVersion _ => Stage.version
  | .unexpectedOpcode _ _ => Stage.opcode
  | .nonZeroResultCode _ => Stage.resultCode

/-- The stage of an error of the new client, seen through the wrapping of
`fmt.Errorf`. -/
def Err.stage : Err → Stage
  | .wrap _ inner => inner.stage
  | .unknownProtocol _ => Stage.protocol
  | .unexpectedSize _ _ => Stage.size
  | .unexpectedSizeForType _ _ => Stage.size
  | .unknownVersion _ => Stage.version
  | .unexpectedOpcode _ _ => Stage.opcode
  | .ResultCodeErr _ => Stage.resultCode
  | _ => Stage.exchange

/-- The outcome of a legacy call: the mapping, or the stage of its error. -/
def Legacy.outcome : Except LegacyErr PortMapping → Except Stage PortMapping
  | Except.ok m => Except.ok m
  | Except.error e => Except.error e.stage

/-- The outcome of a call of the new client: the mapping, or the stage of its
error. -/
def outcome : Except Err PortMapping → Except Stage PortMapping
  | Except.ok m => Except.ok m
  | Except.error e => Except.error e.stage

/-- A caller that returns the bytes `d` and a nil error. -/
def fixedCaller (d : Bytes) : Legacy.caller Unit where
  call := fun _ _ s => (some (d, none), s)

/-! ## Package `flags` (`flags/values.go`): `IPValue` -/

/-- The type `IPValue` of `flags/values.go`, a `net.IP`: a byte slice, `none`
being the nil slice. -/
abbrev IPValue := Option Bytes

/-- The method `IPValue.IsSet`: the comparison `*v == nil`. -/
def IPValue.IsSet (v : IPValue) : Bool := decide (v = none)

/-- The method `IPValue.Set`.  The receiver is a pointer: `none` is the nil
pointer, `some x` points to a variable holding `x`; the result is what that
variable holds afterwards and the error.  `parseIP` is `net.ParseIP`, which
yields nil on a string that is not a textual IP address. -/
def IPValue.Set (parseIP : String → IPValue) (v : Option IPValue) (s : String) :
    Option IPValue × Option FlagsErr :=
  let x := parseIP s
  match v with
  | none => (none, some (FlagsErr.errorf ("invalid gateway IP: " ++ s)))
  | some _ => (some x, none)

/-! ## Observing the legacy caller: the message of every `call` -/

/-- A legacy caller that records the message it is handed and answers with the
bytes `d`. -/
def recordingCaller (d : Bytes) : Legacy.caller (List Bytes) where
  call := fun msg _ log => (some (d, none), log ++ [msg])

/-! ## Lemmas on the model -/

theorem IP.Equal_nil_left (gw : IP) (h : gw.length = 4 ∨ gw.length = 16) :
    IP.Equal [] gw = false := by
  unfold IP.Equal
  rcases h with h | h <;> simp [h]

/-- With no sender address and a 4- or 16-byte gateway, the closure of `rpc`
returns the mismatch error, whatever `Send` reported, and keeps `result`. -/
theorem rpcAttempt_no_sender {σ : Type} (c : Client σ)
    (hgw : c.gatewayIP.length = 4 ∨ c.gatewayIP.length = 16) (reqBuf : Bytes) (deadline : Time)
    (st : Bytes × σ) (d : Bytes) (err : error) (s1 : σ)
    (hsend : c.transport.Send reqBuf st.1 deadline st.2 = ((d, [], err), s1)) :
    rpcAttempt c reqBuf deadline st
      = (some (Err.mistmatchedGatewayErr c.gatewayIP []), (st.1, s1)) := by
  simp [rpcAttempt, hsend, IP.Equal_nil_left c.gatewayIP hgw]

/-- A reply from the gateway with a nil error ends the closure of `rpc` with
a nil error and stores the reply in `result`. -/
theorem rpcAttempt_reply {σ : Type} (c : Client σ) (reqBuf : Bytes) (deadline : Time)
    (st : Bytes × σ) (d : Bytes) (remoteIP : IP) (err : error) (s1 : σ)
    (hsend : c.transport.Send reqBuf st.1 deadline st.2 = ((d, remoteIP, err), s1))
    (hip : IP.Equal remoteIP c.gatewayIP = true) :
    rpcAttempt c reqBuf deadline st = (err, (d, s1)) := by
  simp [rpcAttempt, hsend, hip]

/-- A property of the world that the clock and the attempt function preserve
holds after the loop of `retry.run`, fuel or no fuel. -/
theorem retry.loop_preserves {τ : Type} (r : retry) (timeNow : τ → Time × τ)
    (fn : Time → τ → error × τ) (P : τ → Prop)
    (hnow : ∀ w, P w → P (timeNow w).2) (hfn : ∀ d w, P w → P (fn d w).2)
    (finalDeadline : Time) (fuel : Nat) :
    ∀ (tries : Nat) (nextDeadline : Time) (w : τ), P w →
      P (r.loop timeNow fn finalDeadline fuel tries nextDeadline w).2 := by
  induction fuel with
  | zero => intro tries nextDeadline w hw; simpa [retry.loop] using hw
  | succ n ih =>
    intro tries nextDeadline w hw
    have hc : P (retry.cond timeNow finalDeadline tries w).2 := by
      unfold retry.cond
      split
      · exact hw
      · exact hnow w hw
    unfold retry.loop
    unfold retry.step
    by_cases h1 : (retry.cond timeNow finalDeadline tries w).1 = true
    · simp only [h1, if_true]
      have ha := hfn (minTime nextDeadline finalDeadline) _ hc
      by_cases h2 : callPred r.retryImmediate
          (fn (minTime nextDeadline finalDeadline) (retry.cond timeNow finalDeadline tries w).2).1 = true
      · simp only [h2, if_true]
        exact ih _ _ _ ha
      · simp only [h2]
        by_cases h3 : callPred r.retryDelay
            (fn (minTime nextDeadline finalDeadline) (retry.cond timeNow finalDeadline tries w).2).1 = true
        · simp only [h3, if_true]
          exact ih _ _ _ (hnow _ ha)
        · simp only [h3]
          exact ha
    · simp only [h1]
      exact hc

/-- The same for `retry.run`. -/
theorem retry.run_preserves {τ : Type} (r : retry) (timeNow : τ → Time × τ)
    (fn : Time → τ → error × τ) (P : τ → Prop)
    (hnow : ∀ w, P w → P (timeNow w).2) (hfn : ∀ d w, P w → P (fn d w).2)
    (fuel : Nat) (w : τ) (hw : P w) : P (r.run timeNow fn fuel w).2 := by
  unfold retry.run
  apply retry.loop_preserves r timeNow fn P hnow hfn
  apply hnow
  unfold retry.finalDeadline
  split
  · exact hnow w hw
  · exact hw

theorem rpc_of_run {σ : Type} (c : Client σ) (timeNow : σ → Time × σ) (req : request)
    (k : responseType) (resp : k.record) (fuel : Nat) (s s1 s2 : σ) (d : Bytes)
    (hopen : c.transport.Open c.gatewayIP c.port s = (none, s1))
    (hrun : (rpcRetry c.timeout).run (liftNow timeNow) (rpcAttempt c (binaryWrite req)) fuel
      (resultBuffer, s1) = (some none, (d, s2))) :
    rpc c timeNow req k resp fuel s = (some (rpcChecks req k resp d), (c.transport.Close s2).2) := by
  simp [rpc, hopen, hrun]

theorem cons_of_length {α : Type} (n : Nat) (l : List α) (h : l.length = n + 1) :
    ∃ a t, l = a :: t ∧ t.length = n := by
  cases l with
  | nil => simp at h
  | cons a t => exact ⟨a, t, rfl, by simpa using h⟩

theorem decode_of_length (k : responseType) (d : Bytes) (h : d.length = k.size) :
    ∃ r, k.decode d = some r := by
  cases k with
  | extAddrResp =>
    simp only [responseType.size] at h
    obtain ⟨a0, d0, rfl, h0⟩ := cons_of_length 11 d h
    obtain ⟨a1, d1, rfl, h1⟩ := cons_of_length 10 d0 h0
    obtain ⟨a2, d2, rfl, h2⟩ := cons_of_length 9 d1 h1
    obtain ⟨a3, d3, rfl, h3⟩ := cons_of_length 8 d2 h2
    obtain ⟨a4, d4, rfl, h4⟩ := cons_of_length 7 d3 h3
    obtain ⟨a5, d5, rfl, h5⟩ := cons_of_length 6 d4 h4
    obtain ⟨a6, d6, rfl, h6⟩ := cons_of_length 5 d5 h5
    obtain ⟨a7, d7, rfl, h7⟩ := cons_of_length 4 d6 h6
    obtain ⟨a8, d8, rfl, h8⟩ := cons_of_length 3 d7 h7
    obtain ⟨a9, d9, rfl, h9⟩ := cons_of_length 2 d8 h8
    obtain ⟨a10, d10, rfl, h10⟩ := cons_of_length 1 d9 h9
    obtain ⟨a11, d11, rfl, h11⟩ := cons_of_length 0 d10 h10
    exact ⟨_, rfl⟩
  | mappingResp =>
    simp only [responseType.size] at h
    obtain ⟨a0, d0, rfl, h0⟩ := cons_of_length 15 d h
    obtain ⟨a1, d1, rfl, h1⟩ := cons_of_length 14 d0 h0
    obtain ⟨a2, d2, rfl, h2⟩ := cons_of_length 13 d1 h1
    obtain ⟨a3, d3, rfl, h3⟩ := cons_of_length 12 d2 h2
    obtain ⟨a4, d4, rfl, h4⟩ := cons_of_length 11 d3 h3
    obtain ⟨a5, d5, rfl, h5⟩ := cons_of_length 10 d4 h4
    obtain ⟨a6, d6, rfl, h6⟩ := cons_of_length 9 d5 h5
    obtain ⟨a7, d7, rfl, h7⟩ := cons_of_length 8 d6 h6
    obtain ⟨a8, d8, rfl, h8⟩ := cons_of_length 7 d7 h7
    obtain ⟨a9, d9, rfl, h9⟩ := cons_of_length 6 d8 h8
    obtain ⟨a10, d10, rfl, h10⟩ := cons_of_length 5 d9 h9
    obtain ⟨a11, d11, rfl, h11⟩ := cons_of_length 4 d10 h10
    obtain ⟨a12, d12, rfl, h12⟩ := cons_of_length 3 d11 h11
    obtain ⟨a13, d13, rfl, h13⟩ := cons_of_length 2 d12 h12
    obtain ⟨a14, d14, rfl, h14⟩ := cons_of_length 1 d13 h13
    obtain ⟨a15, d15, rfl, h15⟩ := cons_of_length 0 d14 h14
    exact ⟨_, rfl⟩

theorem decode_version_opcode (k : responseType) (v o : Byte) (rest : Bytes) (r : k.record)
    (h : k.decode (v :: o :: rest) = some r) :
    k.version r = (v.val : Int) ∧ k.opcode r = o := by
  cases k with
  | extAddrResp =>
    simp only [responseType.decode] at h
    unfold extAddrResp.decode at h
    split at h
    · rename_i heq
      simp only [List.cons.injEq] at heq
      obtain ⟨rfl, rfl, _⟩ := heq
      simp only [Option.some.injEq] at h
      subst h
      simp [responseType.version, responseType.opcode]
    · simp at h
  | mappingResp =>
    simp only [responseType.decode] at h
    unfold mappingResp.decode at h
    split at h
    · rename_i heq
      simp only [List.cons.injEq] at heq
      obtain ⟨rfl, rfl, _⟩ := heq
      simp only [Option.some.injEq] at h
      subst h
      simp [responseType.version, responseType.opcode]
    · simp at h

theorem decode_resultCode (k : responseType) (v o r0 r1 : Byte) (rest : Bytes) (r : k.record)
    (h : k.decode (v :: o :: r0 :: r1 :: rest) = some r) :
    k.resultCode r = ((be16 r0 r1).val : Int) := by
  cases k with
  | extAddrResp =>
    simp only [responseType.decode] at h
    unfold extAddrResp.decode at h
    split at h
    · rename_i heq
      simp only [List.cons.injEq] at heq
      obtain ⟨rfl, rfl, rfl, rfl, _⟩ := heq
      simp only [Option.some.injEq] at h
      subst h
      simp [responseType.resultCode]
    · simp at h
  | mappingResp =>
    simp only [responseType.decode] at h
    unfold mappingResp.decode at h
    split at h
    · rename_i heq
      simp only [List.cons.injEq] at heq
      obtain ⟨rfl, rfl, rfl, rfl, _⟩ := heq
      simp only [Option.some.injEq] at h
      subst h
      simp [responseType.resultCode]
    · simp at h

theorem rpcChecks_size (req : request) (k : responseType) (resp : k.record) (d : Bytes)
    (h : d.length ≠ k.size) :
    (rpcChecks req k resp d).1 = some (Err.unexpectedSize d.length k.size) := by
  simp [rpcChecks, h]

/-- On a reply of the expected length the `switch` of `rpc` comes down to the
version, opcode and result-code tests on the decoded record. -/
theorem rpcChecks_decoded (req : request) (k : responseType) (resp : k.record) (d : Bytes)
    (r : k.record) (hlen : d.length = k.size) (hdec : k.decode d = some r) :
    rpcChecks req k resp d =
      if k.version r ≠ 0 then (some (Err.unknownVersion (k.version r)), r)
      else if k.opcode r ≠ byte (req.opcode.val ||| 0x80) then
        (some (Err.unexpectedOpcode (k.opcode r) (byte (req.opcode.val ||| 0x80))), r)
      else if k.resultCode r ≠ 0 then (some (Err.ResultCodeErr (k.resultCode r)), r)
      else (none, r) := by
  simp [rpcChecks, binaryRead, hdec, hlen]

theorem be16_eq_zero (a b : Byte) : be16 a b = 0 ↔ a = 0 ∧ b = 0 := by
  have ha := a.isLt
  have hb := b.isLt
  constructor
  · intro h
    have h1 : (be16 a b).val = 0 := by rw [h]; rfl
    simp only [be16, u16] at h1
    constructor <;> apply Fin.ext <;> simp <;> omega
  · rintro ⟨rfl, rfl⟩
    rfl

theorem rpcRetry_retryImmediate (t : Duration) :
    (rpcRetry t).retryImmediate = some retryMismatched := by
  by_cases h : t = 0 <;> simp [rpcRetry, h]

theorem rpcRetry_retryDelay (t : Duration) :
    (rpcRetry t).retryDelay = some retryTimeoutErrors := by
  by_cases h : t = 0 <;> simp [rpcRetry, h]

theorem rpcRetry_timeout (t : Duration) :
    (rpcRetry t).timeout = if t = 0 then 1 * Second else t := by
  by_cases h : t = 0 <;> simp [rpcRetry, h]

/-- C1 (code at the failing input). A test double whose `Send` fails with the
non-timeout error "connection refused" (no payload, no sender), gateway
10.0.0.1, a clock on which each reading is 300ms later: `rpc` calls `Send`
twice and returns "Timed out trying to contact gateway", not the I/O error. -/
theorem rpc_io_error_is_retried :
    rpc testClient.recording (recNow (tickClock (300 * Millisecond))) (request.extAddr ⟨0, 0⟩)
        responseType.extAddrResp extAddrResp.zero 10
        (startWorld (failingDouble (Err.io "connection refused")), [])
      = (some (some Err.timedOut, extAddrResp.zero),
          ({ clock := 1001500000000,
             t := { err := some (Err.io "connection refused"), gateway := ip10,
                    testCall := ⟨[0, 0], []⟩ } },
           [[0, 0], [0, 0]])) := by
  rfl

/-- C2 (what the code does instead). For a gateway IP of 4 or 16 bytes, when
`Send` fails with a timeout-class error and no sender address, the error the
closure hands to the scheduler is the gateway-mismatch error: it satisfies the
immediate-retry predicate and not the delayed-retry one, and the pass of the
loop leaves the attempt counter and the next deadline as they were. -/
theorem rpc_timeout_handed_as_mismatch {σ : Type} (c : Client σ)
    (hgw : c.gatewayIP.length = 4 ∨ c.gatewayIP.length = 16) (timeNow : σ → Time × σ)
    (reqBuf : Bytes) (finalDeadline : Time) (tries : Nat) (nextDeadline : Time)
    (st : Bytes × σ) (d : Bytes) (e : Err) (s1 : σ)
    (hcond : (retry.cond (liftNow timeNow) finalDeadline tries st).1 = true)
    (hsend : c.transport.Send reqBuf (retry.cond (liftNow timeNow) finalDeadline tries st).2.1
        (minTime nextDeadline finalDeadline)
        (retry.cond (liftNow timeNow) finalDeadline tries st).2.2 = ((d, [], some e), s1))
    (_he : e.isTimeout = true) :
    retryMismatched (rpcAttempt c reqBuf (minTime nextDeadline finalDeadline)
        (retry.cond (liftNow timeNow) finalDeadline tries st).2).1 = true
    ∧ retryTimeoutErrors (rpcAttempt c reqBuf (minTime nextDeadline finalDeadline)
        (retry.cond (liftNow timeNow) finalDeadline tries st).2).1 = false
    ∧ (rpcRetry c.timeout).step (liftNow timeNow) (rpcAttempt c reqBuf) finalDeadline tries
        nextDeadline st
        = Step.next tries nextDeadline
            ((retry.cond (liftNow timeNow) finalDeadline tries st).2.1, s1) := by
  have ha := rpcAttempt_no_sender c hgw reqBuf (minTime nextDeadline finalDeadline) _ d (some e) s1 hsend
  refine ⟨?_, ?_, ?_⟩
  · rw [ha]; rfl
  · rw [ha]; rfl
  · unfold retry.step
    simp only [hcond, if_true, ha]
    simp [rpcRetry_retryImmediate, callPred, retryMismatched, Err.isMismatchedGateway]

theorem rpc_timeout_handed_as_mismatch_witness :
    (testClient.gatewayIP.length = 4 ∨ testClient.gatewayIP.length = 16)
    ∧ (Err.timeout "i/o timeout").isTimeout = true
    ∧ retryMismatched (rpcAttempt testClient [0, 0] (minTime 1000550000000 1001000000000)
        (retry.cond (liftNow (tickClock (300 * Millisecond))) 1001000000000 0
          (resultBuffer, openedWorld 1000600000000
            (failingDouble (Err.timeout "i/o timeout")))).2).1 = true
    ∧ retryTimeoutErrors (rpcAttempt testClient [0, 0] (minTime 1000550000000 1001000000000)
        (retry.cond (liftNow (tickClock (300 * Millisecond))) 1001000000000 0
          (resultBuffer, openedWorld 1000600000000
            (failingDouble (Err.timeout "i/o timeout")))).2).1 = false
    ∧ (rpcRetry testClient.timeout).step (liftNow (tickClock (300 * Millisecond)))
        (rpcAttempt testClient [0, 0]) 1001000000000 0 1000550000000
        (resultBuffer, openedWorld 1000600000000 (failingDouble (Err.timeout "i/o timeout")))
        = Step.next 0 1000550000000
            (resultBuffer, openedWorld 1000900000000 (failingDouble (Err.timeout "i/o timeout"))) :=
  ⟨by decide, by rfl,
    rpc_timeout_handed_as_mismatch testClient (by decide) (tickClock (300 * Millisecond)) [0, 0]
      1001000000000 0 1000550000000
      (resultBuffer, openedWorld 1000600000000 (failingDouble (Err.timeout "i/o timeout")))
      [] (Err.timeout "i/o timeout")
      (openedWorld 1000900000000 (failingDouble (Err.timeout "i/o timeout")))
      (by rfl) (by rfl) (by rfl)⟩

/-- C3. When the exchange ends with the reply `d` (the retry run returns a nil
error with `d` as the result) and the length of `d` differs from the size of
the response record, 12 for `extAddrResp` and 16 for `mappingResp`, `rpc`
returns the error "unexpected result size <len d>, expected <size>",
whatever the bytes of `d` are. -/
theorem rpc_unexpected_result_size {σ : Type} (c : Client σ) (timeNow : σ → Time × σ)
    (req : request) (k : responseType) (resp : k.record) (fuel : Nat) (s s1 s2 : σ) (d : Bytes)
    (hopen : c.transport.Open c.gatewayIP c.port s = (none, s1))
    (hrun : (rpcRetry c.timeout).run (liftNow timeNow) (rpcAttempt c (binaryWrite req)) fuel
      (resultBuffer, s1) = (some none, (d, s2)))
    (hlen : d.length ≠ k.size) :
    (rpc c timeNow req k resp fuel s).1.map Prod.fst
        = some (some (Err.unexpectedSize d.length k.size))
    ∧ (Err.unexpectedSize d.length k.size).Error
        = "unexpected result size " ++ toString d.length ++ ", expected " ++ toString k.size
    ∧ responseType.extAddrResp.size = 12 ∧ responseType.mappingResp.size = 16 := by
  refine ⟨?_, rfl, rfl, rfl⟩
  rw [rpc_of_run c timeNow req k resp fuel s s1 s2 d hopen hrun]
  simp [rpcChecks_size req k resp d hlen]

theorem rpc_unexpected_result_size_witness :
    ([0] : Bytes).length ≠ responseType.mappingResp.size
    ∧ (rpc testClient (tickClock Millisecond) tcpRequest responseType.mappingResp mappingResp.zero 3
        (startWorld (answeringDouble tcpRequestBytes [0]))).1.map Prod.fst
        = some (some (Err.unexpectedSize 1 16))
    ∧ (Err.unexpectedSize 1 16).Error = "unexpected result size 1, expected 16" :=
  ⟨by decide,
    (rpc_unexpected_result_size testClient (tickClock Millisecond) tcpRequest
      responseType.mappingResp mappingResp.zero 3
      (startWorld (answeringDouble tcpRequestBytes [0]))
      (openedWorld 1000000000000 (answeringDouble tcpRequestBytes [0]))
      (openedWorld 1000003000000 (answeringDouble tcpRequestBytes [0]))
      [0] (by rfl) (by rfl) (by decide)).1,
    by decide⟩

/-- C4. After an exchange that ends with the reply `d`, the checks of `rpc` run
in the order length, version, opcode echo, result code, and the first one
that fails gives the error: a wrong length gives "unexpected result size"; a
reply of the right length with a non-zero version byte gives "unknown protocol
version" whatever follows; a reply of the right length with version 0 and an
opcode other than `requestOpcode | 0x80` gives "unexpected opcode" whatever
the result code is. -/
theorem rpc_checks_in_order {σ : Type} (c : Client σ) (timeNow : σ → Time × σ)
    (req : request) (k : responseType) (resp : k.record) (fuel : Nat) (s s1 s2 : σ) (d : Bytes)
    (hopen : c.transport.Open c.gatewayIP c.port s = (none, s1))
    (hrun : (rpcRetry c.timeout).run (liftNow timeNow) (rpcAttempt c (binaryWrite req)) fuel
      (resultBuffer, s1) = (some none, (d, s2))) :
    (d.length ≠ k.size →
      (rpc c timeNow req k resp fuel s).1.map Prod.fst
        = some (some (Err.unexpectedSize d.length k.size)))
    ∧ (∀ (v o : Byte) (rest : Bytes), d = v :: o :: rest → d.length = k.size → v ≠ 0 →
      (rpc c timeNow req k resp fuel s).1.map Prod.fst
        = some (some (Err.unknownVersion (v.val : Int))))
    ∧ (∀ (o : Byte) (rest : Bytes), d = 0 :: o :: rest → d.length = k.size →
      o ≠ byte (req.opcode.val ||| 0x80) →
      (rpc c timeNow req k resp fuel s).1.map Prod.fst
        = some (some (Err.unexpectedOpcode o (byte (req.opcode.val ||| 0x80))))) := by
  rw [rpc_of_run c timeNow req k resp fuel s s1 s2 d hopen hrun]
  refine ⟨?_, ?_, ?_⟩
  · intro hlen
    simp [rpcChecks_size req k resp d hlen]
  · intro v o rest hd hlen hv
    obtain ⟨r, hr⟩ := decode_of_length k d hlen
    have hvo := decode_version_opcode k v o rest r (hd ▸ hr)
    have hv0 : k.version r ≠ 0 := by
      rw [hvo.1]
      intro h0
      exact hv (Fin.ext (by exact_mod_cast h0))
    have hvn : (v : Nat) ≠ 0 := fun h => hv (Fin.ext h)
    rw [rpcChecks_decoded req k resp d r hlen hr]
    simp [hvo.1, hvn]
  · intro o rest hd hlen ho
    obtain ⟨r, hr⟩ := decode_of_length k d hlen
    have hvo := decode_version_opcode k 0 o rest r (hd ▸ hr)
    have hv0 : k.version r = 0 := by rw [hvo.1]; rfl
    rw [rpcChecks_decoded req k resp d r hlen hr]
    simp [hv0, hvo.2, ho]

theorem rpc_checks_in_order_witness :
    (rpc testClient (tickClock Millisecond) tcpRequest responseType.mappingResp mappingResp.zero 3
        (startWorld (answeringDouble tcpRequestBytes
          [0x1, 0x88, 0x0, 0x11, 0x0, 0x14, 0x4, 0x96, 0x0, 0x7b, 0x0, 0x0, 0x0, 0x0, 0x0, 0x0]))).1.map
        Prod.fst
      = some (some (Err.unknownVersion 1)) :=
  (rpc_checks_in_order testClient (tickClock Millisecond) tcpRequest
      responseType.mappingResp mappingResp.zero 3
      (startWorld (answeringDouble tcpRequestBytes
        [0x1, 0x88, 0x0, 0x11, 0x0, 0x14, 0x4, 0x96, 0x0, 0x7b, 0x0, 0x0, 0x0, 0x0, 0x0, 0x0]))
      (openedWorld 1000000000000 (answeringDouble tcpRequestBytes
        [0x1, 0x88, 0x0, 0x11, 0x0, 0x14, 0x4, 0x96, 0x0, 0x7b, 0x0, 0x0, 0x0, 0x0, 0x0, 0x0]))
      (openedWorld 1000003000000 (answeringDouble tcpRequestBytes
        [0x1, 0x88, 0x0, 0x11, 0x0, 0x14, 0x4, 0x96, 0x0, 0x7b, 0x0, 0x0, 0x0, 0x0, 0x0, 0x0]))
      [0x1, 0x88, 0x0, 0x11, 0x0, 0x14, 0x4, 0x96, 0x0, 0x7b, 0x0, 0x0, 0x0, 0x0, 0x0, 0x0]
      (by rfl) (by rfl)).2.1 0x1 0x88
      [0x0, 0x11, 0x0, 0x14, 0x4, 0x96, 0x0, 0x7b, 0x0, 0x0, 0x0, 0x0, 0x0, 0x0]
      (by rfl) (by rfl) (by decide)

/-- C5. After an exchange that ends with the reply `d`: when `d` has the
expected length, version 0, the opcode `requestOpcode | 0x80` and a non-zero
big-endian result code in bytes 2..4, `rpc` returns `ResultCodeErr` of exactly
that code, whatever the other bytes are; and `rpc` returns nil exactly when
`d` has the expected length, version 0, the echoed opcode and result code 0. -/
theorem rpc_result_code {σ : Type} (c : Client σ) (timeNow : σ → Time × σ)
    (req : request) (k : responseType) (resp : k.record) (fuel : Nat) (s s1 s2 : σ) (d : Bytes)
    (hopen : c.transport.Open c.gatewayIP c.port s = (none, s1))
    (hrun : (rpcRetry c.timeout).run (liftNow timeNow) (rpcAttempt c (binaryWrite req)) fuel
      (resultBuffer, s1) = (some none, (d, s2))) :
    (∀ (r0 r1 : Byte) (rest : Bytes),
      d = 0 :: byte (req.opcode.val ||| 0x80) :: r0 :: r1 :: rest → d.length = k.size →
      be16 r0 r1 ≠ 0 →
      (rpc c timeNow req k resp fuel s).1.map Prod.fst
        = some (some (Err.ResultCodeErr ((be16 r0 r1).val : Int))))
    ∧ ((rpc c timeNow req k resp fuel s).1.map Prod.fst = some none ↔
        d.length = k.size ∧
          ∃ rest : Bytes, d = 0 :: byte (req.opcode.val ||| 0x80) :: 0 :: 0 :: rest) := by
  rw [rpc_of_run c timeNow req k resp fuel s s1 s2 d hopen hrun]
  constructor
  · intro r0 r1 rest hd hlen hc
    obtain ⟨r, hr⟩ := decode_of_length k d hlen
    have hvo := decode_version_opcode k 0 _ _ r (hd ▸ hr)
    have hrc := decode_resultCode k 0 _ r0 r1 rest r (hd ▸ hr)
    have hv0 : k.version r = 0 := by rw [hvo.1]; rfl
    have hc0 : k.resultCode r ≠ 0 := by
      rw [hrc]
      intro h0
      exact hc (Fin.ext (by exact_mod_cast h0))
    have hcn : ((be16 r0 r1 : U16) : Nat) ≠ 0 := fun h => hc (Fin.ext h)
    rw [rpcChecks_decoded req k resp d r hlen hr]
    simp [hv0, hvo.2, hrc, hcn]
  · constructor
    · intro h
      by_cases hlen : d.length = k.size
      · refine ⟨hlen, ?_⟩
        obtain ⟨r, hr⟩ := decode_of_length k d hlen
        obtain ⟨v, o, r0, r1, rest, hd⟩ : ∃ v o r0 r1 rest, d = v :: o :: r0 :: r1 :: rest := by
          have h12 : 12 ≤ d.length := by rw [hlen]; cases k <;> simp [responseType.size]
          match d, h12 with
          | v :: o :: r0 :: r1 :: rest, _ => exact ⟨v, o, r0, r1, rest, rfl⟩
        have hvo := decode_version_opcode k v o _ r (hd ▸ hr)
        have hrc := decode_resultCode k v o r0 r1 rest r (hd ▸ hr)
        rw [rpcChecks_decoded req k resp d r hlen hr] at h
        by_cases hv : k.version r = 0
        · by_cases ho : k.opcode r = byte (req.opcode.val ||| 0x80)
          · by_cases hc : k.resultCode r = 0
            · have hv1 : v = 0 := by
                rw [hvo.1] at hv
                exact Fin.ext (by exact_mod_cast hv)
              have hc1 : be16 r0 r1 = 0 := by
                rw [hrc] at hc
                exact Fin.ext (by exact_mod_cast hc)
              obtain ⟨rfl, rfl⟩ := (be16_eq_zero r0 r1).1 hc1
              exact ⟨rest, by rw [hd, hv1, ← ho, hvo.2]⟩
            · simp [hv, ho, hc] at h
          · simp [hv, ho] at h
        · simp [hv] at h
      · simp [rpcChecks_size req k resp d hlen] at h
    · rintro ⟨hlen, rest, hd⟩
      obtain ⟨r, hr⟩ := decode_of_length k d hlen
      have hvo := decode_version_opcode k 0 _ _ r (hd ▸ hr)
      have hrc := decode_resultCode k 0 _ 0 0 rest r (hd ▸ hr)
      have hv0 : k.version r = 0 := by rw [hvo.1]; rfl
      have hc0 : k.resultCode r = 0 := by rw [hrc]; rfl
      rw [rpcChecks_decoded req k resp d r hlen hr]
      simp [hv0, hvo.2, hc0]

theorem rpc_result_code_witness :
    (rpc testClient (tickClock Millisecond) tcpRequest responseType.mappingResp mappingResp.zero 3
        (startWorld (answeringDouble tcpRequestBytes
          [0x0, 0x82, 0x0, 0x11, 0x0, 0x14, 0x4, 0x96, 0x0, 0x7b, 0x0, 0x0, 0x0, 0x0, 0x0, 0x0]))).1.map
        Prod.fst
      = some (some (Err.ResultCodeErr 17)) :=
  (rpc_result_code testClient (tickClock Millisecond) tcpRequest
      responseType.mappingResp mappingResp.zero 3
      (startWorld (answeringDouble tcpRequestBytes
        [0x0, 0x82, 0x0, 0x11, 0x0, 0x14, 0x4, 0x96, 0x0, 0x7b, 0x0, 0x0, 0x0, 0x0, 0x0, 0x0]))
      (openedWorld 1000000000000 (answeringDouble tcpRequestBytes
        [0x0, 0x82, 0x0, 0x11, 0x0, 0x14, 0x4, 0x96, 0x0, 0x7b, 0x0, 0x0, 0x0, 0x0, 0x0, 0x0]))
      (openedWorld 1000003000000 (answeringDouble tcpRequestBytes
        [0x0, 0x82, 0x0, 0x11, 0x0, 0x14, 0x4, 0x96, 0x0, 0x7b, 0x0, 0x0, 0x0, 0x0, 0x0, 0x0]))
      [0x0, 0x82, 0x0, 0x11, 0x0, 0x14, 0x4, 0x96, 0x0, 0x7b, 0x0, 0x0, 0x0, 0x0, 0x0, 0x0]
      (by rfl) (by rfl)).1 0x0 0x11
      [0x0, 0x14, 0x4, 0x96, 0x0, 0x7b, 0x0, 0x0, 0x0, 0x0, 0x0, 0x0]
      (by rfl) (by rfl) (by decide)

/-- The world after the closure of `rpc` is the world `Send` leaves behind. -/
theorem rpcAttempt_world {σ : Type} (c : Client σ) (reqBuf : Bytes) (deadline : Time)
    (st : Bytes × σ) :
    (rpcAttempt c reqBuf deadline st).2.2 = (c.transport.Send reqBuf st.1 deadline st.2).2 := by
  simp only [rpcAttempt]
  split <;> rfl

/-- Every `Send` that `rpc` performs is handed the encoded request: the log of
the recording transport only grows by copies of `binaryWrite req`. -/
theorem rpc_sends_only_request {σ : Type} (c : Client σ) (timeNow : σ → Time × σ)
    (req : request) (k : responseType) (resp : k.record) (fuel : Nat) (s : σ)
    (log : List Bytes) (hlog : ∀ b ∈ log, b = binaryWrite req) :
    ∀ b ∈ (rpc c.recording (recNow timeNow) req k resp fuel (s, log)).2.2,
      b = binaryWrite req := by
  have hrun : ∀ (st : Bytes × (σ × List Bytes)), (∀ b ∈ st.2.2, b = binaryWrite req) →
      ∀ b ∈ ((rpcRetry c.recording.timeout).run (liftNow (recNow timeNow))
        (rpcAttempt c.recording (binaryWrite req)) fuel st).2.2.2, b = binaryWrite req := by
    intro st hst
    apply retry.run_preserves (rpcRetry c.recording.timeout) (liftNow (recNow timeNow))
      (rpcAttempt c.recording (binaryWrite req)) (fun st => ∀ b ∈ st.2.2, b = binaryWrite req)
    · intro w hw
      exact hw
    · intro dl w hw b hb
      rw [rpcAttempt_world] at hb
      simp only [Client.recording, Transport.recording, List.mem_append, List.mem_singleton] at hb
      rcases hb with hb | hb
      · exact hw b hb
      · exact hb
    · exact hst
  simp only [rpc]
  split
  · rename_i err s1 hO
    simp only [Client.recording, Transport.recording, Prod.mk.injEq] at hO
    intro b hb
    rw [← hO.2] at hb
    exact hlog b hb
  · rename_i s1 hO
    simp only [Client.recording, Transport.recording, Prod.mk.injEq] at hO
    have hs1 : ∀ b ∈ s1.2, b = binaryWrite req := by
      intro b hb
      rw [← hO.2] at hb
      exact hlog b hb
    have h := hrun (resultBuffer, s1) hs1
    split
    · rename_i st hr
      rw [hr] at h
      exact h
    · rename_i err st hr
      rw [hr] at h
      exact h
    · rename_i st hr
      rw [hr] at h
      exact h

theorem secondsDuration_eq (x : U32) : secondsDuration x = (x.val : Int) * Second := by
  have h := x.isLt
  simp only [secondsDuration, wrapInt64, Second]
  show @Eq Int _ _
  omega

theorem u16OfInt_natCast (p : Nat) (hp : p ≤ 65535) : (u16OfInt (p : Int)).val = p := by
  simp only [u16OfInt, u16]
  omega

theorem lifetimeSecs_whole (fp : Duration → Nat) (n : Nat) (hn : n < 4294967296) :
    (lifetimeSecs fp ((n : Int) * Second)).val = n := by
  have h1 : ((n : Int) * Second) % Second = 0 := Int.mul_emod_left _ _
  have h2 : ((n : Int) * Second) / Second = (n : Int) :=
    Int.mul_ediv_cancel _ (by decide)
  simp only [lifetimeSecs, h1, h2, u32]
  have h3 : (0 : Int) ≤ n ∧ (n : Int) < 4294967296 := by omega
  simp only [true_and, h3, and_self, if_true, Int.toNat_ofNat]
  omega

/-- The bytes of the request record `AddPortMapping` builds from in-range
arguments. -/
theorem mappingRequest_encode (fp : Duration → Nat) (op : Byte) (p q n : Nat)
    (hp : p ≤ 65535) (hq : q ≤ 65535) (hn : n < 4294967296) :
    binaryWrite (request.mapping (mappingRequest fp op (p : Int) (q : Int) ((n : Int) * Second)))
      = [0, op, 0, 0, byte (p / 256), byte p, byte (q / 256), byte q,
          byte (n / 16777216), byte (n / 65536), byte (n / 256), byte n] := by
  simp [binaryWrite, mappingReq.encode, mappingRequest, putU16, putU32,
    u16OfInt_natCast p hp, u16OfInt_natCast q hq, lifetimeSecs_whole fp n hn]

theorem protocolOpcode_ok (protocol : String) (hproto : protocol = "udp" ∨ protocol = "tcp") :
    protocolOpcode protocol = Except.ok (if protocol = "udp" then 1 else 2) := by
  rcases hproto with h | h <;> subst h <;> rfl

/-- The world `AddPortMapping` leaves behind is the one its `rpc` call leaves. -/
theorem AddPortMapping_world {σ : Type} (c : Client σ) (timeNow : σ → Time × σ)
    (fp : Duration → Nat) (protocol : String) (op : Byte) (internalPort requestedExternalPort : Int)
    (lifetime : Duration) (fuel : Nat) (s : σ) (hop : protocolOpcode protocol = Except.ok op) :
    (AddPortMapping c timeNow fp protocol internalPort requestedExternalPort lifetime fuel s).2
      = (rpc c timeNow
          (request.mapping (mappingRequest fp op internalPort requestedExternalPort lifetime))
          responseType.mappingResp mappingResp.zero fuel s).2 := by
  simp only [AddPortMapping, hop]
  split <;> simp_all

/-- The world `GetExternalAddress` leaves behind is the one its `rpc` call leaves. -/
theorem GetExternalAddress_world {σ : Type} (c : Client σ) (timeNow : σ → Time × σ)
    (fuel : Nat) (s : σ) :
    (GetExternalAddress c timeNow fuel s).2
      = (rpc c timeNow (request.extAddr ⟨0, 0⟩) responseType.extAddrResp extAddrResp.zero
          fuel s).2 := by
  simp only [GetExternalAddress]
  split <;> simp_all

/-- C6. For protocol "udp" or "tcp", ports `p`, `q` in [0, 65535] and a
lifetime of `n` whole seconds, `n < 2^32`, every request `AddPortMapping` hands
to `Send` is the 12 bytes `00 op 00 00 p(2) q(2) n(4)`, big-endian, with op 1
for udp and 2 for tcp: the log of the recording transport consists of copies of
these bytes. -/
theorem AddPortMapping_request_bytes {σ : Type} (c : Client σ) (timeNow : σ → Time × σ)
    (fp : Duration → Nat) (protocol : String) (p q n : Nat) (fuel : Nat) (s : σ)
    (hproto : protocol = "udp" ∨ protocol = "tcp")
    (hp : p ≤ 65535) (hq : q ≤ 65535) (hn : n < 4294967296) :
    (AddPortMapping c.recording (recNow timeNow) fp protocol (p : Int) (q : Int)
        ((n : Int) * Second) fuel (s, [])).2.2
      = List.replicate
          (AddPortMapping c.recording (recNow timeNow) fp protocol (p : Int) (q : Int)
            ((n : Int) * Second) fuel (s, [])).2.2.length
          [0, (if protocol = "udp" then 1 else 2), 0, 0, byte (p / 256), byte p,
            byte (q / 256), byte q,
            byte (n / 16777216), byte (n / 65536), byte (n / 256), byte n] := by
  rw [List.eq_replicate_length]
  rw [AddPortMapping_world c.recording (recNow timeNow) fp protocol _ (p : Int) (q : Int)
    ((n : Int) * Second) fuel (s, []) (protocolOpcode_ok protocol hproto)]
  rw [← mappingRequest_encode fp _ p q n hp hq hn]
  exact rpc_sends_only_request c timeNow _ _ _ fuel s [] (by simp)

theorem AddPortMapping_request_bytes_witness :
    (("udp" : String) = "udp" ∨ ("udp" : String) = "tcp")
    ∧ (AddPortMapping testClient.recording (recNow (tickClock Millisecond)) (fun _ => 0) "udp"
        ((123 : Nat) : Int) ((0 : Nat) : Int) (((0 : Nat) : Int) * Second) 3
        (startWorld (answeringDouble [0x0, 0x1, 0x0, 0x0, 0x0, 0x7b, 0x0, 0x0, 0x0, 0x0, 0x0, 0x0]
          [0x0, 0x81, 0x0, 0x0, 0x0, 0x14, 0x3, 0xd5, 0x0, 0x7b, 0x0, 0x0, 0x0, 0x0, 0x0, 0x0]),
          [])).2.2
      = List.replicate 1 [0x0, 0x1, 0x0, 0x0, 0x0, 0x7b, 0x0, 0x0, 0x0, 0x0, 0x0, 0x0] :=
  ⟨by decide,
    AddPortMapping_request_bytes testClient (tickClock Millisecond) (fun _ => 0) "udp" 123 0 0 3
      (startWorld (answeringDouble [0x0, 0x1, 0x0, 0x0, 0x0, 0x7b, 0x0, 0x0, 0x0, 0x0, 0x0, 0x0]
        [0x0, 0x81, 0x0, 0x0, 0x0, 0x14, 0x3, 0xd5, 0x0, 0x7b, 0x0, 0x0, 0x0, 0x0, 0x0, 0x0]))
      (by decide) (by decide) (by decide) (by decide)⟩

/-- C8. For protocol "udp" (op 1) or "tcp" (op 2): when the exchange ends
with a 16-byte reply whose version is 0, whose opcode is `op | 0x80` and whose
result code is 0, `AddPortMapping` succeeds and returns the `PortMapping` with
`EpochDuration` = be32(r[4..8]) seconds, `InternalPort` = be16(r[8..10]),
`MappedExternalPort` = be16(r[10..12]) and `Lifetime` = be32(r[12..16])
seconds. -/
theorem AddPortMapping_decodes_reply {σ : Type} (c : Client σ) (timeNow : σ → Time × σ)
    (fp : Duration → Nat) (protocol : String) (op : Byte)
    (internalPort requestedExternalPort : Int) (lifetime : Duration) (fuel : Nat) (s s1 s2 : σ)
    (e0 e1 e2 e3 i0 i1 m0 m1 l0 l1 l2 l3 : Byte)
    (hproto : (protocol = "udp" ∧ op = 1) ∨ (protocol = "tcp" ∧ op = 2))
    (hopen : c.transport.Open c.gatewayIP c.port s = (none, s1))
    (hrun : (rpcRetry c.timeout).run (liftNow timeNow)
      (rpcAttempt c (binaryWrite (request.mapping
        (mappingRequest fp op internalPort requestedExternalPort lifetime)))) fuel
      (resultBuffer, s1)
      = (some none, ([0, byte (op.val ||| 0x80), 0, 0, e0, e1, e2, e3, i0, i1, m0, m1,
          l0, l1, l2, l3], s2))) :
    (AddPortMapping c timeNow fp protocol internalPort requestedExternalPort lifetime fuel s).1
      = some (Except.ok
          { EpochDuration := ((be32 e0 e1 e2 e3).val : Int) * Second
            InternalPort := be16 i0 i1
            MappedExternalPort := be16 m0 m1
            Lifetime := ((be32 l0 l1 l2 l3).val : Int) * Second }) := by
  have hop : protocolOpcode protocol = Except.ok op := by
    rcases hproto with ⟨h1, h2⟩ | ⟨h1, h2⟩ <;> subst h1 <;> subst h2 <;> rfl
  have hrpc := rpc_of_run c timeNow
    (request.mapping (mappingRequest fp op internalPort requestedExternalPort lifetime))
    responseType.mappingResp mappingResp.zero fuel s s1 s2 _ hopen hrun
  have hchk : rpcChecks
      (request.mapping (mappingRequest fp op internalPort requestedExternalPort lifetime))
      responseType.mappingResp mappingResp.zero
      [0, byte (op.val ||| 0x80), 0, 0, e0, e1, e2, e3, i0, i1, m0, m1, l0, l1, l2, l3]
      = (none, ⟨0, byte (op.val ||| 0x80), be16 0 0, be32 e0 e1 e2 e3, be16 i0 i1, be16 m0 m1,
          be32 l0 l1 l2 l3⟩) := by
    rw [rpcChecks_decoded _ responseType.mappingResp mappingResp.zero
      [0, byte (op.val ||| 0x80), 0, 0, e0, e1, e2, e3, i0, i1, m0, m1, l0, l1, l2, l3]
      ⟨0, byte (op.val ||| 0x80), be16 0 0, be32 e0 e1 e2 e3, be16 i0 i1, be16 m0 m1,
        be32 l0 l1 l2 l3⟩ rfl rfl]
    have hz : ((be16 0 0 : U16).val : Int) = 0 := rfl
    simp [responseType.version, responseType.opcode, responseType.resultCode, request.opcode,
      mappingRequest, hz]
  rw [hchk] at hrpc
  simp only [AddPortMapping, hop, hrpc, secondsDuration_eq]

theorem AddPortMapping_decodes_reply_witness :
    (AddPortMapping testClient (tickClock Millisecond) (fun _ => 0) "udp" 123 456
        (1200 * Second) 3
        (startWorld (answeringDouble
          [0x0, 0x1, 0x0, 0x0, 0x0, 0x7b, 0x1, 0xc8, 0x0, 0x0, 0x4, 0xb0]
          [0x0, 0x81, 0x0, 0x0, 0x0, 0x13, 0xfe, 0xff, 0x0, 0x7b, 0x1, 0xc8,
            0x0, 0x0, 0x4, 0xb0]))).1
      = some (Except.ok
          { EpochDuration := 0x13feff * Second
            InternalPort := 123
            MappedExternalPort := 456
            Lifetime := 1200 * Second }) :=
  AddPortMapping_decodes_reply testClient (tickClock Millisecond) (fun _ => 0) "udp" 1 123 456
    (1200 * Second) 3
    (startWorld (answeringDouble
      [0x0, 0x1, 0x0, 0x0, 0x0, 0x7b, 0x1, 0xc8, 0x0, 0x0, 0x4, 0xb0]
      [0x0, 0x81, 0x0, 0x0, 0x0, 0x13, 0xfe, 0xff, 0x0, 0x7b, 0x1, 0xc8, 0x0, 0x0, 0x4, 0xb0]))
    (openedWorld 1000000000000 (answeringDouble
      [0x0, 0x1, 0x0, 0x0, 0x0, 0x7b, 0x1, 0xc8, 0x0, 0x0, 0x4, 0xb0]
      [0x0, 0x81, 0x0, 0x0, 0x0, 0x13, 0xfe, 0xff, 0x0, 0x7b, 0x1, 0xc8, 0x0, 0x0, 0x4, 0xb0]))
    (openedWorld 1000003000000 (answeringDouble
      [0x0, 0x1, 0x0, 0x0, 0x0, 0x7b, 0x1, 0xc8, 0x0, 0x0, 0x4, 0xb0]
      [0x0, 0x81, 0x0, 0x0, 0x0, 0x13, 0xfe, 0xff, 0x0, 0x7b, 0x1, 0xc8, 0x0, 0x0, 0x4, 0xb0]))
    0x0 0x13 0xfe 0xff 0x0 0x7b 0x1 0xc8 0x0 0x0 0x4 0xb0
    (Or.inl ⟨rfl, rfl⟩) (by rfl) (by rfl)

/-- C9. When the exchange of `GetExternalAddress` ends with a 12-byte reply
whose version is 0, whose opcode is 0x80 and whose result code is 0,
`GetExternalAddress` succeeds and returns the IPv4 address r[8].r[9].r[10].r[11]
with the duration be32(r[4..8]) seconds. -/
theorem GetExternalAddress_decodes_reply {σ : Type} (c : Client σ) (timeNow : σ → Time × σ)
    (fuel : Nat) (s s1 s2 : σ) (e0 e1 e2 e3 a0 a1 a2 a3 : Byte)
    (hopen : c.transport.Open c.gatewayIP c.port s = (none, s1))
    (hrun : (rpcRetry c.timeout).run (liftNow timeNow)
      (rpcAttempt c (binaryWrite (request.extAddr ⟨0, 0⟩))) fuel (resultBuffer, s1)
      = (some none, ([0, 0x80, 0, 0, e0, e1, e2, e3, a0, a1, a2, a3], s2))) :
    (GetExternalAddress c timeNow fuel s).1
      = some (Except.ok (⟨a0, a1, a2, a3⟩, ((be32 e0 e1 e2 e3).val : Int) * Second)) := by
  have hrpc := rpc_of_run c timeNow (request.extAddr ⟨0, 0⟩)
    responseType.extAddrResp extAddrResp.zero fuel s s1 s2 _ hopen hrun
  have hchk : rpcChecks (request.extAddr ⟨0, 0⟩) responseType.extAddrResp extAddrResp.zero
      [0, 0x80, 0, 0, e0, e1, e2, e3, a0, a1, a2, a3]
      = (none, ⟨0, 0x80, be16 0 0, be32 e0 e1 e2 e3, ⟨a0, a1, a2, a3⟩⟩) := by
    rw [rpcChecks_decoded (request.extAddr ⟨0, 0⟩) responseType.extAddrResp extAddrResp.zero
      [0, 0x80, 0, 0, e0, e1, e2, e3, a0, a1, a2, a3]
      ⟨0, 0x80, be16 0 0, be32 e0 e1 e2 e3, ⟨a0, a1, a2, a3⟩⟩ rfl rfl]
    rfl
  rw [hchk] at hrpc
  simp only [GetExternalAddress, hrpc, secondsDuration_eq]

theorem GetExternalAddress_decodes_reply_witness :
    (GetExternalAddress testClient (tickClock Millisecond) 3
        (startWorld (answeringDouble [0x0, 0x0]
          [0x0, 0x80, 0x0, 0x0, 0x0, 0x13, 0xf2, 0x4f, 0x49, 0x8c, 0x36, 0x9a]))).1
      = some (Except.ok (⟨73, 140, 54, 154⟩, 1307215 * Second)) :=
  GetExternalAddress_decodes_reply testClient (tickClock Millisecond) 3
    (startWorld (answeringDouble [0x0, 0x0]
      [0x0, 0x80, 0x0, 0x0, 0x0, 0x13, 0xf2, 0x4f, 0x49, 0x8c, 0x36, 0x9a]))
    (openedWorld 1000000000000 (answeringDouble [0x0, 0x0]
      [0x0, 0x80, 0x0, 0x0, 0x0, 0x13, 0xf2, 0x4f, 0x49, 0x8c, 0x36, 0x9a]))
    (openedWorld 1000003000000 (answeringDouble [0x0, 0x0]
      [0x0, 0x80, 0x0, 0x0, 0x0, 0x13, 0xf2, 0x4f, 0x49, 0x8c, 0x36, 0x9a]))
    0x0 0x13 0xf2 0x4f 0x49 0x8c 0x36 0x9a (by rfl) (by rfl)

theorem be16_putU16 (x : U16) : be16 (byte (x.val / 256)) (byte x.val) = x := by
  have h := x.isLt
  apply Fin.ext
  simp only [be16, byte, u16]
  omega

theorem be32_putU32 (x : U32) :
    be32 (byte (x.val / 16777216)) (byte (x.val / 65536)) (byte (x.val / 256)) (byte x.val)
      = x := by
  have h := x.isLt
  apply Fin.ext
  simp only [be32, byte, u32]
  omega

theorem mappingResp_decode_encode (r : mappingResp) : mappingResp.decode r.encode = some r := by
  cases r
  simp [mappingResp.encode, mappingResp.decode, putU16, putU32, be16_putU16, be32_putU32]

theorem extAddrResp_decode_encode (r : extAddrResp) : extAddrResp.decode r.encode = some r := by
  cases r
  simp [extAddrResp.encode, extAddrResp.decode, putU16, putU32, be16_putU16, be32_putU32]

/-- C10. The codec round-trips: every `mappingResp` value encodes
(big-endian) to exactly 16 bytes, and `binary.Read` of those bytes into a
`mappingResp` succeeds and gives back every field; every `extAddrResp` value
encodes to exactly 12 bytes and decodes back to itself. -/
theorem codec_round_trip :
    (∀ r : mappingResp, r.encode.length = 16
      ∧ binaryRead responseType.mappingResp r.encode mappingResp.zero = (none, r))
    ∧ (∀ r : extAddrResp, r.encode.length = 12
      ∧ binaryRead responseType.extAddrResp r.encode extAddrResp.zero = (none, r)) := by
  constructor
  · intro r
    refine ⟨rfl, ?_⟩
    simp [binaryRead, responseType.decode, mappingResp_decode_encode]
  · intro r
    refine ⟨rfl, ?_⟩
    simp [binaryRead, responseType.decode, extAddrResp_decode_encode]

/-- What the loop of `retry.run` can return: the timed-out error, or the
result of an attempt that neither predicate asked to retry. -/
theorem retry.loop_returns {τ : Type} (r : retry) (timeNow : τ → Time × τ)
    (fn : Time → τ → error × τ) (finalDeadline : Time) (fuel : Nat) :
    ∀ (tries : Nat) (nextDeadline : Time) (w : τ) (e : error) (w1 : τ),
      r.loop timeNow fn finalDeadline fuel tries nextDeadline w = (some e, w1) →
      e = some Err.timedOut ∨
        ∃ (deadline : Time) (w0 : τ), fn deadline w0 = (e, w1)
          ∧ callPred r.retryImmediate e = false ∧ callPred r.retryDelay e = false := by
  induction fuel with
  | zero =>
    intro tries nextDeadline w e w1 h
    simp [retry.loop] at h
  | succ n ih =>
    intro tries nextDeadline w e w1 h
    unfold retry.loop at h
    unfold retry.step at h
    by_cases h1 : (retry.cond timeNow finalDeadline tries w).1 = true
    · simp only [h1, if_true] at h
      by_cases h2 : callPred r.retryImmediate
          (fn (minTime nextDeadline finalDeadline) (retry.cond timeNow finalDeadline tries w).2).1 = true
      · simp only [h2, if_true] at h
        exact ih _ _ _ _ _ h
      · simp only [h2] at h
        by_cases h3 : callPred r.retryDelay
            (fn (minTime nextDeadline finalDeadline) (retry.cond timeNow finalDeadline tries w).2).1 = true
        · simp only [h3, if_true] at h
          exact ih _ _ _ _ _ h
        · simp only [h3] at h
          simp only [Bool.false_eq_true, if_false, Prod.mk.injEq, Option.some.injEq] at h
          right
          refine ⟨minTime nextDeadline finalDeadline, (retry.cond timeNow finalDeadline tries w).2, ?_, ?_, ?_⟩
          · rw [← h.1, ← h.2]
          · rw [← h.1]; simpa using h2
          · rw [← h.1]; simpa using h3
    · simp only [h1] at h
      simp only [Bool.false_eq_true, if_false, Prod.mk.injEq, Option.some.injEq] at h
      left
      exact h.1.symm

/-- When the retry run of `rpc` ends with a nil error and the result `d`, then
`d` is what a `Send` returned, with a nil error, from a sender equal to the
gateway. -/
theorem rpc_run_nil_is_reply {σ : Type} (c : Client σ) (timeNow : σ → Time × σ)
    (reqBuf : Bytes) (fuel : Nat) (st : Bytes × σ) (d : Bytes) (s2 : σ)
    (hrun : (rpcRetry c.timeout).run (liftNow timeNow) (rpcAttempt c reqBuf) fuel st
      = (some none, (d, s2))) :
    ∃ (deadline : Time) (buf : Bytes) (s0 : σ) (remoteIP : IP),
      c.transport.Send reqBuf buf deadline s0 = ((d, remoteIP, none), s2)
        ∧ IP.Equal remoteIP c.gatewayIP = true := by
  unfold retry.run at hrun
  rcases retry.loop_returns _ _ _ _ _ _ _ _ _ _ hrun with h | ⟨deadline, w0, h, _, _⟩
  · simp at h
  · refine ⟨deadline, w0.1, w0.2, (c.transport.Send reqBuf w0.1 deadline w0.2).1.2.1, ?_, ?_⟩
    · simp only [rpcAttempt] at h
      split at h
      · simp at h
      · simp only [Prod.mk.injEq] at h
        obtain ⟨h1, h2, h3⟩ := h
        apply Prod.ext
        · apply Prod.ext
          · exact h2
          · apply Prod.ext
            · rfl
            · exact h1
        · exact h3
    · simp only [rpcAttempt] at h
      split at h
      · simp at h
      · rename_i hne
        simpa using hne

/-- With a 4- or 16-byte gateway and a transport whose `Send` never reports a
sender address (as on every failure of `udpTransport.Send`), the retry run of
`rpc` can only end with the timed-out error: no error of `Send` reaches the
caller. -/
theorem rpc_run_no_sender {σ : Type} (c : Client σ)
    (hgw : c.gatewayIP.length = 4 ∨ c.gatewayIP.length = 16) (timeNow : σ → Time × σ)
    (reqBuf : Bytes)
    (hsend : ∀ (buf : Bytes) (deadline : Time) (s : σ),
      (c.transport.Send reqBuf buf deadline s).1.2.1 = [])
    (fuel : Nat) (st : Bytes × σ) (e : error) (st1 : Bytes × σ)
    (hrun : (rpcRetry c.timeout).run (liftNow timeNow) (rpcAttempt c reqBuf) fuel st
      = (some e, st1)) :
    e = some Err.timedOut := by
  unfold retry.run at hrun
  rcases retry.loop_returns _ _ _ _ _ _ _ _ _ _ hrun with h | ⟨deadline, w0, h, himm, _⟩
  · exact h
  · exfalso
    have ha := rpcAttempt_no_sender c hgw reqBuf deadline w0
      (c.transport.Send reqBuf w0.1 deadline w0.2).1.1
      (c.transport.Send reqBuf w0.1 deadline w0.2).1.2.2
      (c.transport.Send reqBuf w0.1 deadline w0.2).2
      (by
        apply Prod.ext
        · apply Prod.ext
          · rfl
          · apply Prod.ext
            · exact hsend w0.1 deadline w0.2
            · rfl
        · rfl)
    rw [ha] at h
    simp only [Prod.mk.injEq] at h
    rw [← h.1, rpcRetry_retryImmediate] at himm
    simp [callPred, retryMismatched, Err.isMismatchedGateway] at himm

/-- C11. For every protocol string other than "udp" and "tcp",
`AddPortMapping` returns the error "unknown protocol <protocol>" and no
result, and leaves the world exactly as it found it, whatever the transport
is: neither `Open` nor `Send` is called. -/
theorem AddPortMapping_unknown_protocol {σ : Type} (c : Client σ) (timeNow : σ → Time × σ)
    (fp : Duration → Nat) (protocol : String) (internalPort requestedExternalPort : Int)
    (lifetime : Duration) (fuel : Nat) (s : σ)
    (hudp : protocol ≠ "udp") (htcp : protocol ≠ "tcp") :
    AddPortMapping c timeNow fp protocol internalPort requestedExternalPort lifetime fuel s
      = (some (Except.error (Err.unknownProtocol protocol)), s)
    ∧ (Err.unknownProtocol protocol).Error = "unknown protocol " ++ protocol := by
  refine ⟨?_, rfl⟩
  simp [AddPortMapping, protocolOpcode, hudp, htcp]

theorem AddPortMapping_unknown_protocol_witness :
    (("sctp" : String) ≠ "udp" ∧ ("sctp" : String) ≠ "tcp")
    ∧ AddPortMapping testClient.recording (recNow (tickClock Millisecond)) (fun _ => 0) "sctp"
        123 456 (1200 * Second) 3 (startWorld (answeringDouble tcpRequestBytes []), [])
      = (some (Except.error (Err.unknownProtocol "sctp")),
          (startWorld (answeringDouble tcpRequestBytes []), []))
    ∧ (Err.unknownProtocol "sctp").Error = "unknown protocol sctp" :=
  ⟨⟨by decide, by decide⟩,
    (AddPortMapping_unknown_protocol testClient.recording (recNow (tickClock Millisecond))
      (fun _ => 0) "sctp" 123 456 (1200 * Second) 3
      (startWorld (answeringDouble tcpRequestBytes []), []) (by decide) (by decide)).1,
    by decide⟩

/-- C19. `NewClient` sets the gateway port to 5351; `Port(p)` sets the port to
`p` when `p` is not 0 and leaves it as it was when `p` is 0, also on top of an
earlier `Port`; `Port` changes neither the gateway IP, the timeout nor the
transport. -/
theorem Port_option {σ : Type} (dflt : Transport σ) (gatewayIP : IP) :
    (NewClient dflt gatewayIP []).port = 5351
    ∧ (∀ (p : Int) (c : Client σ), (Port p c).port = if p ≠ 0 then p else c.port)
    ∧ (∀ c : Client σ, Port 0 c = c)
    ∧ (∀ p : Int, (NewClient dflt gatewayIP [Port p]).port = if p ≠ 0 then p else 5351)
    ∧ (∀ p q : Int, (NewClient dflt gatewayIP [Port q, Port p]).port
        = if p ≠ 0 then p else if q ≠ 0 then q else 5351)
    ∧ (∀ (p : Int) (c : Client σ), (Port p c).gatewayIP = c.gatewayIP
        ∧ (Port p c).timeout = c.timeout ∧ (Port p c).transport = c.transport) := by
  refine ⟨rfl, ?_, ?_, ?_, ?_, ?_⟩
  · intro p c
    by_cases h : p = 0 <;> simp [Port, h]
  · intro c
    simp [Port]
  · intro p
    by_cases h : p = 0 <;> simp [NewClient, Port, h, defaultPort]
  · intro p q
    by_cases h : p = 0 <;> by_cases h2 : q = 0 <;> simp [NewClient, Port, h, h2, defaultPort]
  · intro p c
    by_cases h : p = 0 <;> simp [Port, h]

/-- The loop condition on a world with a log reads the clock of the world and
leaves the log alone. -/
theorem retry.cond_logNow {τ α : Type} (timeNow : τ → Time × τ) (finalDeadline : Time)
    (tries : Nat) (w : τ) (log : α) :
    retry.cond (logNow timeNow) finalDeadline tries (w, log)
      = ((retry.cond timeNow finalDeadline tries w).1,
          ((retry.cond timeNow finalDeadline tries w).2, log)) := by
  unfold retry.cond
  split <;> rfl

/-- A pass of the loop that makes an attempt adds one entry to the log: the
clock at the call and the deadline `minTime nextDeadline finalDeadline`. -/
theorem retry.step_logged {τ : Type} (r : retry) (timeNow : τ → Time × τ)
    (fn : Time → τ → error × τ) (clk : τ → Time) (finalDeadline : Time) (tries : Nat)
    (nextDeadline : Time) (w : τ) (log : List (Time × Time))
    (hcond : (retry.cond timeNow finalDeadline tries w).1 = true) :
    (Step.world (r.step (logNow timeNow) (logAttempts clk fn) finalDeadline tries nextDeadline
        (w, log))).2
      = log ++ [(clk (retry.cond timeNow finalDeadline tries w).2,
          minTime nextDeadline finalDeadline)] := by
  unfold retry.step
  simp only [retry.cond_logNow, hcond, if_true, logAttempts]
  split
  · rfl
  · split <;> rfl

/-- C12. In a pass of the loop of `retry.run` whose attempt ends with an error
that satisfies the immediate-retry predicate, the attempt counter and the next
deadline stay as they were (so the number of delayed attempts left is the
same), and the next pass, when the loop condition lets it run, hands the
attempt function the same deadline as the pass just discarded.  The log
records, for each invocation, the clock and the deadline passed. -/
theorem retry_immediate_keeps_schedule {τ : Type} (r : retry) (timeNow : τ → Time × τ)
    (fn : Time → τ → error × τ) (clk : τ → Time) (finalDeadline : Time) (tries : Nat)
    (nextDeadline : Time) (w : τ) (log : List (Time × Time))
    (hcond : (retry.cond timeNow finalDeadline tries w).1 = true)
    (himm : callPred r.retryImmediate
      (fn (minTime nextDeadline finalDeadline) (retry.cond timeNow finalDeadline tries w).2).1
        = true) :
    r.step (logNow timeNow) (logAttempts clk fn) finalDeadline tries nextDeadline (w, log)
      = Step.next tries nextDeadline
          ((fn (minTime nextDeadline finalDeadline)
              (retry.cond timeNow finalDeadline tries w).2).2,
            log ++ [(clk (retry.cond timeNow finalDeadline tries w).2,
              minTime nextDeadline finalDeadline)])
    ∧ ((retry.cond timeNow finalDeadline tries
          (fn (minTime nextDeadline finalDeadline)
            (retry.cond timeNow finalDeadline tries w).2).2).1 = true →
        (Step.world (r.step (logNow timeNow) (logAttempts clk fn) finalDeadline tries
          nextDeadline
          ((fn (minTime nextDeadline finalDeadline)
              (retry.cond timeNow finalDeadline tries w).2).2,
            log ++ [(clk (retry.cond timeNow finalDeadline tries w).2,
              minTime nextDeadline finalDeadline)]))).2
          = log ++ [(clk (retry.cond timeNow finalDeadline tries w).2,
                minTime nextDeadline finalDeadline),
              (clk (retry.cond timeNow finalDeadline tries
                  (fn (minTime nextDeadline finalDeadline)
                    (retry.cond timeNow finalDeadline tries w).2).2).2,
                minTime nextDeadline finalDeadline)]) := by
  constructor
  · unfold retry.step
    simp only [retry.cond_logNow, hcond, if_true, logAttempts, himm]
  · intro hcond2
    rw [retry.step_logged r timeNow fn clk finalDeadline tries nextDeadline _ _ hcond2]
    simp

theorem retry_immediate_keeps_schedule_witness :
    (rpcRetry 0).step (logNow (liftNow (tickClock (100 * Millisecond))))
        (logAttempts worldClock (rpcAttempt testClient [0, 0])) 1001000000000 0 1000350000000
        ((resultBuffer, openedWorld 1000200000000 (failingDouble (Err.io "connection refused"))),
          [])
      = Step.next 0 1000350000000
          ((resultBuffer, openedWorld 1000300000000 (failingDouble (Err.io "connection refused"))),
            [(1000300000000, 1000350000000)])
    ∧ (Step.world ((rpcRetry 0).step (logNow (liftNow (tickClock (100 * Millisecond))))
        (logAttempts worldClock (rpcAttempt testClient [0, 0])) 1001000000000 0 1000350000000
        ((resultBuffer, openedWorld 1000300000000 (failingDouble (Err.io "connection refused"))),
          [(1000300000000, 1000350000000)]))).2
      = [(1000300000000, 1000350000000), (1000400000000, 1000350000000)] :=
  ⟨(retry_immediate_keeps_schedule (rpcRetry 0) (liftNow (tickClock (100 * Millisecond)))
      (rpcAttempt testClient [0, 0]) worldClock 1001000000000 0 1000350000000
      (resultBuffer, openedWorld 1000200000000 (failingDouble (Err.io "connection refused")))
      [] (by rfl) (by rfl)).1,
    (retry_immediate_keeps_schedule (rpcRetry 0) (liftNow (tickClock (100 * Millisecond)))
      (rpcAttempt testClient [0, 0]) worldClock 1001000000000 0 1000350000000
      (resultBuffer, openedWorld 1000200000000 (failingDouble (Err.io "connection refused")))
      [] (by rfl) (by rfl)).2 (by rfl)⟩

/-- The loop of `retry.run` with no overall deadline, against attempts that
always ask for a delayed retry: from `tries = 9 - k` it makes exactly `k` more
attempts and returns the timed-out error. -/
theorem retry.loop_delayed {τ : Type} (r : retry) (timeNow : τ → Time × τ)
    (fn : Time → τ → error × τ) (clk : τ → Time)
    (himm : ∀ d w, callPred r.retryImmediate (fn d w).1 = false)
    (hdelay : ∀ d w, callPred r.retryDelay (fn d w).1 = true)
    (hclock : ∀ w, 0 ≤ (timeNow w).1) (k : Nat) :
    ∀ (fuel : Nat) (nextDeadline : Time) (w : τ) (log : List (Time × Time)),
      k ≤ 9 → k + 1 ≤ fuel →
      (r.loop (logNow timeNow) (logAttempts clk fn) 0 fuel (9 - k) nextDeadline (w, log)).1
          = some (some Err.timedOut)
        ∧ (r.loop (logNow timeNow) (logAttempts clk fn) 0 fuel (9 - k) nextDeadline
            (w, log)).2.2.length = log.length + k := by
  induction k with
  | zero =>
    intro fuel nextDeadline w log _ hfuel
    obtain ⟨n, rfl⟩ : ∃ n, fuel = n + 1 := ⟨fuel - 1, by omega⟩
    have hc : (retry.cond timeNow 0 9 w).1 = false := by
      unfold retry.cond
      rw [if_neg (by intro h; have h1 := h.1; unfold Natpmp.maxRetries at h1; omega)]
      simpa using hclock w
    simp [retry.loop, retry.step, retry.cond_logNow, hc]
  | succ k ih =>
    intro fuel nextDeadline w log hk hfuel
    obtain ⟨n, rfl⟩ : ∃ n, fuel = n + 1 := ⟨fuel - 1, by omega⟩
    have hlt : 9 - (k + 1) < 9 := by omega
    have hc : retry.cond timeNow 0 (9 - (k + 1)) w = (true, w) := by
      unfold retry.cond
      rw [if_pos ⟨by unfold Natpmp.maxRetries; omega, rfl⟩]
    have hnext : (9 - (k + 1) + 1) % 18446744073709551616 = 9 - k := by omega
    simp only [retry.loop, retry.step, retry.cond_logNow, hc, if_true, logAttempts, himm, hdelay,
      Bool.false_eq_true, if_false, hnext]
    have h := ih n ((logNow timeNow ((fn (minTime nextDeadline 0) w).2,
        log ++ [(clk w, minTime nextDeadline 0)])).1 + backoff (9 - k))
      (timeNow (fn (minTime nextDeadline 0) w).2).2
      (log ++ [(clk w, minTime nextDeadline 0)]) (by omega) (by omega)
    simp only [logNow] at h ⊢
    refine ⟨h.1, ?_⟩
    rw [h.2]
    simp
    omega

/-- C13. With no overall timeout (`timeout = 0`), a clock that never reads
before the zero time, and an attempt function whose error always satisfies the
delayed-retry predicate and never the immediate one, `retry.run` (given fuel
for ten passes) invokes the attempt function exactly `maxRetries` = 9 times and
returns the error "Timed out trying to contact gateway". -/
theorem retry_run_exactly_maxRetries {τ : Type} (r : retry) (timeNow : τ → Time × τ)
    (fn : Time → τ → error × τ) (clk : τ → Time) (fuel : Nat) (w : τ)
    (htimeout : r.timeout = 0)
    (himm : ∀ d w, callPred r.retryImmediate (fn d w).1 = false)
    (hdelay : ∀ d w, callPred r.retryDelay (fn d w).1 = true)
    (hclock : ∀ w, 0 ≤ (timeNow w).1) (hfuel : 10 ≤ fuel) :
    (r.run (logNow timeNow) (logAttempts clk fn) fuel (w, [])).1 = some (some Err.timedOut)
    ∧ (r.run (logNow timeNow) (logAttempts clk fn) fuel (w, [])).2.2.length = maxRetries
    ∧ maxRetries = 9
    ∧ Err.timedOut.Error = "Timed out trying to contact gateway" := by
  refine ⟨?_, ?_, rfl, rfl⟩
  · simp only [retry.run, retry.finalDeadline, htimeout, ne_eq, not_true_eq_false, if_false]
    exact (retry.loop_delayed r timeNow fn clk himm hdelay hclock 9 fuel _ _ []
      (by omega) (by omega)).1
  · simp only [retry.run, retry.finalDeadline, htimeout, ne_eq, not_true_eq_false, if_false]
    have h := (retry.loop_delayed r timeNow fn clk himm hdelay hclock 9 fuel
      ((logNow timeNow (w, ([] : List (Time × Time)))).1 + initialPause)
      (timeNow w).2 [] (by omega) (by omega)).2
    simpa [logNow, maxRetries] using h

theorem retry_run_exactly_maxRetries_witness :
    ((policy initialPause 0 9).run (logNow natClock) (logAttempts (fun n => (n : Int)) blockUntil)
        10 (1000000000000, [])).1 = some (some Err.timedOut)
    ∧ ((policy initialPause 0 9).run (logNow natClock)
        (logAttempts (fun n => (n : Int)) blockUntil) 10 (1000000000000, [])).2.2.length = 9 :=
  ⟨(retry_run_exactly_maxRetries (policy initialPause 0 9) natClock blockUntil
      (fun n => (n : Int)) 10 1000000000000 rfl (fun _ _ => rfl) (fun _ _ => rfl)
      (fun w => Int.ofNat_nonneg w) (by decide)).1,
    (retry_run_exactly_maxRetries (policy initialPause 0 9) natClock blockUntil
      (fun n => (n : Int)) 10 1000000000000 rfl (fun _ _ => rfl) (fun _ _ => rfl)
      (fun w => Int.ofNat_nonneg w) (by decide)).2.1⟩

/-- The loop of `retry.run` reads neither the field `maxRetries` nor the field
`initial` of the record it is run on. -/
theorem retry.loop_fields {τ : Type} (r : retry) (m : Int) (i : Duration)
    (timeNow : τ → Time × τ) (fn : Time → τ → error × τ) (finalDeadline : Time) (fuel : Nat) :
    ∀ (tries : Nat) (nextDeadline : Time) (w : τ),
      retry.loop { r with maxRetries := m, initial := i } timeNow fn finalDeadline fuel tries
          nextDeadline w
        = r.loop timeNow fn finalDeadline fuel tries nextDeadline w := by
  induction fuel with
  | zero => intro tries nextDeadline w; rfl
  | succ n ih =>
    intro tries nextDeadline w
    have hstep : retry.step { r with maxRetries := m, initial := i } timeNow fn finalDeadline
        tries nextDeadline w = r.step timeNow fn finalDeadline tries nextDeadline w := rfl
    simp only [retry.loop, hstep]
    split
    · exact ih _ _ _
    · rfl

/-- The method `retry.run` reads neither the field `maxRetries` nor the field
`initial` of the record it is run on. -/
theorem retry.run_fields {τ : Type} (r : retry) (m : Int) (i : Duration)
    (timeNow : τ → Time × τ) (fn : Time → τ → error × τ) (fuel : Nat) (w : τ) :
    retry.run { r with maxRetries := m, initial := i } timeNow fn fuel w
      = r.run timeNow fn fuel w := by
  unfold retry.run
  exact retry.loop_fields r m i timeNow fn _ fuel _ _ _

/-- C14 (what the code does). The result of `retry.run` does not depend on the
field `maxRetries` of the record it is run on: the loop tests the package
constant `maxRetries`.  Against an attempt function that always times out and
with no overall timeout, a record with `maxRetries = 3` and one with
`maxRetries = 9` both make 9 attempts. -/
theorem retry_run_ignores_maxRetries :
    (∀ (τ : Type) (r : retry) (m : Int) (timeNow : τ → Time × τ) (fn : Time → τ → error × τ)
        (fuel : Nat) (w : τ),
        retry.run { r with maxRetries := m } timeNow fn fuel w = r.run timeNow fn fuel w)
    ∧ ((policy initialPause 0 3).run (logNow natClock)
        (logAttempts (fun n => (n : Int)) blockUntil) 10 (1000000000000, [])).2.2.length = 9
    ∧ ((policy initialPause 0 9).run (logNow natClock)
        (logAttempts (fun n => (n : Int)) blockUntil) 10 (1000000000000, [])).2.2.length = 9 := by
  refine ⟨?_, by rfl, by rfl⟩
  intro τ r m timeNow fn fuel w
  exact retry.run_fields r m r.initial timeNow fn fuel w

theorem wrapInt64_id (x : Int) (h0 : -9223372036854775808 ≤ x) (h1 : x < 9223372036854775808) :
    wrapInt64 x = x := by
  unfold wrapInt64
  omega

/-- Up to 35 doublings the pause `initialPause << tries` does not overflow. -/
theorem backoff_eq (k : Nat) (hk : k ≤ 35) : backoff k = initialPause * 2 ^ k := by
  have h1 : (2 : Int) ^ k ≤ 2 ^ 35 := pow_le_pow_right₀ (by norm_num) hk
  have h2 : (0 : Int) < 2 ^ k := by positivity
  unfold backoff
  rw [wrapInt64_id]
  · simp
  · simp only [initialPause, Millisecond]
    show (-9223372036854775808 : Int) ≤ _
    nlinarith
  · simp only [initialPause, Millisecond]
    show (_ : Int) < 9223372036854775808
    norm_num at h1 ⊢
    nlinarith

theorem minTime_zero_right (t : Time) : minTime t 0 = t := by
  unfold minTime
  by_cases h : t = 0 <;> simp [h]

theorem minTime_eq_min (a b : Time) (ha : a ≠ 0) (hb : b ≠ 0) : minTime a b = min a b := by
  unfold minTime
  simp only [ha, hb, if_false]
  by_cases h : a < b
  · simp [h, min_eq_left (le_of_lt h)]
  · simp [h, min_eq_right (not_lt.1 h)]

/-- C15 (counterexample). Three runs where the deadline handed to an attempt
is not `min(now + initial * 2^k, overall deadline)` with `now` the start of the
attempt and `initial` the field of the record.  (a) After an immediate retry
(a foreign packet every 100ms, overall deadline 1 s) the second attempt, with
k = 0, starts at clock 1000.4 s and is handed the deadline 1000.35 s computed
before the first one.  (b) A record with `initial` = 1 s and no overall
timeout hands its first attempt the deadline start + 250ms.  (c) After 36
delayed failures the pause `initialPause << 36` has wrapped to a negative
number. -/
theorem retry_deadline_counterexample :
    (((rpcRetry 0).run (logNow (liftNow (tickClock (100 * Millisecond))))
        (logAttempts worldClock (rpcAttempt testClient [0, 0])) 20
        ((resultBuffer, openedWorld 1000000000000 (failingDouble (Err.io "connection refused"))),
          [])).2.2.take 2
        = [(1000300000000, 1000350000000), (1000400000000, 1000350000000)]
      ∧ (1000350000000 : Time)
          ≠ minTime (1000400000000 + (rpcRetry 0).initial * 2 ^ 0) 1001000000000)
    ∧ (((policy Second 0 9).run (logNow natClock) (logAttempts (fun n => (n : Int)) blockUntil)
        10 (1000000000000, [])).2.2.take 1 = [(1000000000000, 1000250000000)]
      ∧ (1000250000000 : Time)
          ≠ minTime (1000000000000 + (policy Second 0 9).initial * 2 ^ 0) 0)
    ∧ (backoff 36 = -1266874889709551616 ∧ backoff 36 ≠ initialPause * 2 ^ 36) := by
  refine ⟨⟨by rfl, by decide⟩, ⟨by rfl, by decide⟩, ⟨by rfl, by decide⟩⟩

/-- C15 (amended). For a record whose field `initial` is the package constant
`initialPause` (250ms, as `rpc` builds it): `retry.run` enters its loop with
the next deadline `t0 + initial * 2^0`, `t0` being the clock reading taken just
before the loop; a pass with counter `tries` and next deadline `nextDeadline`
hands the attempt function `minTime nextDeadline finalDeadline`, which is the
earlier of the two when an overall deadline is set and `nextDeadline` itself
when none is; after an attempt that asks for an immediate retry both stay as
they were, so the deadline is not computed afresh; after a delayed failure,
the `tries + 1`-th with `tries + 1 <= 35`, the next deadline becomes
`t + initial * 2^(tries + 1)`, `t` being the clock reading taken right after
that failure. -/
theorem retry_attempt_deadline {τ : Type} (r : retry) (timeNow : τ → Time × τ)
    (fn : Time → τ → error × τ) (clk : τ → Time) (finalDeadline : Time) (tries : Nat)
    (nextDeadline : Time) (w : τ) (log : List (Time × Time)) (fuel : Nat)
    (hinit : r.initial = initialPause) (hk : tries + 1 ≤ 35)
    (hcond : (retry.cond timeNow finalDeadline tries w).1 = true) :
    r.run timeNow fn fuel w
        = r.loop timeNow fn (r.finalDeadline timeNow w).1 fuel 0
            ((timeNow (r.finalDeadline timeNow w).2).1 + r.initial * 2 ^ 0)
            (timeNow (r.finalDeadline timeNow w).2).2
    ∧ (Step.world (r.step (logNow timeNow) (logAttempts clk fn) finalDeadline tries nextDeadline
        (w, log))).2
        = log ++ [(clk (retry.cond timeNow finalDeadline tries w).2,
            minTime nextDeadline finalDeadline)]
    ∧ (callPred r.retryImmediate
        (fn (minTime nextDeadline finalDeadline)
          (retry.cond timeNow finalDeadline tries w).2).1 = true →
        r.step timeNow fn finalDeadline tries nextDeadline w
          = Step.next tries nextDeadline
              (fn (minTime nextDeadline finalDeadline)
                (retry.cond timeNow finalDeadline tries w).2).2)
    ∧ (callPred r.retryImmediate
        (fn (minTime nextDeadline finalDeadline)
          (retry.cond timeNow finalDeadline tries w).2).1 = false →
        callPred r.retryDelay
          (fn (minTime nextDeadline finalDeadline)
            (retry.cond timeNow finalDeadline tries w).2).1 = true →
        r.step timeNow fn finalDeadline tries nextDeadline w
          = Step.next (tries + 1)
              ((timeNow (fn (minTime nextDeadline finalDeadline)
                  (retry.cond timeNow finalDeadline tries w).2).2).1
                + r.initial * 2 ^ (tries + 1))
              (timeNow (fn (minTime nextDeadline finalDeadline)
                (retry.cond timeNow finalDeadline tries w).2).2).2)
    ∧ minTime nextDeadline 0 = nextDeadline
    ∧ (nextDeadline ≠ 0 → finalDeadline ≠ 0 →
        minTime nextDeadline finalDeadline = min nextDeadline finalDeadline) := by
  refine ⟨?_, ?_, ?_, ?_, minTime_zero_right _, minTime_eq_min _ _⟩
  · simp [retry.run, hinit]
  · exact retry.step_logged r timeNow fn clk finalDeadline tries nextDeadline w log hcond
  · intro himm
    unfold retry.step
    simp only [hcond, if_true, himm]
  · intro himm hdelay
    have hmod : (tries + 1) % 18446744073709551616 = tries + 1 := by omega
    unfold retry.step
    simp only [hcond, if_true, himm, hdelay, Bool.false_eq_true, if_false, hmod,
      backoff_eq (tries + 1) hk, hinit]

theorem retry_attempt_deadline_witness :
    (policy initialPause 0 9).step natClock blockUntil 0 0 1000250000000 1000000000000
      = Step.next (0 + 1) (1000250000000 + (policy initialPause 0 9).initial * 2 ^ (0 + 1))
          1000250000000 :=
  (retry_attempt_deadline (policy initialPause 0 9) natClock blockUntil (fun n => (n : Int))
    0 0 1000250000000 1000000000000 [] 10 rfl (by decide) (by rfl)).2.2.2.1 (by rfl) (by rfl)

/-- C16 (what the code does). A client made by `NewClient` with no option has
timeout 0, and for it `rpc` builds a record with an overall timeout of one
second: `retry.run` computes an overall deadline one second after its first
clock reading.  Against a gateway that never answers the call makes three
attempts and gives up one second after it started, not after the nine windows
`250ms * 2^k`, which sum to 127.75 s. -/
theorem NewClient_default_timeout_one_second :
    (∀ (σ : Type) (dflt : Transport σ) (gatewayIP : IP), (NewClient dflt gatewayIP []).timeout = 0)
    ∧ (rpcRetry 0).timeout = 1 * Second
    ∧ (∀ (τ : Type) (timeNow : τ → Time × τ) (w : τ),
        ((rpcRetry 0).finalDeadline timeNow w).1 = (timeNow w).1 + 1 * Second)
    ∧ rpc silentClient.recording (recNow (tickClock 0)) (request.extAddr ⟨0, 0⟩)
        responseType.extAddrResp extAddrResp.zero 20 (startWorld (answeringDouble [] []), [])
      = (some (some Err.timedOut, extAddrResp.zero),
          ({ clock := 1000000000000 + 1 * Second,
             t := { err := none, gateway := ip10, testCall := ⟨[], []⟩ } },
            [[0, 0], [0, 0], [0, 0]]))
    ∧ ((List.range 9).map (fun k => initialPause * 2 ^ k)).sum = 127750 * Millisecond := by
  refine ⟨fun _ _ _ => rfl, by rfl, fun _ _ _ => by rfl, by rfl, by rfl⟩

/-- C17 (code at the test's input). The case "Non-success result code" of
`TestProtocolChecks` (tcp, 123, 456, 1200 s; reply with result code 0x11):
the error of `AddPortMapping` reads
"ExternalAddress Failed: error NAT-PMP non-zero result code:17"; it contains
"non-zero result code:17" and does not contain "non-zero result code 17". -/
theorem AddPortMapping_result_code_message :
    (errorOf <$> (AddPortMapping testClient (tickClock Millisecond) (fun _ => 0) "tcp" 123 456
        (1200 * Second) 3 (startWorld (answeringDouble tcpRequestBytes resultCode17Reply))).1)
      = some (some (Err.wrap "ExternalAddress Failed: " (Err.ResultCodeErr 17)))
    ∧ (Err.wrap "ExternalAddress Failed: " (Err.ResultCodeErr 17)).Error
      = "ExternalAddress Failed: error NAT-PMP non-zero result code:17"
    ∧ errContains (some (Err.wrap "ExternalAddress Failed: " (Err.ResultCodeErr 17)))
        "non-zero result code 17" = false
    ∧ errContains (some (Err.wrap "ExternalAddress Failed: " (Err.ResultCodeErr 17)))
        "non-zero result code:17" = true := by
  refine ⟨by rfl, by decide, by decide, by decide⟩

/-- A function on the world that commutes with the clock and with the attempt
function, on the worlds of an invariant both preserve, commutes with the loop
of `retry.run`. -/
theorem retry.loop_commutes {τ : Type} (r : retry) (timeNow : τ → Time × τ)
    (fn : Time → τ → error × τ) (f : τ → τ) (Inv : τ → Prop)
    (hnow : ∀ w, Inv w → timeNow (f w) = ((timeNow w).1, f (timeNow w).2) ∧ Inv (timeNow w).2)
    (hfn : ∀ d w, Inv w → fn d (f w) = ((fn d w).1, f (fn d w).2) ∧ Inv (fn d w).2)
    (finalDeadline : Time) (fuel : Nat) :
    ∀ (tries : Nat) (nextDeadline : Time) (w : τ), Inv w →
      r.loop timeNow fn finalDeadline fuel tries nextDeadline (f w)
        = ((r.loop timeNow fn finalDeadline fuel tries nextDeadline w).1,
            f (r.loop timeNow fn finalDeadline fuel tries nextDeadline w).2) := by
  induction fuel with
  | zero => intro tries nextDeadline w _; rfl
  | succ n ih =>
    intro tries nextDeadline w hw
    have hc : retry.cond timeNow finalDeadline tries (f w)
        = ((retry.cond timeNow finalDeadline tries w).1,
            f (retry.cond timeNow finalDeadline tries w).2)
        ∧ Inv (retry.cond timeNow finalDeadline tries w).2 := by
      unfold retry.cond
      split
      · exact ⟨rfl, hw⟩
      · rw [(hnow w hw).1]
        exact ⟨rfl, (hnow w hw).2⟩
    have ha := hfn (minTime nextDeadline finalDeadline) _ hc.2
    have hn := hnow _ ha.2
    simp only [retry.loop, retry.step, hc.1]
    by_cases h1 : (retry.cond timeNow finalDeadline tries w).1 = true
    · simp only [h1, if_true, ha.1]
      by_cases h2 : callPred r.retryImmediate
          (fn (minTime nextDeadline finalDeadline) (retry.cond timeNow finalDeadline tries w).2).1 = true
      · simp only [h2, if_true]
        exact ih _ _ _ ha.2
      · simp only [h2]
        by_cases h3 : callPred r.retryDelay
            (fn (minTime nextDeadline finalDeadline) (retry.cond timeNow finalDeadline tries w).2).1 = true
        · simp only [h3, if_true, hn.1]
          exact ih _ _ _ hn.2
        · simp only [h3]
          rfl
    · simp only [h1]
      rfl

/-- The same for `retry.run`. -/
theorem retry.run_commutes {τ : Type} (r : retry) (timeNow : τ → Time × τ)
    (fn : Time → τ → error × τ) (f : τ → τ) (Inv : τ → Prop)
    (hnow : ∀ w, Inv w → timeNow (f w) = ((timeNow w).1, f (timeNow w).2) ∧ Inv (timeNow w).2)
    (hfn : ∀ d w, Inv w → fn d (f w) = ((fn d w).1, f (fn d w).2) ∧ Inv (fn d w).2)
    (fuel : Nat) (w : τ) (hw : Inv w) :
    r.run timeNow fn fuel (f w) = ((r.run timeNow fn fuel w).1, f (r.run timeNow fn fuel w).2) := by
  have hf : r.finalDeadline timeNow (f w)
      = ((r.finalDeadline timeNow w).1, f (r.finalDeadline timeNow w).2)
      ∧ Inv (r.finalDeadline timeNow w).2 := by
    unfold retry.finalDeadline
    split
    · rw [(hnow w hw).1]
      exact ⟨rfl, (hnow w hw).2⟩
    · exact ⟨rfl, hw⟩
  have hn := hnow _ hf.2
  simp only [retry.run, hf.1, hn.1]
  exact retry.loop_commutes r timeNow fn f Inv hnow hfn _ fuel _ _ _ hn.2

/-- Into a buffer of at most 16 bytes the test double copies the same bytes
from a reply and from its first 16 bytes, and what it returns is no longer
than the buffer. -/
theorem testSend_cutReply (req buf : Bytes) (deadline : Time) (w : World)
    (hbuf : buf.length ≤ 16) :
    testSend req buf deadline (cutReply w)
        = ((testSend req buf deadline w).1, cutReply (testSend req buf deadline w).2)
      ∧ (testSend req buf deadline w).1.1.length ≤ 16 := by
  unfold testSend
  by_cases hreq : req = w.t.testCall.req
  · cases herr : w.t.err with
    | some e => simp [cutReply, hreq, herr]
    | none =>
      have hmin : min (min buf.length (min 16 w.t.testCall.resp.length)) 16
          = min buf.length w.t.testCall.resp.length := by omega
      simp only [cutReply, hreq, herr, ne_eq, not_true_eq_false, if_false, List.take_take,
        List.length_take, hmin, true_and]
      omega
  · simp [cutReply, hreq]

/-- The closure of `rpc` on the test double commutes with cutting the reply,
as long as the buffer `result` has at most 16 bytes, which it keeps. -/
theorem rpcAttempt_cutReply (gatewayIP : IP) (port : Int) (timeout : Duration) (reqBuf : Bytes)
    (deadline : Time) (st : Bytes × World) (hbuf : st.1.length ≤ 16) :
    rpcAttempt (doubleClient gatewayIP port timeout) reqBuf deadline (cutReplySt st)
        = ((rpcAttempt (doubleClient gatewayIP port timeout) reqBuf deadline st).1,
            cutReplySt (rpcAttempt (doubleClient gatewayIP port timeout) reqBuf deadline st).2)
      ∧ (rpcAttempt (doubleClient gatewayIP port timeout) reqBuf deadline st).2.1.length ≤ 16 := by
  have h := testSend_cutReply reqBuf st.1 deadline st.2 hbuf
  simp only [rpcAttempt, doubleClient, testTransportOf, cutReplySt, h.1]
  split
  · exact ⟨rfl, hbuf⟩
  · exact ⟨rfl, h.2⟩

/-- On the test double `rpc` returns, for a reply, what it returns for the
first 16 bytes of that reply. -/
theorem rpc_cutReply (gatewayIP : IP) (port : Int) (timeout : Duration) (step : Duration)
    (req : request) (k : responseType) (resp : k.record) (fuel : Nat) (w : World) :
    (rpc (doubleClient gatewayIP port timeout) (tickClock step) req k resp fuel (cutReply w)).1
      = (rpc (doubleClient gatewayIP port timeout) (tickClock step) req k resp fuel w).1 := by
  have hlen : (fun st : Bytes × World => st.1.length ≤ 16)
      (resultBuffer, ((doubleClient gatewayIP port timeout).transport.Open
        (doubleClient gatewayIP port timeout).gatewayIP
        (doubleClient gatewayIP port timeout).port w).2) := by
    show resultBuffer.length ≤ 16
    decide
  have hrun := retry.run_commutes (rpcRetry (doubleClient gatewayIP port timeout).timeout)
    (liftNow (tickClock step))
    (rpcAttempt (doubleClient gatewayIP port timeout) (binaryWrite req)) cutReplySt
    (fun st => st.1.length ≤ 16)
    (fun st hst => ⟨rfl, hst⟩)
    (fun d st hst => rpcAttempt_cutReply gatewayIP port timeout (binaryWrite req) d st hst)
    fuel _ hlen
  have hopen : (doubleClient gatewayIP port timeout).transport.Open
      (doubleClient gatewayIP port timeout).gatewayIP
      (doubleClient gatewayIP port timeout).port (cutReply w)
      = (none, cutReply ((doubleClient gatewayIP port timeout).transport.Open
          (doubleClient gatewayIP port timeout).gatewayIP
          (doubleClient gatewayIP port timeout).port w).2) := rfl
  have hopen2 : (doubleClient gatewayIP port timeout).transport.Open
      (doubleClient gatewayIP port timeout).gatewayIP
      (doubleClient gatewayIP port timeout).port w
      = (none, ((doubleClient gatewayIP port timeout).transport.Open
          (doubleClient gatewayIP port timeout).gatewayIP
          (doubleClient gatewayIP port timeout).port w).2) := rfl
  simp only [cutReplySt] at hrun
  simp only [rpc]
  rw [hopen]
  simp only []
  rw [hrun]
  rw [hopen2]
  simp only []
  rcases (rpcRetry (doubleClient gatewayIP port timeout).timeout).run (liftNow (tickClock step))
      (rpcAttempt (doubleClient gatewayIP port timeout) (binaryWrite req)) fuel
      (resultBuffer, ((doubleClient gatewayIP port timeout).transport.Open
        (doubleClient gatewayIP port timeout).gatewayIP
        (doubleClient gatewayIP port timeout).port w).2) with ⟨res, st⟩
  rcases res with _ | _ | e <;> rfl

/-- C18 (counterexample). The test double holds a reply of 17 bytes, the
valid reply of the case "Add UDP" followed by one more byte: `AddPortMapping`
succeeds and returns the mapping of the first 16 bytes. -/
theorem AddPortMapping_long_reply_accepted :
    (udpReply ++ [0xaa]).length = 17
    ∧ (AddPortMapping testClient (tickClock Millisecond) (fun _ => 0) "udp" 123 456
        (1200 * Second) 3 (startWorld (answeringDouble udpRequestBytes (udpReply ++ [0xaa])))).1
      = some (Except.ok
          { EpochDuration := 0x13feff * Second
            InternalPort := 123
            MappedExternalPort := 456
            Lifetime := 1200 * Second }) := by
  refine ⟨by rfl, by rfl⟩

/-- C18 (amended). With a transport that copies the datagram into the receive
buffer `rpc` supplies, a reply is seen only as far as the 16-byte buffer
reaches: what `testTransport.Send` and `udpTransport.Send` return is never
longer than the buffer, and on the test double `AddPortMapping` returns for a
reply exactly what it returns for the first 16 bytes of that reply (success
when those form a valid response, the error of the first failing check
otherwise), for every client, clock step, argument and fuel. -/
theorem AddPortMapping_reply_cut_to_buffer (gatewayIP : IP) (port : Int) (timeout : Duration)
    (step : Duration) (fp : Duration → Nat) (protocol : String)
    (internalPort requestedExternalPort : Int) (lifetime : Duration) (fuel : Nat) (w : World) :
    (AddPortMapping (doubleClient gatewayIP port timeout) (tickClock step) fp protocol
        internalPort requestedExternalPort lifetime fuel w).1
      = (AddPortMapping (doubleClient gatewayIP port timeout) (tickClock step) fp protocol
        internalPort requestedExternalPort lifetime fuel (cutReply w)).1
    ∧ (∀ (req buf : Bytes) (deadline : Time) (w1 : World),
        (testSend req buf deadline w1).1.1.length ≤ buf.length)
    ∧ (∀ (σ : Type) (n : UDPConn σ) (req buf : Bytes) (deadline : Time) (s : σ),
        (udpSend n req buf deadline s).1.1.length ≤ buf.length)
    ∧ resultBuffer.length = 16 := by
  refine ⟨?_, ?_, ?_, by rfl⟩
  · simp only [AddPortMapping]
    cases protocolOpcode protocol with
    | error e => rfl
    | ok op =>
      simp only []
      have h := rpc_cutReply gatewayIP port timeout step
        (request.mapping (mappingRequest fp op internalPort requestedExternalPort lifetime))
        responseType.mappingResp mappingResp.zero fuel w
      rcases h1 : rpc (doubleClient gatewayIP port timeout) (tickClock step)
        (request.mapping (mappingRequest fp op internalPort requestedExternalPort lifetime))
        responseType.mappingResp mappingResp.zero fuel (cutReply w) with ⟨a, s1⟩
      rcases h2 : rpc (doubleClient gatewayIP port timeout) (tickClock step)
        (request.mapping (mappingRequest fp op internalPort requestedExternalPort lifetime))
        responseType.mappingResp mappingResp.zero fuel w with ⟨b, s2⟩
      rw [h1, h2] at h
      simp only at h
      subst h
      rcases a with _ | ⟨_ | e, resp⟩ <;> rfl
  · intro req buf deadline w1
    unfold testSend
    split
    · simp
    · split
      · simp
      · simp only [List.length_take]
        omega
  · intro σ n req buf deadline s
    unfold udpSend
    split
    · simp
    · split
      · simp
      · split
        · simp
        · simp only [List.length_take]
          omega

/-- C20 (counterexample). After `-a 10`: on ["10", "udp", "10000000000"] the
lifetime stored is not 10000000000 seconds, the `int64` product has wrapped to
a negative duration; on ["-5", "udp"], whose first argument is a decimal integer,
`consume` fails with "missing public port" and sets no field. -/
theorem consume_counterexample :
    Atoi "10000000000" = Except.ok 10000000000
    ∧ afterFlagA.consume ["10", "udp", "10000000000"]
      = (⟨10, 10, "udp", -8446744073709551616⟩, [], none)
    ∧ (-8446744073709551616 : Duration) ≠ 10000000000 * Second
    ∧ Atoi "-5" = Except.ok (-5)
    ∧ afterFlagA.consume ["-5", "udp"]
      = (⟨10, 0, "", 0⟩, ["-5", "udp"], some (FlagsErr.errorf "missing public port")) := by
  refine ⟨by rfl, by rfl, by decide, by rfl, by rfl⟩

/-- C20 (amended). For a `PortSpec` with a non-zero `ExtPort` and the other
fields unset, an `I` that `Atoi` reads as `i` and that does not start with "-":
on [I, P] with `P` not starting with "-", `consume` sets `IntPort = i` and
`Protocol = P`, leaves `Lifetime` 0 and returns no argument; on
I :: P :: L :: rest with `L` not starting with "-" and read by `Atoi` as `l`,
`0 <= l <= 9223372036`, it also sets `Lifetime` to `l` seconds and returns
`rest`; on the empty list and on a list starting with an argument that starts
with "-" it fails with "missing public port"; on [I] and on I :: f :: rest with
`f` starting with "-" it fails with "missing protocol". -/
theorem consume_after_ext_port (e : Int) (I : String) (i : Int)
    (he : e ≠ 0) (hI : Atoi I = Except.ok i) (hId : HasPrefix I "-" = false) :
    (∀ P : String, HasPrefix P "-" = false →
      PortSpec.consume ⟨e, 0, "", 0⟩ [I, P] = (⟨e, i, P, 0⟩, [], none))
    ∧ (∀ (P L : String) (l : Int) (rest : List String), HasPrefix P "-" = false →
        HasPrefix L "-" = false → Atoi L = Except.ok l → 0 ≤ l → l ≤ 9223372036 →
        PortSpec.consume ⟨e, 0, "", 0⟩ (I :: P :: L :: rest)
          = (⟨e, i, P, l * Second⟩, rest, none))
    ∧ PortSpec.consume ⟨e, 0, "", 0⟩ []
        = (⟨e, 0, "", 0⟩, [], some (FlagsErr.errorf "missing public port"))
    ∧ (∀ (f : String) (rest : List String), HasPrefix f "-" = true →
        PortSpec.consume ⟨e, 0, "", 0⟩ (f :: rest)
          = (⟨e, 0, "", 0⟩, f :: rest, some (FlagsErr.errorf "missing public port")))
    ∧ PortSpec.consume ⟨e, 0, "", 0⟩ [I]
        = (⟨e, i, "", 0⟩, [I], some (FlagsErr.errorf "missing protocol"))
    ∧ (∀ (f : String) (rest : List String), HasPrefix f "-" = true →
        PortSpec.consume ⟨e, 0, "", 0⟩ (I :: f :: rest)
          = (⟨e, i, "", 0⟩, I :: f :: rest, some (FlagsErr.errorf "missing protocol"))) := by
  have hguard : ¬ ((⟨e, 0, "", 0⟩ : PortSpec).ExtPort = 0
      ∨ (⟨e, 0, "", 0⟩ : PortSpec).IsSet = true) := by
    simp [PortSpec.IsSet, he]
  refine ⟨?_, ?_, ?_, ?_, ?_, ?_⟩
  · intro P hP
    simp [PortSpec.consume, hguard, hI, hId, hP]
  · intro P L l rest hP hL hl h0 h1
    have hw : wrapInt64 (l * Second) = l * Second := by
      apply wrapInt64_id
      · simp only [Second]; show (_ : Int) ≤ _; omega
      · simp only [Second]; show (_ : Int) < _; omega
    simp [PortSpec.consume, hguard, hI, hId, hP, hL, hl, hw]
  · simp [PortSpec.consume, hguard]
  · intro f rest hf
    simp [PortSpec.consume, hguard, hf]
  · simp [PortSpec.consume, hguard, hI, hId]
  · intro f rest hf
    simp [PortSpec.consume, hguard, hI, hId, hf]

theorem consume_after_ext_port_witness :
    afterFlagA = ⟨10, 0, "", 0⟩
    ∧ PortSpec.consume ⟨10, 0, "", 0⟩ ["10", "udp", "100"]
      = (⟨10, 10, "udp", 100 * Second⟩, [], none) :=
  ⟨by rfl,
    (consume_after_ext_port 10 "10" 10 (by decide) (by rfl) (by rfl)).2.1 "udp" "100" 100 []
      (by rfl) (by rfl) (by rfl) (by decide) (by decide)⟩

/-- C29. The `io.EOF` case of the `switch` of `rpc` is never taken: when the
length of the result equals the size of the response record (12 or 16),
`binary.Read` decodes it with a nil error; a failed read therefore comes with
a length other than the expected one, which is the case tested first; and
`rpc`'s checks never return the error "unexpected result size ... for type". -/
theorem rpc_eof_case_unreachable :
    (∀ (k : responseType) (d : Bytes) (resp : k.record),
        d.length = k.size → (binaryRead k d resp).1 = none)
    ∧ (∀ (k : responseType) (d : Bytes) (resp : k.record),
        (binaryRead k d resp).1 ≠ none → d.length ≠ k.size)
    ∧ (∀ (req : request) (k : responseType) (resp : k.record) (d : Bytes) (got : Nat)
        (ty : String), (rpcChecks req k resp d).1 ≠ some (Err.unexpectedSizeForType got ty))
    ∧ responseType.extAddrResp.size = 12 ∧ responseType.mappingResp.size = 16 := by
  have hread : ∀ (k : responseType) (d : Bytes) (resp : k.record),
      d.length = k.size → (binaryRead k d resp).1 = none := by
    intro k d resp hlen
    obtain ⟨r, hr⟩ := decode_of_length k d hlen
    simp [binaryRead, hr]
  refine ⟨hread, ?_, ?_, rfl, rfl⟩
  · intro k d resp hne hlen
    exact hne (hread k d resp hlen)
  · intro req k resp d got ty
    by_cases hlen : d.length = k.size
    · obtain ⟨r, hr⟩ := decode_of_length k d hlen
      rw [rpcChecks_decoded req k resp d r hlen hr]
      split
      · simp
      · split
        · simp
        · split <;> simp
    · rw [rpcChecks_size req k resp d hlen]
      simp

theorem rpc_eof_case_unreachable_witness :
    (binaryRead responseType.mappingResp udpReply mappingResp.zero).1 = none :=
  rpc_eof_case_unreachable.1 responseType.mappingResp udpReply mappingResp.zero (by rfl)

/-- C30. The function `minTime` (in `retry.go` and, with the same text, in the
legacy `network.go`) treats the zero time as "no bound": `minTime a 0 = a`,
`minTime 0 b = b`; for non-zero `a` and `b` the result is `a` when `a` is
before `b` and `b` otherwise; the result is one of the two arguments, is not
later than any non-zero argument, and does not depend on the order of the
arguments. -/
theorem minTime_properties (a b : Time) :
    minTime a 0 = a ∧ minTime 0 b = b
    ∧ (a ≠ 0 → b ≠ 0 → a < b → minTime a b = a)
    ∧ (a ≠ 0 → b ≠ 0 → ¬ a < b → minTime a b = b)
    ∧ (minTime a b = a ∨ minTime a b = b)
    ∧ (a ≠ 0 → minTime a b ≤ a) ∧ (b ≠ 0 → minTime a b ≤ b)
    ∧ minTime a b = minTime b a
    ∧ Legacy.minTime a b = minTime a b := by
  refine ⟨minTime_zero_right a, by simp [minTime], ?_, ?_, ?_, ?_, ?_, ?_, rfl⟩
  · intro ha hb hlt
    simp [minTime, ha, hb, hlt]
  · intro ha hb hlt
    simp [minTime, ha, hb, hlt]
  · unfold minTime
    split
    · right; rfl
    · split
      · left; rfl
      · split
        · left; rfl
        · right; rfl
  · intro ha
    unfold minTime
    simp only [ha, if_false]
    split
    · exact le_refl a
    · split
      · exact le_refl a
      · rename_i h
        exact not_lt.1 h
  · intro hb
    unfold minTime
    simp only [hb, if_false]
    split
    · exact le_refl b
    · split
      · rename_i h
        exact le_of_lt h
      · exact le_refl b
  · unfold minTime
    by_cases ha : a = 0
    · by_cases hb : b = 0
      · simp [ha, hb]
      · simp [ha, hb]
    · by_cases hb : b = 0
      · simp [ha, hb]
      · simp only [ha, hb, if_false]
        by_cases h1 : a < b
        · have h2 : ¬ b < a := not_lt.2 (le_of_lt h1)
          simp [h1, h2]
        · by_cases h2 : b < a
          · simp [h1, h2]
          · have : a = b := le_antisymm (not_lt.1 h2) (not_lt.1 h1)
            simp [this]

theorem minTime_properties_witness :
    minTime 1000250000000 1001000000000 = 1000250000000
    ∧ minTime 1001750000000 1001000000000 = 1001000000000 :=
  ⟨(minTime_properties 1000250000000 1001000000000).2.2.1 (by decide) (by decide) (by decide),
    (minTime_properties 1001750000000 1001000000000).2.2.2.1 (by decide) (by decide)
      (by decide)⟩

/-- A property of the world that the clock preserves, and that the attempt
function preserves on the worlds the loop condition lets through, holds after
the loop of `retry.run`. -/
theorem retry.loop_preserves_admitted {τ : Type} (r : retry) (timeNow : τ → Time × τ)
    (fn : Time → τ → error × τ) (P : τ → Prop) (finalDeadline : Time)
    (hnow : ∀ w, P w → P (timeNow w).2)
    (hfn : ∀ d tries w, P w → (retry.cond timeNow finalDeadline tries w).1 = true →
      P (fn d (retry.cond timeNow finalDeadline tries w).2).2)
    (fuel : Nat) :
    ∀ (tries : Nat) (nextDeadline : Time) (w : τ), P w →
      P (r.loop timeNow fn finalDeadline fuel tries nextDeadline w).2 := by
  induction fuel with
  | zero => intro tries nextDeadline w hw; simpa [retry.loop] using hw
  | succ n ih =>
    intro tries nextDeadline w hw
    have hc : P (retry.cond timeNow finalDeadline tries w).2 := by
      unfold retry.cond
      split
      · exact hw
      · exact hnow w hw
    unfold retry.loop
    unfold retry.step
    by_cases h1 : (retry.cond timeNow finalDeadline tries w).1 = true
    · simp only [h1, if_true]
      have ha := hfn (minTime nextDeadline finalDeadline) tries w hw h1
      by_cases h2 : callPred r.retryImmediate
          (fn (minTime nextDeadline finalDeadline) (retry.cond timeNow finalDeadline tries w).2).1 = true
      · simp only [h2, if_true]
        exact ih _ _ _ ha
      · simp only [h2]
        by_cases h3 : callPred r.retryDelay
            (fn (minTime nextDeadline finalDeadline) (retry.cond timeNow finalDeadline tries w).2).1 = true
        · simp only [h3, if_true]
          exact ih _ _ _ (hnow _ ha)
        · simp only [h3]
          exact ha
    · simp only [h1]
      exact hc

/-- C21. With an overall timeout set (and an overall deadline that is not the
zero time), `retry.run` makes no attempt at or after the overall deadline
`start + timeout`: the log holds, for every invocation of the attempt function,
the clock reading of the loop condition that let it run, and each of them is
strictly before the deadline; and a pass of the loop whose clock reading has
reached the deadline returns "Timed out trying to contact gateway" without
invoking the attempt function (the log stays as it was). -/
theorem retry_no_attempt_after_deadline {τ : Type} (r : retry) (timeNow : τ → Time × τ)
    (fn : Time → τ → error × τ) (fuel : Nat) (w : τ) (last : Time)
    (htimeout : r.timeout ≠ 0) (hfinal : (timeNow w).1 + r.timeout ≠ 0) :
    (∀ e ∈ (r.run (logNow (rememberNow timeNow)) (logAttempts Prod.snd (rememberFn fn)) fuel
        ((w, last), [])).2.2, e.1 < (timeNow w).1 + r.timeout)
    ∧ (∀ (tries : Nat) (nextDeadline : Time) (w1 : τ) (last1 : Time) (log : List (Time × Time)),
        (timeNow w).1 + r.timeout ≤ (timeNow w1).1 →
        r.step (logNow (rememberNow timeNow)) (logAttempts Prod.snd (rememberFn fn))
            ((timeNow w).1 + r.timeout) tries nextDeadline ((w1, last1), log)
          = Step.ret (some Err.timedOut) (((timeNow w1).2, (timeNow w1).1), log))
    ∧ Err.timedOut.Error = "Timed out trying to contact gateway" := by
  have hcond : ∀ (tries : Nat) (st : (τ × Time) × List (Time × Time)),
      retry.cond (logNow (rememberNow timeNow)) ((timeNow w).1 + r.timeout) tries st
        = (decide ((timeNow st.1.1).1 < (timeNow w).1 + r.timeout),
            (((timeNow st.1.1).2, (timeNow st.1.1).1), st.2)) := by
    intro tries st
    unfold retry.cond
    rw [if_neg (fun h => hfinal h.2)]
    rfl
  refine ⟨?_, ?_, rfl⟩
  · simp only [retry.run, retry.finalDeadline, htimeout, ne_eq, not_false_eq_true, if_true]
    apply retry.loop_preserves_admitted r (logNow (rememberNow timeNow))
      (logAttempts Prod.snd (rememberFn fn))
      (fun st => ∀ e ∈ st.2, e.1 < (timeNow w).1 + r.timeout) ((timeNow w).1 + r.timeout)
    · intro st hst
      exact hst
    · intro d tries st hst hc e he
      rw [hcond] at hc he
      simp only [logAttempts, List.mem_append, List.mem_singleton] at he
      rcases he with he | he
      · exact hst e he
      · rw [he]
        simpa using hc
    · intro e he
      simp [logNow] at he
  · intro tries nextDeadline w1 last1 log hle
    unfold retry.step
    rw [hcond]
    have : ¬ (timeNow w1).1 < (timeNow w).1 + r.timeout := not_lt.2 hle
    simp [this]

theorem retry_no_attempt_after_deadline_witness :
    (policy initialPause (350 * Millisecond) 9).run (logNow (rememberNow natClock))
        (logAttempts Prod.snd (rememberFn blockUntil)) 10 ((1000000000000, 0), [])
      = (some (some Err.timedOut),
          ((1000350000000, 1000350000000),
            [(1000000000000, 1000250000000), (1000250000000, 1000350000000)]))
    ∧ (1000250000000 : Time) < 1000000000000 + 350 * Millisecond :=
  ⟨by rfl,
    (retry_no_attempt_after_deadline (policy initialPause (350 * Millisecond) 9) natClock
      blockUntil 10 1000000000000 0 (by decide) (by decide)).1
      (1000250000000, 1000350000000) (by decide)⟩

theorem retry.counted_append (r : retry) (log : List error) (e : error) :
    r.counted (log ++ [e])
      = r.counted log + (if callPred r.retryImmediate e = true then 0 else 1) := by
  unfold retry.counted
  by_cases h : callPred r.retryImmediate e = true <;> simp [List.filter_append, h]

/-- With no overall deadline and a clock that never reads before the zero
time, the attempts that do not end in an immediate retry never number more
than 9, fuel or no fuel. -/
theorem retry.loop_counted {τ : Type} (r : retry) (timeNow : τ → Time × τ)
    (fn : Time → τ → error × τ) (hclock : ∀ w, 0 ≤ (timeNow w).1) (fuel : Nat) :
    ∀ (tries : Nat) (nextDeadline : Time) (w : τ) (log : List error),
      tries ≤ 9 → r.counted log ≤ tries →
      r.counted (r.loop (logNow timeNow) (logErrors fn) 0 fuel tries nextDeadline (w, log)).2.2
        ≤ 9 := by
  induction fuel with
  | zero =>
    intro tries nextDeadline w log h9 hc
    simp only [retry.loop]
    omega
  | succ n ih =>
    intro tries nextDeadline w log h9 hc
    by_cases ht : tries < 9
    · have hcnd : retry.cond timeNow 0 tries w = (true, w) := by
        unfold retry.cond
        rw [if_pos ⟨by unfold Natpmp.maxRetries; omega, rfl⟩]
      have hmod : (tries + 1) % 18446744073709551616 = tries + 1 := by omega
      have happ := retry.counted_append r log (fn (minTime nextDeadline 0) w).1
      simp only [retry.loop, retry.step, retry.cond_logNow, hcnd, if_true, logErrors]
      by_cases h2 : callPred r.retryImmediate (fn (minTime nextDeadline 0) w).1 = true
      · simp only [h2, if_true]
        apply ih _ _ _ _ h9
        rw [happ]
        simp only [h2, if_true]
        omega
      · simp only [h2]
        by_cases h3 : callPred r.retryDelay (fn (minTime nextDeadline 0) w).1 = true
        · simp only [h3, if_true, hmod, logNow]
          apply ih _ _ _ _ (by omega)
          rw [happ]
          simp only [h2]
          simp
          omega
        · simp only [h3]
          simp only [Bool.false_eq_true, if_false]
          rw [happ]
          simp only [h2]
          simp
          omega
    · have hcnd : (retry.cond timeNow 0 tries w).1 = false := by
        unfold retry.cond
        rw [if_neg (by intro h; have h1 := h.1; unfold Natpmp.maxRetries at h1; omega)]
        simpa using hclock w
      simp only [retry.loop, retry.step, retry.cond_logNow, hcnd]
      simp
      omega

/-- With no overall deadline and attempts that never ask for an immediate
retry, the loop of `retry.run` returns: from `tries = 9 - k`, fuel for `k + 1`
passes is enough. -/
theorem retry.loop_returns_within {τ : Type} (r : retry) (timeNow : τ → Time × τ)
    (fn : Time → τ → error × τ)
    (himm : ∀ d w, callPred r.retryImmediate (fn d w).1 = false)
    (hclock : ∀ w, 0 ≤ (timeNow w).1) (k : Nat) :
    ∀ (fuel : Nat) (nextDeadline : Time) (w : τ) (log : List error),
      k ≤ 9 → k + 1 ≤ fuel →
      (r.loop (logNow timeNow) (logErrors fn) 0 fuel (9 - k) nextDeadline (w, log)).1 ≠ none := by
  induction k with
  | zero =>
    intro fuel nextDeadline w log _ hfuel
    obtain ⟨n, rfl⟩ : ∃ n, fuel = n + 1 := ⟨fuel - 1, by omega⟩
    have hc : (retry.cond timeNow 0 9 w).1 = false := by
      unfold retry.cond
      rw [if_neg (by intro h; have h1 := h.1; unfold Natpmp.maxRetries at h1; omega)]
      simpa using hclock w
    simp [retry.loop, retry.step, retry.cond_logNow, hc]
  | succ k ih =>
    intro fuel nextDeadline w log hk hfuel
    obtain ⟨n, rfl⟩ : ∃ n, fuel = n + 1 := ⟨fuel - 1, by omega⟩
    have hc : retry.cond timeNow 0 (9 - (k + 1)) w = (true, w) := by
      unfold retry.cond
      rw [if_pos ⟨by unfold Natpmp.maxRetries; omega, rfl⟩]
    have hnext : (9 - (k + 1) + 1) % 18446744073709551616 = 9 - k := by omega
    simp only [retry.loop, retry.step, retry.cond_logNow, hc, if_true, logErrors, himm,
      Bool.false_eq_true, if_false, hnext]
    by_cases h3 : callPred r.retryDelay (fn (minTime nextDeadline 0) w).1 = true
    · simp only [h3, if_true]
      exact ih n _ _ _ (by omega) (by omega)
    · simp only [h3]
      simp

/-- With no overall deadline and attempts that always ask for an immediate
retry, the loop of `retry.run` started below 9 tries never returns: every
pass makes one more attempt. -/
theorem retry.loop_never_returns {τ : Type} (r : retry) (timeNow : τ → Time × τ)
    (fn : Time → τ → error × τ)
    (himm : ∀ d w, callPred r.retryImmediate (fn d w).1 = true) (fuel : Nat) :
    ∀ (tries : Nat) (nextDeadline : Time) (w : τ) (log : List error), tries < 9 →
      (r.loop (logNow timeNow) (logErrors fn) 0 fuel tries nextDeadline (w, log)).1 = none
      ∧ (r.loop (logNow timeNow) (logErrors fn) 0 fuel tries nextDeadline (w, log)).2.2.length
          = log.length + fuel := by
  induction fuel with
  | zero =>
    intro tries nextDeadline w log _
    simp [retry.loop]
  | succ n ih =>
    intro tries nextDeadline w log ht
    have hc : retry.cond timeNow 0 tries w = (true, w) := by
      unfold retry.cond
      rw [if_pos ⟨by unfold Natpmp.maxRetries; omega, rfl⟩]
    simp only [retry.loop, retry.step, retry.cond_logNow, hc, if_true, logErrors, himm]
    have h := ih tries nextDeadline (fn (minTime nextDeadline 0) w).2
      (log ++ [(fn (minTime nextDeadline 0) w).1]) ht
    refine ⟨h.1, ?_⟩
    rw [h.2]
    simp
    omega

/-- C22 (counterexample). With no overall timeout and an attempt function
that always ends in an immediate retry (a foreign packet every 100ms),
`retry.run` has made 20 invocations after 20 passes, more than `maxRetries`,
and has not returned. -/
theorem retry_immediate_unbounded :
    ((policy initialPause 0 9).run (logNow natClock) (logErrors foreignPacket) 20
        (1000000000000, [])).1 = none
    ∧ ((policy initialPause 0 9).run (logNow natClock) (logErrors foreignPacket) 20
        (1000000000000, [])).2.2.length = 20
    ∧ maxRetries < 20 := by
  refine ⟨by rfl, by rfl, by decide⟩

/-- C22 (amended). With no overall timeout (`timeout = 0`) and a clock that
never reads before the zero time, `retry.run` relies on `maxRetries` alone to
stop, and that bounds the attempts that do not end in an immediate retry: at
any point at most `maxRetries` = 9 of those have been made; when the attempt
function never asks for an immediate retry, `run` returns (fuel for ten passes
is enough) after at most `maxRetries` invocations; when it always asks for an
immediate retry, `run` does not return, whatever the fuel. -/
theorem retry_bounded_by_maxRetries {τ : Type} (r : retry) (timeNow : τ → Time × τ)
    (fn : Time → τ → error × τ) (w : τ)
    (htimeout : r.timeout = 0) (hclock : ∀ w, 0 ≤ (timeNow w).1) :
    (∀ fuel : Nat,
      r.counted (r.run (logNow timeNow) (logErrors fn) fuel (w, [])).2.2 ≤ maxRetries)
    ∧ ((∀ d w, callPred r.retryImmediate (fn d w).1 = false) → ∀ fuel : Nat, 10 ≤ fuel →
        (r.run (logNow timeNow) (logErrors fn) fuel (w, [])).1 ≠ none
        ∧ (r.run (logNow timeNow) (logErrors fn) fuel (w, [])).2.2.length ≤ maxRetries)
    ∧ ((∀ d w, callPred r.retryImmediate (fn d w).1 = true) → ∀ fuel : Nat,
        (r.run (logNow timeNow) (logErrors fn) fuel (w, [])).1 = none
        ∧ (r.run (logNow timeNow) (logErrors fn) fuel (w, [])).2.2.length = fuel) := by
  have hcount : ∀ fuel : Nat,
      r.counted (r.run (logNow timeNow) (logErrors fn) fuel (w, [])).2.2 ≤ maxRetries := by
    intro fuel
    simp only [retry.run, retry.finalDeadline, htimeout, ne_eq, not_true_eq_false, if_false]
    exact retry.loop_counted r timeNow fn hclock fuel 0 _ _ [] (by omega) (by simp [retry.counted])
  refine ⟨hcount, ?_, ?_⟩
  · intro himm fuel hfuel
    constructor
    · simp only [retry.run, retry.finalDeadline, htimeout, ne_eq, not_true_eq_false, if_false]
      exact retry.loop_returns_within r timeNow fn himm hclock 9 fuel _ _ [] (by omega) (by omega)
    · have h := hcount fuel
      have hall : ∀ log : List error, (∀ e ∈ log, callPred r.retryImmediate e = false) →
          r.counted log = log.length := by
        intro log hlog
        unfold retry.counted
        rw [List.filter_eq_self.2]
        intro e he
        simp [hlog e he]
      rw [hall] at h
      · exact h
      · have hp := retry.run_preserves r (logNow timeNow) (logErrors fn)
          (fun st => ∀ e ∈ st.2, callPred r.retryImmediate e = false)
          (fun st hst => hst)
          (fun d st hst e he => by
            simp only [logErrors, List.mem_append, List.mem_singleton] at he
            rcases he with he | he
            · exact hst e he
            · rw [he]; exact himm _ _)
          fuel (w, []) (by simp)
        exact hp
  · intro himm fuel
    simp only [retry.run, retry.finalDeadline, htimeout, ne_eq, not_true_eq_false, if_false]
    have h := retry.loop_never_returns r timeNow fn himm fuel 0
      ((logNow timeNow (w, ([] : List error))).1 + initialPause) (timeNow w).2 [] (by omega)
    simpa [logNow] using h

theorem retry_bounded_by_maxRetries_witness :
    ((policy initialPause 0 9).run (logNow natClock) (logErrors blockUntil) 10
        (1000000000000, [])).1 ≠ none
    ∧ ((policy initialPause 0 9).run (logNow natClock) (logErrors blockUntil) 10
        (1000000000000, [])).2.2.length ≤ maxRetries :=
  (retry_bounded_by_maxRetries (policy initialPause 0 9) natClock blockUntil 1000000000000
    rfl (fun w => Int.ofNat_nonneg w)).2.1 (fun _ _ => rfl) 10 (by decide)

/-- On every reply the four checks of the legacy `protocolChecks` and of the
new `rpc` fail at the same stage or both pass, and when they pass the new
client has decoded the record the legacy client reads from the bytes. -/
theorem checks_agree (msg : Bytes) (req : request) (op : Byte) (d : Bytes)
    (hmsg : msg.getD 1 0 = op) (hreq : req.opcode = op) :
    (Legacy.protocolChecks msg 16 d).map LegacyErr.stage
        = (rpcChecks req responseType.mappingResp mappingResp.zero d).1.map Err.stage
    ∧ (Legacy.protocolChecks msg 16 d = none →
        (rpcChecks req responseType.mappingResp mappingResp.zero d).2
          = ⟨d.getD 0 0, d.getD 1 0, be16 (d.getD 2 0) (d.getD 3 0),
              be32 (d.getD 4 0) (d.getD 5 0) (d.getD 6 0) (d.getD 7 0),
              be16 (d.getD 8 0) (d.getD 9 0), be16 (d.getD 10 0) (d.getD 11 0),
              be32 (d.getD 12 0) (d.getD 13 0) (d.getD 14 0) (d.getD 15 0)⟩) := by
  by_cases hlen : d.length = 16
  · have h := hlen
    obtain ⟨a0, d0, rfl, h0⟩ := cons_of_length 15 d h
    obtain ⟨a1, d1, rfl, h1⟩ := cons_of_length 14 d0 h0
    obtain ⟨a2, d2, rfl, h2⟩ := cons_of_length 13 d1 h1
    obtain ⟨a3, d3, rfl, h3⟩ := cons_of_length 12 d2 h2
    obtain ⟨a4, d4, rfl, h4⟩ := cons_of_length 11 d3 h3
    obtain ⟨a5, d5, rfl, h5⟩ := cons_of_length 10 d4 h4
    obtain ⟨a6, d6, rfl, h6⟩ := cons_of_length 9 d5 h5
    obtain ⟨a7, d7, rfl, h7⟩ := cons_of_length 8 d6 h6
    obtain ⟨a8, d8, rfl, h8⟩ := cons_of_length 7 d7 h7
    obtain ⟨a9, d9, rfl, h9⟩ := cons_of_length 6 d8 h8
    obtain ⟨a10, d10, rfl, h10⟩ := cons_of_length 5 d9 h9
    obtain ⟨a11, d11, rfl, h11⟩ := cons_of_length 4 d10 h10
    obtain ⟨a12, d12, rfl, h12⟩ := cons_of_length 3 d11 h11
    obtain ⟨a13, d13, rfl, h13⟩ := cons_of_length 2 d12 h12
    obtain ⟨a14, d14, rfl, h14⟩ := cons_of_length 1 d13 h13
    obtain ⟨a15, d15, rfl, h15⟩ := cons_of_length 0 d14 h14
    have hnil : d15 = [] := List.length_eq_zero.1 h15
    subst hnil
    have hdec := rpcChecks_decoded req responseType.mappingResp mappingResp.zero
      [a0, a1, a2, a3, a4, a5, a6, a7, a8, a9, a10, a11, a12, a13, a14, a15]
      ⟨a0, a1, be16 a2 a3, be32 a4 a5 a6 a7, be16 a8 a9, be16 a10 a11, be32 a12 a13 a14 a15⟩
      rfl rfl
    rw [hdec]
    simp only [Legacy.protocolChecks, List.length_cons, List.length_nil, List.getD_cons_zero,
      List.getD_cons_succ, responseType.version, responseType.opcode, responseType.resultCode,
      hmsg, hreq]
    have hv : ((a0.val : Int) ≠ 0) ↔ a0 ≠ 0 := by
      constructor
      · intro h1 h2; subst h2; exact h1 rfl
      · intro h1 h2; exact h1 (Fin.ext (by exact_mod_cast h2))
    have hc : (((be16 a2 a3).val : Int) ≠ 0) ↔ be16 a2 a3 ≠ 0 := by
      constructor
      · intro h1 h2; rw [h2] at h1; exact h1 rfl
      · intro h1 h2; exact h1 (Fin.ext (by exact_mod_cast h2))
    by_cases h0 : a0 = 0
    · by_cases h1 : a1 = byte (op.val ||| 0x80)
      · by_cases h2 : be16 a2 a3 = 0
        · simp [h0, h1, h2]
        · have h2i := hc.2 h2
          simp [h0, h1, h2, h2i, LegacyErr.stage, Err.stage]
      · simp [h0, h1, LegacyErr.stage, Err.stage]
    · have h0i := hv.2 h0
      simp [h0, h0i, LegacyErr.stage, Err.stage]
  · have hnew := rpcChecks_size req responseType.mappingResp mappingResp.zero d hlen
    simp [Legacy.protocolChecks, hlen, hnew, LegacyErr.stage, Err.stage]

theorem u32OfInt_natCast (n : Nat) (hn : n < 4294967296) : (u32OfInt (n : Int)).val = n := by
  simp only [u32OfInt, u32]
  omega

/-- The legacy and the new client build the same request bytes from in-range
arguments. -/
theorem mappingMsg_eq (fp : Duration → Nat) (op : Byte) (p q n : Nat)
    (hp : p ≤ 65535) (hq : q ≤ 65535) (hn : n < 4294967296) :
    Legacy.mappingMsg op (p : Int) (q : Int) (n : Int)
      = binaryWrite (request.mapping (mappingRequest fp op (p : Int) (q : Int)
          ((n : Int) * Second))) := by
  rw [mappingRequest_encode fp op p q n hp hq hn]
  simp [Legacy.mappingMsg, putU16, putU32, u16OfInt_natCast p hp, u16OfInt_natCast q hq,
    u32OfInt_natCast n hn]

/-- C23. For every protocol, ports `p`, `q` in [0, 65535] and a lifetime of `n`
whole seconds, `n < 2^32`: the legacy `AddPortMapping` and the new one build
the same request bytes; and when the legacy caller returns the reply `d` and
the exchange of the new client ends with the same reply `d`, either both fail
at the same stage (the protocol test or the same one of the four checks) or
both return the same `PortMapping`. -/
theorem legacy_and_new_agree {σ ρ : Type} (lc : Legacy.Client ρ) (c : Client σ)
    (timeNow : σ → Time × σ) (fp : Duration → Nat) (protocol : String) (p q n : Nat)
    (fuel : Nat) (s s1 s2 : σ) (t t1 : ρ) (d : Bytes)
    (hp : p ≤ 65535) (hq : q ≤ 65535) (hn : n < 4294967296)
    (hcall : ∀ op, protocolOpcode protocol = Except.ok op →
      lc.caller.call (Legacy.mappingMsg op (p : Int) (q : Int) (n : Int)) lc.timeout t
        = (some (d, none), t1))
    (hopen : c.transport.Open c.gatewayIP c.port s = (none, s1))
    (hrun : ∀ op, protocolOpcode protocol = Except.ok op →
      (rpcRetry c.timeout).run (liftNow timeNow)
        (rpcAttempt c (binaryWrite (request.mapping
          (mappingRequest fp op (p : Int) (q : Int) ((n : Int) * Second))))) fuel
        (resultBuffer, s1) = (some none, (d, s2))) :
    (∀ op : Byte, Legacy.mappingMsg op (p : Int) (q : Int) (n : Int)
        = binaryWrite (request.mapping (mappingRequest fp op (p : Int) (q : Int)
            ((n : Int) * Second))))
    ∧ (Legacy.AddPortMapping lc protocol (p : Int) (q : Int) (n : Int) t).1.map Legacy.outcome
        = (AddPortMapping c timeNow fp protocol (p : Int) (q : Int) ((n : Int) * Second)
            fuel s).1.map outcome := by
  refine ⟨fun op => mappingMsg_eq fp op p q n hp hq hn, ?_⟩
  have hops : ∀ op, protocolOpcode protocol = Except.ok op →
      Legacy.protocolOpcode protocol = Except.ok op := by
    intro op h
    unfold protocolOpcode at h
    unfold Legacy.protocolOpcode
    by_cases h1 : protocol = "udp"
    · simp only [h1, if_true, Except.ok.injEq] at h ⊢
      exact h
    · by_cases h2 : protocol = "tcp"
      · subst h2
        have hd : ¬ (("tcp" : String) = "udp") := by decide
        simp only [hd, if_true, if_false, Except.ok.injEq] at h ⊢
        exact h
      · simp [h1, h2] at h
  cases hop : protocolOpcode protocol with
  | error e =>
    have hl : Legacy.protocolOpcode protocol
        = Except.error (LegacyErr.unknownProtocol protocol) := by
      unfold protocolOpcode at hop
      unfold Legacy.protocolOpcode
      by_cases h1 : protocol = "udp"
      · simp [h1] at hop
      · by_cases h2 : protocol = "tcp"
        · simp [h1, h2] at hop
        · simp [h1, h2]
    have he : e = Err.unknownProtocol protocol := by
      unfold protocolOpcode at hop
      by_cases h1 : protocol = "udp"
      · simp [h1] at hop
      · by_cases h2 : protocol = "tcp"
        · simp [h1, h2] at hop
        · simp only [h1, h2, if_false, Except.error.injEq] at hop
          exact hop.symm
    subst he
    simp [Legacy.AddPortMapping, AddPortMapping, hl, hop, Legacy.outcome, outcome,
      LegacyErr.stage, Err.stage]
  | ok op =>
    have hrpc := rpc_of_run c timeNow
      (request.mapping (mappingRequest fp op (p : Int) (q : Int) ((n : Int) * Second)))
      responseType.mappingResp mappingResp.zero fuel s s1 s2 d hopen (hrun op hop)
    have hagree := checks_agree (Legacy.mappingMsg op (p : Int) (q : Int) (n : Int))
      (request.mapping (mappingRequest fp op (p : Int) (q : Int) ((n : Int) * Second))) op d
      rfl rfl
    simp only [Legacy.AddPortMapping, AddPortMapping, hops op hop, hop, Legacy.rpc,
      hcall op hop, hrpc]
    cases hleg : Legacy.protocolChecks (Legacy.mappingMsg op (p : Int) (q : Int) (n : Int)) 16 d with
    | some e =>
      rw [hleg] at hagree
      rcases hnew : rpcChecks
        (request.mapping (mappingRequest fp op (p : Int) (q : Int) ((n : Int) * Second)))
        responseType.mappingResp mappingResp.zero d with ⟨err, resp⟩
      rw [hnew] at hagree
      cases err with
      | none => simp at hagree
      | some e2 =>
        have h1 := hagree.1
        simp only [Option.map_some', Option.some.injEq] at h1
        simp [Legacy.outcome, outcome, Err.stage, h1]
    | none =>
      rw [hleg] at hagree
      rcases hnew : rpcChecks
        (request.mapping (mappingRequest fp op (p : Int) (q : Int) ((n : Int) * Second)))
        responseType.mappingResp mappingResp.zero d with ⟨err, resp⟩
      rw [hnew] at hagree
      cases err with
      | some e2 => simp at hagree
      | none =>
        have h2 := hagree.2 rfl
        simp only at h2
        subst h2
        simp [Legacy.outcome, outcome]

theorem legacy_and_new_agree_witness :
    (Legacy.AddPortMapping { caller := fixedCaller udpReply, timeout := 0 } "udp"
        ((123 : Nat) : Int) ((456 : Nat) : Int) ((1200 : Nat) : Int) ()).1.map Legacy.outcome
      = (AddPortMapping testClient (tickClock Millisecond) (fun _ => 0) "udp"
          ((123 : Nat) : Int) ((456 : Nat) : Int) (((1200 : Nat) : Int) * Second) 3
          (startWorld (answeringDouble udpRequestBytes udpReply))).1.map outcome
    ∧ (AddPortMapping testClient (tickClock Millisecond) (fun _ => 0) "udp"
          ((123 : Nat) : Int) ((456 : Nat) : Int) (((1200 : Nat) : Int) * Second) 3
          (startWorld (answeringDouble udpRequestBytes udpReply))).1.map outcome
      = some (Except.ok
          { EpochDuration := 0x13feff * Second, InternalPort := 123, MappedExternalPort := 456,
            Lifetime := 1200 * Second }) :=
  ⟨(legacy_and_new_agree { caller := fixedCaller udpReply, timeout := 0 } testClient
      (tickClock Millisecond) (fun _ => 0) "udp" 123 456 1200 3
      (startWorld (answeringDouble udpRequestBytes udpReply))
      (openedWorld 1000000000000 (answeringDouble udpRequestBytes udpReply))
      (openedWorld 1000003000000 (answeringDouble udpRequestBytes udpReply))
      () () udpReply (by decide) (by decide) (by decide)
      (fun _ _ => rfl) (by rfl)
      (fun op hop => by
        have h : op = 1 := by
          have h1 : protocolOpcode "udp" = Except.ok 1 := rfl
          rw [h1] at hop
          exact (Except.ok.inj hop).symm
        subst h
        rfl)).2,
    by rfl⟩

theorem u16OfInt_emod (x : Int) : u16OfInt (x % 65536) = u16OfInt x := by
  apply Fin.ext
  simp only [u16OfInt, u16]
  omega

/-- C26 (what the code does). The legacy `NewClient` does not look at its
options: the client it returns has timeout 0 whatever options are given.  With
`WithTimeout(1s)` and a gateway that never answers, the legacy `rpc` hands
timeout 0 to `network.call`, which then has no overall deadline: it writes 9
datagrams and gives up after 127.75 s; had the option been applied it would
have written 3 and given up after 1 s. -/
theorem legacy_NewClient_drops_options :
    (∀ (σ : Type) (n : UDPConn σ) (timeNow : σ → Time × σ) (fuel : Nat) (gateway : IP)
        (opts : List (Legacy.ClientOption σ)),
        (Legacy.NewClient n timeNow fuel gateway opts).timeout = 0)
    ∧ (∀ (σ : Type) (c : Legacy.Client σ) (d : Duration), (Legacy.WithTimeout d c).timeout = d)
    ∧ Legacy.rpc (Legacy.NewClient silentConn udpClock 20 ip10 [Legacy.WithTimeout (1 * Second)])
        [0, 0] 12 ⟨1000000000000, 0, 0⟩
      = (some (resultBuffer, some (LegacyErr.caller Err.timedOut)),
          ⟨1000000000000 + 127750 * Millisecond, 1000000000000 + 127750 * Millisecond, 9⟩)
    ∧ Legacy.rpc (Legacy.WithTimeout (1 * Second) (Legacy.NewClient silentConn udpClock 20 ip10 []))
        [0, 0] 12 ⟨1000000000000, 0, 0⟩
      = (some (resultBuffer, some (LegacyErr.caller Err.timedOut)),
          ⟨1000000000000 + 1 * Second, 1000000000000 + 1 * Second, 3⟩) := by
  refine ⟨fun _ _ _ _ _ _ => rfl, fun _ _ _ => rfl, by rfl, by rfl⟩

/-- C27 (what the code does). `IPValue.Set` tests the receiver pointer, not the
parsed address: on every variable, whatever it holds and whatever the string,
it returns no error and overwrites the variable with the result of
`net.ParseIP`, nil included; the error "invalid gateway IP: <s>" is returned
only through a nil receiver.  A variable holding 10.0.0.1 holds nil after
`Set("not-an-ip")`, and the call reports success. -/
theorem IPValue_Set_never_rejects :
    (∀ (parseIP : String → IPValue) (old : IPValue) (s : String),
        IPValue.Set parseIP (some old) s = (some (parseIP s), none))
    ∧ (∀ (parseIP : String → IPValue) (s : String),
        IPValue.Set parseIP none s
          = (none, some (FlagsErr.errorf ("invalid gateway IP: " ++ s))))
    ∧ IPValue.Set (fun _ => none) (some (some ip10)) "not-an-ip" = (some none, none) :=
  ⟨fun _ _ _ => rfl, fun _ _ => rfl, rfl⟩

/-- C28 (what the code does). `IPValue.IsSet` returns the comparison with nil
itself: it is true exactly when the value is nil, so true for the zero value
and false for a value holding 10.0.0.1; the sibling `PortSpec.IsSet` is true
for a filled record and false for the zero record. -/
theorem IPValue_IsSet_inverted :
    (∀ v : IPValue, IPValue.IsSet v = true ↔ v = none)
    ∧ IPValue.IsSet none = true
    ∧ IPValue.IsSet (some ip10) = false
    ∧ PortSpec.IsSet ⟨0, 0, "", 0⟩ = false
    ∧ PortSpec.IsSet ⟨8080, 80, "tcp", 0⟩ = true := by
  refine ⟨fun v => by simp [IPValue.IsSet], by rfl, by rfl, by rfl, by rfl⟩

/-- When the loop condition admits the first pass, the attempt function runs:
a property `P` that every attempt establishes from `Q`, and that the clock and
later attempts preserve, holds after the loop. -/
theorem retry.loop_first_attempt {τ : Type} (r : retry) (timeNow : τ → Time × τ)
    (fn : Time → τ → error × τ) (P Q : τ → Prop)
    (hQnow : ∀ w, Q w → Q (timeNow w).2) (hQfn : ∀ d w, Q w → P (fn d w).2)
    (hnow : ∀ w, P w → P (timeNow w).2) (hfn : ∀ d w, P w → P (fn d w).2)
    (finalDeadline : Time) (fuel : Nat) (tries : Nat) (nextDeadline : Time) (w : τ) (hw : Q w)
    (hc : (retry.cond timeNow finalDeadline tries w).1 = true) :
    P (r.loop timeNow fn finalDeadline (fuel + 1) tries nextDeadline w).2 := by
  have hcq : Q (retry.cond timeNow finalDeadline tries w).2 := by
    unfold retry.cond
    split
    · exact hw
    · exact hQnow w hw
  have ha := hQfn (minTime nextDeadline finalDeadline) _ hcq
  unfold retry.loop
  unfold retry.step
  simp only [hc, if_true]
  by_cases h2 : callPred r.retryImmediate
      (fn (minTime nextDeadline finalDeadline) (retry.cond timeNow finalDeadline tries w).2).1 = true
  · simp only [h2, if_true]
    exact retry.loop_preserves r timeNow fn P hnow hfn finalDeadline fuel _ _ _ ha
  · simp only [h2]
    by_cases h3 : callPred r.retryDelay
        (fn (minTime nextDeadline finalDeadline) (retry.cond timeNow finalDeadline tries w).2).1 = true
    · simp only [h3, if_true]
      exact retry.loop_preserves r timeNow fn P hnow hfn finalDeadline fuel _ _ _ (hnow _ ha)
    · simp only [h3]
      exact ha

/-- The first `Send` of `rpc`.  When `Open` succeeds and the clock reading of
the first loop condition is before the overall deadline, `rpc` calls `Send`,
and the first request it hands over is the encoded request: the log of the
recording transport is the old log, then `binaryWrite req`, then what later
attempts add. -/
theorem rpc_first_send {σ : Type} (c : Client σ) (timeNow : σ → Time × σ)
    (req : request) (k : responseType) (resp : k.record) (fuel : Nat) (s s1 : σ)
    (log : List Bytes)
    (hopen : c.transport.Open c.gatewayIP c.port s = (none, s1))
    (hfirst : (timeNow (timeNow (timeNow s1).2).2).1
      < (timeNow s1).1 + (rpcRetry c.timeout).timeout)
    (hfuel : 1 ≤ fuel) :
    ∃ rest, (rpc c.recording (recNow timeNow) req k resp fuel (s, log)).2.2
      = log ++ binaryWrite req :: rest := by
  obtain ⟨n, rfl⟩ : ∃ n, fuel = n + 1 := ⟨fuel - 1, by omega⟩
  have ht : (rpcRetry c.timeout).timeout ≠ 0 := by
    rw [rpcRetry_timeout]
    by_cases h : c.timeout = 0
    · simp only [h, if_true]
      decide
    · simp only [h, if_false]
      exact h
  have hrun : ∃ rest, ((rpcRetry c.recording.timeout).run (liftNow (recNow timeNow))
      (rpcAttempt c.recording (binaryWrite req)) (n + 1) (resultBuffer, (s1, log))).2.2.2
        = log ++ binaryWrite req :: rest := by
    have htr : (rpcRetry c.recording.timeout).timeout ≠ 0 := ht
    unfold retry.run
    apply retry.loop_first_attempt (rpcRetry c.recording.timeout) (liftNow (recNow timeNow))
      (rpcAttempt c.recording (binaryWrite req))
      (fun st => ∃ rest, st.2.2 = log ++ binaryWrite req :: rest) (fun st => st.2.2 = log)
    · intro w hw
      exact hw
    · intro d w hw
      refine ⟨[], ?_⟩
      rw [rpcAttempt_world]
      simp only [Client.recording, Transport.recording]
      rw [hw]
    · intro w hw
      exact hw
    · intro d w hw
      obtain ⟨rest, hrest⟩ := hw
      refine ⟨rest ++ [binaryWrite req], ?_⟩
      rw [rpcAttempt_world]
      simp only [Client.recording, Transport.recording]
      rw [hrest]
      simp
    · simp only [retry.finalDeadline, htr, ne_eq, not_false_eq_true, if_true]
      rfl
    · simp only [retry.finalDeadline, htr, ne_eq, not_false_eq_true, if_true, retry.cond]
      split
      · rfl
      · simp only [liftNow, recNow, decide_eq_true_eq]
        exact hfirst
  have hO : c.recording.transport.Open c.recording.gatewayIP c.recording.port (s, log)
      = (none, (s1, log)) := by
    simp only [Client.recording, Transport.recording, hopen]
  obtain ⟨rest, hrest⟩ := hrun
  refine ⟨rest, ?_⟩
  simp only [rpc, hO]
  split
  · rename_i st hr
    rw [hr] at hrest
    exact hrest
  · rename_i err st hr
    rw [hr] at hrest
    simpa [Client.recording, Transport.recording] using hrest
  · rename_i st hr
    rw [hr] at hrest
    simpa [Client.recording, Transport.recording] using hrest

/-- The bytes of the request record `AddPortMapping` builds, for all integer
ports and every lifetime. -/
theorem mappingRequest_bytes (fp : Duration → Nat) (op : Byte) (p q : Int)
    (lifetime : Duration) :
    binaryWrite (request.mapping (mappingRequest fp op p q lifetime))
      = [0, op, 0, 0, byte ((p % 65536).toNat / 256), byte (p % 65536).toNat,
          byte ((q % 65536).toNat / 256), byte (q % 65536).toNat]
        ++ putU32 (lifetimeSecs fp lifetime) := by
  have hnat : ∀ x : Int, (u16OfInt x).val = (x % 65536).toNat := by
    intro x
    simp only [u16OfInt, u16]
    omega
  simp [binaryWrite, mappingReq.encode, mappingRequest, putU16, hnat]

/-- What `AddPortMapping` returns when the exchange ends with a well-formed
reply, before anything is said about the conversion to durations. -/
theorem AddPortMapping_of_reply {σ : Type} (c : Client σ) (timeNow : σ → Time × σ)
    (fp : Duration → Nat) (protocol : String) (op : Byte)
    (internalPort requestedExternalPort : Int) (lifetime : Duration) (fuel : Nat) (s s1 s2 : σ)
    (e0 e1 e2 e3 i0 i1 m0 m1 l0 l1 l2 l3 : Byte)
    (hop : protocolOpcode protocol = Except.ok op)
    (hopen : c.transport.Open c.gatewayIP c.port s = (none, s1))
    (hrun : (rpcRetry c.timeout).run (liftNow timeNow)
      (rpcAttempt c (binaryWrite (request.mapping
        (mappingRequest fp op internalPort requestedExternalPort lifetime)))) fuel
      (resultBuffer, s1)
      = (some none, ([0, byte (op.val ||| 0x80), 0, 0, e0, e1, e2, e3, i0, i1, m0, m1,
          l0, l1, l2, l3], s2))) :
    (AddPortMapping c timeNow fp protocol internalPort requestedExternalPort lifetime fuel s).1
      = some (Except.ok
          { EpochDuration := secondsDuration (be32 e0 e1 e2 e3)
            InternalPort := be16 i0 i1
            MappedExternalPort := be16 m0 m1
            Lifetime := secondsDuration (be32 l0 l1 l2 l3) }) := by
  have hrpc := rpc_of_run c timeNow
    (request.mapping (mappingRequest fp op internalPort requestedExternalPort lifetime))
    responseType.mappingResp mappingResp.zero fuel s s1 s2 _ hopen hrun
  have hchk : rpcChecks
      (request.mapping (mappingRequest fp op internalPort requestedExternalPort lifetime))
      responseType.mappingResp mappingResp.zero
      [0, byte (op.val ||| 0x80), 0, 0, e0, e1, e2, e3, i0, i1, m0, m1, l0, l1, l2, l3]
      = (none, ⟨0, byte (op.val ||| 0x80), be16 0 0, be32 e0 e1 e2 e3, be16 i0 i1, be16 m0 m1,
          be32 l0 l1 l2 l3⟩) := by
    rw [rpcChecks_decoded _ responseType.mappingResp mappingResp.zero
      [0, byte (op.val ||| 0x80), 0, 0, e0, e1, e2, e3, i0, i1, m0, m1, l0, l1, l2, l3]
      ⟨0, byte (op.val ||| 0x80), be16 0 0, be32 e0 e1 e2 e3, be16 i0 i1, be16 m0 m1,
        be32 l0 l1 l2 l3⟩ rfl rfl]
    have hz : ((be16 0 0 : U16).val : Int) = 0 := rfl
    simp [responseType.version, responseType.opcode, responseType.resultCode, request.opcode,
      mappingRequest, hz]
  rw [hchk] at hrpc
  simp only [AddPortMapping, hop, hrpc]

/-- What `GetExternalAddress` returns when the exchange ends with a well-formed
reply, before anything is said about the conversion to a duration. -/
theorem GetExternalAddress_of_reply {σ : Type} (c : Client σ) (timeNow : σ → Time × σ)
    (fuel : Nat) (s s1 s2 : σ) (e0 e1 e2 e3 a0 a1 a2 a3 : Byte)
    (hopen : c.transport.Open c.gatewayIP c.port s = (none, s1))
    (hrun : (rpcRetry c.timeout).run (liftNow timeNow)
      (rpcAttempt c (binaryWrite (request.extAddr ⟨0, 0⟩))) fuel (resultBuffer, s1)
      = (some none, ([0, 0x80, 0, 0, e0, e1, e2, e3, a0, a1, a2, a3], s2))) :
    (GetExternalAddress c timeNow fuel s).1
      = some (Except.ok (⟨a0, a1, a2, a3⟩, secondsDuration (be32 e0 e1 e2 e3))) := by
  have hrpc := rpc_of_run c timeNow (request.extAddr ⟨0, 0⟩)
    responseType.extAddrResp extAddrResp.zero fuel s s1 s2 _ hopen hrun
  have hchk : rpcChecks (request.extAddr ⟨0, 0⟩) responseType.extAddrResp extAddrResp.zero
      [0, 0x80, 0, 0, e0, e1, e2, e3, a0, a1, a2, a3]
      = (none, ⟨0, 0x80, be16 0 0, be32 e0 e1 e2 e3, ⟨a0, a1, a2, a3⟩⟩) := by
    rw [rpcChecks_decoded (request.extAddr ⟨0, 0⟩) responseType.extAddrResp extAddrResp.zero
      [0, 0x80, 0, 0, e0, e1, e2, e3, a0, a1, a2, a3]
      ⟨0, 0x80, be16 0 0, be32 e0 e1 e2 e3, ⟨a0, a1, a2, a3⟩⟩ rfl rfl]
    rfl
  rw [hchk] at hrpc
  simp only [GetExternalAddress, hrpc]

/-- C7. The length of the encoded request depends on the variant alone.
Every request `GetExternalAddress` hands to `Send` is the two bytes `00 00`
(the log of the recording transport consists of copies of them), and it does
hand them over: when `Open` succeeds and the clock reading of the first loop
condition is before the overall deadline, the log starts with `00 00`.  Every
`mappingReq` value encodes to 12 bytes and every `extAddrReq` value to 2, and
every request `AddPortMapping` hands to `Send`, whatever its arguments, is 12
bytes long. -/
theorem request_length_by_variant :
    (∀ (σ : Type) (c : Client σ) (timeNow : σ → Time × σ) (fuel : Nat) (s : σ),
      (GetExternalAddress c.recording (recNow timeNow) fuel (s, [])).2.2
        = List.replicate
            (GetExternalAddress c.recording (recNow timeNow) fuel (s, [])).2.2.length [0, 0])
    ∧ (∀ (σ : Type) (c : Client σ) (timeNow : σ → Time × σ) (fuel : Nat) (s s1 : σ),
      c.transport.Open c.gatewayIP c.port s = (none, s1) →
      (timeNow (timeNow (timeNow s1).2).2).1 < (timeNow s1).1 + (rpcRetry c.timeout).timeout →
      1 ≤ fuel →
      ∃ rest, (GetExternalAddress c.recording (recNow timeNow) fuel (s, [])).2.2
        = [0, 0] :: rest)
    ∧ (∀ r : mappingReq, (binaryWrite (request.mapping r)).length = 12)
    ∧ (∀ r : extAddrReq, (binaryWrite (request.extAddr r)).length = 2)
    ∧ (∀ (σ : Type) (c : Client σ) (timeNow : σ → Time × σ) (fp : Duration → Nat)
        (protocol : String) (p q : Int) (lifetime : Duration) (fuel : Nat) (s : σ),
      ∀ b ∈ (AddPortMapping c.recording (recNow timeNow) fp protocol p q lifetime fuel
        (s, [])).2.2, b.length = 12) := by
  refine ⟨?_, ?_, ?_, ?_, ?_⟩
  · intro σ c timeNow fuel s
    rw [List.eq_replicate_length, GetExternalAddress_world]
    exact rpc_sends_only_request c timeNow (request.extAddr ⟨0, 0⟩) _ _ fuel s [] (by simp)
  · intro σ c timeNow fuel s s1 hopen hfirst hfuel
    rw [GetExternalAddress_world]
    obtain ⟨rest, hrest⟩ := rpc_first_send c timeNow (request.extAddr ⟨0, 0⟩)
      responseType.extAddrResp extAddrResp.zero fuel s s1 [] hopen hfirst hfuel
    exact ⟨rest, hrest⟩
  · intro r
    rfl
  · intro r
    rfl
  · intro σ c timeNow fp protocol p q lifetime fuel s b hb
    cases hop : protocolOpcode protocol with
    | error e =>
      simp [AddPortMapping, hop] at hb
    | ok op =>
      rw [AddPortMapping_world c.recording (recNow timeNow) fp protocol op p q lifetime fuel
        (s, []) hop] at hb
      rw [rpc_sends_only_request c timeNow _ _ _ fuel s [] (by simp) b hb]
      rfl

theorem request_length_by_variant_witness :
    (GetExternalAddress testClient.recording (recNow (tickClock Millisecond)) 3
        (startWorld (answeringDouble [0x0, 0x0]
          [0x0, 0x80, 0x0, 0x0, 0x0, 0x13, 0xf2, 0x4f, 0x49, 0x8c, 0x36, 0x9a]), [])).2.2
      = List.replicate 1 [0, 0]
    ∧ ∃ rest, (GetExternalAddress testClient.recording (recNow (tickClock Millisecond)) 3
        (startWorld (answeringDouble [0x0, 0x0]
          [0x0, 0x80, 0x0, 0x0, 0x0, 0x13, 0xf2, 0x4f, 0x49, 0x8c, 0x36, 0x9a]), [])).2.2
      = [0, 0] :: rest :=
  ⟨request_length_by_variant.1 World testClient (tickClock Millisecond) 3
      (startWorld (answeringDouble [0x0, 0x0]
        [0x0, 0x80, 0x0, 0x0, 0x0, 0x13, 0xf2, 0x4f, 0x49, 0x8c, 0x36, 0x9a])),
    request_length_by_variant.2.1 World testClient (tickClock Millisecond) 3
      (startWorld (answeringDouble [0x0, 0x0]
        [0x0, 0x80, 0x0, 0x0, 0x0, 0x13, 0xf2, 0x4f, 0x49, 0x8c, 0x36, 0x9a]))
      (openedWorld 1000000000000 (answeringDouble [0x0, 0x0]
        [0x0, 0x80, 0x0, 0x0, 0x0, 0x13, 0xf2, 0x4f, 0x49, 0x8c, 0x36, 0x9a]))
      (by rfl) (by decide) (by decide)⟩

/-- C24. `AddPortMapping` does not validate its ports.  For protocol "udp"
(op 1) or "tcp" (op 2), all integers `p` and `q` (also negative ones or ones
above 65535) and every lifetime: when `Open` succeeds and the first pass of the
loop is admitted, `Send` is called, and every request handed to `Send` is
`00 op 00 00`, then `p` and `q` reduced modulo 2^16 as two big-endian bytes
each, then the lifetime; the call behaves exactly as for the reduced ports;
and when the exchange ends with a well-formed reply the call returns the
decoded mapping, no error.  The legacy `AddPortMapping` hands its caller the
same eight leading bytes.  Port 65659 is sent as 123 and -1 as 65535. -/
theorem AddPortMapping_ports_modulo {σ : Type} (c : Client σ) (timeNow : σ → Time × σ)
    (fp : Duration → Nat) (protocol : String) (op : Byte) (p q : Int) (lifetime : Duration)
    (fuel : Nat) (s s1 : σ)
    (hproto : (protocol = "udp" ∧ op = 1) ∨ (protocol = "tcp" ∧ op = 2))
    (hopen : c.transport.Open c.gatewayIP c.port s = (none, s1))
    (hfirst : (timeNow (timeNow (timeNow s1).2).2).1
      < (timeNow s1).1 + (rpcRetry c.timeout).timeout)
    (hfuel : 1 ≤ fuel) :
    (∃ rest, (AddPortMapping c.recording (recNow timeNow) fp protocol p q lifetime fuel
        (s, [])).2.2
      = ([0, op, 0, 0, byte ((p % 65536).toNat / 256), byte (p % 65536).toNat,
            byte ((q % 65536).toNat / 256), byte (q % 65536).toNat]
          ++ putU32 (lifetimeSecs fp lifetime)) :: rest)
    ∧ (AddPortMapping c.recording (recNow timeNow) fp protocol p q lifetime fuel (s, [])).2.2
      = List.replicate
          (AddPortMapping c.recording (recNow timeNow) fp protocol p q lifetime fuel
            (s, [])).2.2.length
          ([0, op, 0, 0, byte ((p % 65536).toNat / 256), byte (p % 65536).toNat,
              byte ((q % 65536).toNat / 256), byte (q % 65536).toNat]
            ++ putU32 (lifetimeSecs fp lifetime))
    ∧ AddPortMapping c timeNow fp protocol p q lifetime fuel s
      = AddPortMapping c timeNow fp protocol (p % 65536) (q % 65536) lifetime fuel s
    ∧ (∀ (s2 : σ) (e0 e1 e2 e3 i0 i1 m0 m1 l0 l1 l2 l3 : Byte),
        (rpcRetry c.timeout).run (liftNow timeNow)
            (rpcAttempt c (binaryWrite (request.mapping (mappingRequest fp op p q lifetime))))
            fuel (resultBuffer, s1)
          = (some none, ([0, byte (op.val ||| 0x80), 0, 0, e0, e1, e2, e3, i0, i1, m0, m1,
              l0, l1, l2, l3], s2)) →
        (AddPortMapping c timeNow fp protocol p q lifetime fuel s).1
          = some (Except.ok
              { EpochDuration := secondsDuration (be32 e0 e1 e2 e3)
                InternalPort := be16 i0 i1
                MappedExternalPort := be16 m0 m1
                Lifetime := secondsDuration (be32 l0 l1 l2 l3) }))
    ∧ (∀ (ρ : Type) (lc : Legacy.Client ρ) (n : Int) (t : ρ),
        (Legacy.AddPortMapping lc protocol p q n t).2
          = (lc.caller.call
              ([0, op, 0, 0, byte ((p % 65536).toNat / 256), byte (p % 65536).toNat,
                  byte ((q % 65536).toNat / 256), byte (q % 65536).toNat]
                ++ putU32 (u32OfInt n)) lc.timeout t).2) := by
  have hop : protocolOpcode protocol = Except.ok op := by
    rcases hproto with ⟨h1, h2⟩ | ⟨h1, h2⟩ <;> subst h1 <;> subst h2 <;> rfl
  have hlop : Legacy.protocolOpcode protocol = Except.ok op := by
    rcases hproto with ⟨h1, h2⟩ | ⟨h1, h2⟩ <;> subst h1 <;> subst h2 <;> rfl
  have hnat : ∀ x : Int, (u16OfInt x).val = (x % 65536).toNat := by
    intro x
    simp only [u16OfInt, u16]
    omega
  refine ⟨?_, ?_, ?_, ?_, ?_⟩
  · rw [AddPortMapping_world c.recording (recNow timeNow) fp protocol op p q lifetime fuel
      (s, []) hop, ← mappingRequest_bytes fp op p q lifetime]
    obtain ⟨rest, hrest⟩ := rpc_first_send c timeNow
      (request.mapping (mappingRequest fp op p q lifetime))
      responseType.mappingResp mappingResp.zero fuel s s1 [] hopen hfirst hfuel
    exact ⟨rest, hrest⟩
  · rw [List.eq_replicate_length]
    rw [AddPortMapping_world c.recording (recNow timeNow) fp protocol op p q lifetime fuel
      (s, []) hop, ← mappingRequest_bytes fp op p q lifetime]
    exact rpc_sends_only_request c timeNow _ _ _ fuel s [] (by simp)
  · simp only [AddPortMapping, mappingRequest, u16OfInt_emod]
  · intro s2 e0 e1 e2 e3 i0 i1 m0 m1 l0 l1 l2 l3 hrun
    exact AddPortMapping_of_reply c timeNow fp protocol op p q lifetime fuel s s1 s2
      e0 e1 e2 e3 i0 i1 m0 m1 l0 l1 l2 l3 hop hopen hrun
  · intro ρ lc n t
    have hmsg : Legacy.mappingMsg op p q n
        = [0, op, 0, 0, byte ((p % 65536).toNat / 256), byte (p % 65536).toNat,
            byte ((q % 65536).toNat / 256), byte (q % 65536).toNat]
          ++ putU32 (u32OfInt n) := by
      simp [Legacy.mappingMsg, putU16, hnat]
    rw [← hmsg]
    simp only [Legacy.AddPortMapping, hlop, Legacy.rpc]
    split <;> split at * <;> simp_all

theorem AddPortMapping_ports_modulo_witness :
    (AddPortMapping testClient.recording (recNow (tickClock Millisecond)) (fun _ => 0) "udp"
        65659 (-1) (1200 * Second) 3
        (startWorld (answeringDouble
          [0x0, 0x1, 0x0, 0x0, 0x0, 0x7b, 0xff, 0xff, 0x0, 0x0, 0x4, 0xb0] udpReply), [])).2.2
      = List.replicate 1 [0x0, 0x1, 0x0, 0x0, 0x0, 0x7b, 0xff, 0xff, 0x0, 0x0, 0x4, 0xb0]
    ∧ (AddPortMapping testClient (tickClock Millisecond) (fun _ => 0) "udp"
        65659 (-1) (1200 * Second) 3
        (startWorld (answeringDouble
          [0x0, 0x1, 0x0, 0x0, 0x0, 0x7b, 0xff, 0xff, 0x0, 0x0, 0x4, 0xb0] udpReply))).1
      = some (Except.ok
          { EpochDuration := 0x13feff * Second
            InternalPort := 123
            MappedExternalPort := 456
            Lifetime := 1200 * Second })
    ∧ (Legacy.AddPortMapping ⟨recordingCaller udpReply, 0⟩ "udp" 65659 (-1) 1200 []).2
      = [[0x0, 0x1, 0x0, 0x0, 0x0, 0x7b, 0xff, 0xff, 0x0, 0x0, 0x4, 0xb0]] :=
  ⟨(AddPortMapping_ports_modulo testClient (tickClock Millisecond) (fun _ => 0) "udp" 1
      65659 (-1) (1200 * Second) 3
      (startWorld (answeringDouble
        [0x0, 0x1, 0x0, 0x0, 0x0, 0x7b, 0xff, 0xff, 0x0, 0x0, 0x4, 0xb0] udpReply))
      (openedWorld 1000000000000 (answeringDouble
        [0x0, 0x1, 0x0, 0x0, 0x0, 0x7b, 0xff, 0xff, 0x0, 0x0, 0x4, 0xb0] udpReply))
      (Or.inl ⟨rfl, rfl⟩) (by rfl) (by decide) (by decide)).2.1,
    (AddPortMapping_ports_modulo testClient (tickClock Millisecond) (fun _ => 0) "udp" 1
      65659 (-1) (1200 * Second) 3
      (startWorld (answeringDouble
        [0x0, 0x1, 0x0, 0x0, 0x0, 0x7b, 0xff, 0xff, 0x0, 0x0, 0x4, 0xb0] udpReply))
      (openedWorld 1000000000000 (answeringDouble
        [0x0, 0x1, 0x0, 0x0, 0x0, 0x7b, 0xff, 0xff, 0x0, 0x0, 0x4, 0xb0] udpReply))
      (Or.inl ⟨rfl, rfl⟩) (by rfl) (by decide) (by decide)).2.2.2.1
      (openedWorld 1000003000000 (answeringDouble
        [0x0, 0x1, 0x0, 0x0, 0x0, 0x7b, 0xff, 0xff, 0x0, 0x0, 0x4, 0xb0] udpReply))
      0x0 0x13 0xfe 0xff 0x0 0x7b 0x1 0xc8 0x0 0x0 0x4 0xb0 (by rfl),
    (AddPortMapping_ports_modulo testClient (tickClock Millisecond) (fun _ => 0) "udp" 1
      65659 (-1) (1200 * Second) 3
      (startWorld (answeringDouble
        [0x0, 0x1, 0x0, 0x0, 0x0, 0x7b, 0xff, 0xff, 0x0, 0x0, 0x4, 0xb0] udpReply))
      (openedWorld 1000000000000 (answeringDouble
        [0x0, 0x1, 0x0, 0x0, 0x0, 0x7b, 0xff, 0xff, 0x0, 0x0, 0x4, 0xb0] udpReply))
      (Or.inl ⟨rfl, rfl⟩) (by rfl) (by decide) (by decide)).2.2.2.2
      (List Bytes) ⟨recordingCaller udpReply, 0⟩ 1200 []⟩

/-- C25. Converting wire seconds to durations never overflows.  For every
32-bit unsigned `s`, `s * 10^9` is below 2^63, so `time.Duration(s) *
time.Second` does not wrap (a count of 9223372037 seconds would).  When the
exchange of `AddPortMapping` ends with a well-formed reply, the returned
`EpochDuration` is be32(r[4..8]) * 10^9 ns and `Lifetime` is
be32(r[12..16]) * 10^9 ns, the exact products, both in [0, 2^63); when the
exchange of `GetExternalAddress` ends with a well-formed reply the returned
duration is be32(r[4..8]) * 10^9 ns, in [0, 2^63).  And whatever the exchange,
a successful call returns whole, non-negative seconds. -/
theorem seconds_never_overflow {σ : Type} (c : Client σ) (timeNow : σ → Time × σ)
    (fp : Duration → Nat) (protocol : String) (op : Byte)
    (internalPort requestedExternalPort : Int) (lifetime : Duration) (fuel : Nat) (s s1 s2 : σ)
    (e0 e1 e2 e3 i0 i1 m0 m1 l0 l1 l2 l3 : Byte)
    (cg : Client σ) (fuelg : Nat) (sg sg1 sg2 : σ) (g0 g1 g2 g3 a0 a1 a2 a3 : Byte)
    (hproto : (protocol = "udp" ∧ op = 1) ∨ (protocol = "tcp" ∧ op = 2))
    (hopen : c.transport.Open c.gatewayIP c.port s = (none, s1))
    (hrun : (rpcRetry c.timeout).run (liftNow timeNow)
      (rpcAttempt c (binaryWrite (request.mapping
        (mappingRequest fp op internalPort requestedExternalPort lifetime)))) fuel
      (resultBuffer, s1)
      = (some none, ([0, byte (op.val ||| 0x80), 0, 0, e0, e1, e2, e3, i0, i1, m0, m1,
          l0, l1, l2, l3], s2)))
    (hopeng : cg.transport.Open cg.gatewayIP cg.port sg = (none, sg1))
    (hrung : (rpcRetry cg.timeout).run (liftNow timeNow)
      (rpcAttempt cg (binaryWrite (request.extAddr ⟨0, 0⟩))) fuelg (resultBuffer, sg1)
      = (some none, ([0, 0x80, 0, 0, g0, g1, g2, g3, a0, a1, a2, a3], sg2))) :
    (∀ x : U32, (x.val : Int) * 1000000000 < 9223372036854775808
      ∧ secondsDuration x = (x.val : Int) * 1000000000 ∧ 0 ≤ secondsDuration x)
    ∧ wrapInt64 (9223372037 * Second) < 0
    ∧ ((AddPortMapping c timeNow fp protocol internalPort requestedExternalPort lifetime
          fuel s).1
        = some (Except.ok
            { EpochDuration := ((be32 e0 e1 e2 e3).val : Int) * 1000000000
              InternalPort := be16 i0 i1
              MappedExternalPort := be16 m0 m1
              Lifetime := ((be32 l0 l1 l2 l3).val : Int) * 1000000000 })
      ∧ (0 : Int) ≤ ((be32 e0 e1 e2 e3).val : Int) * 1000000000
      ∧ ((be32 e0 e1 e2 e3).val : Int) * 1000000000 < 9223372036854775808
      ∧ (0 : Int) ≤ ((be32 l0 l1 l2 l3).val : Int) * 1000000000
      ∧ ((be32 l0 l1 l2 l3).val : Int) * 1000000000 < 9223372036854775808)
    ∧ ((GetExternalAddress cg timeNow fuelg sg).1
        = some (Except.ok (⟨a0, a1, a2, a3⟩, ((be32 g0 g1 g2 g3).val : Int) * 1000000000))
      ∧ (0 : Int) ≤ ((be32 g0 g1 g2 g3).val : Int) * 1000000000
      ∧ ((be32 g0 g1 g2 g3).val : Int) * 1000000000 < 9223372036854775808)
    ∧ (∀ (fuel1 : Nat) (t : σ) (m : PortMapping),
        (AddPortMapping c timeNow fp protocol internalPort requestedExternalPort lifetime
          fuel1 t).1 = some (Except.ok m) →
        ∃ e l : U32, m.EpochDuration = (e.val : Int) * 1000000000
          ∧ m.Lifetime = (l.val : Int) * 1000000000 ∧ 0 ≤ m.EpochDuration ∧ 0 ≤ m.Lifetime)
    ∧ (∀ (fuel1 : Nat) (t : σ) (a : Addr) (d : Duration),
        (GetExternalAddress cg timeNow fuel1 t).1 = some (Except.ok (a, d)) →
        ∃ e : U32, d = (e.val : Int) * 1000000000 ∧ 0 ≤ d) := by
  have hsec : ∀ x : U32, (x.val : Int) * 1000000000 < 9223372036854775808
      ∧ secondsDuration x = (x.val : Int) * 1000000000 ∧ 0 ≤ secondsDuration x := by
    intro x
    have h := x.isLt
    refine ⟨by omega, secondsDuration_eq x, ?_⟩
    rw [secondsDuration_eq]
    simp only [Second]
    show (0 : Int) ≤ _
    omega
  have hpos : ∀ x : U32, (0 : Int) ≤ (x.val : Int) * 1000000000 := by
    intro x
    omega
  have hop : protocolOpcode protocol = Except.ok op := by
    rcases hproto with ⟨h1, h2⟩ | ⟨h1, h2⟩ <;> subst h1 <;> subst h2 <;> rfl
  refine ⟨hsec, by decide, ⟨?_, hpos _, (hsec _).1, hpos _, (hsec _).1⟩,
    ⟨?_, hpos _, (hsec _).1⟩, ?_, ?_⟩
  · rw [AddPortMapping_of_reply c timeNow fp protocol op internalPort requestedExternalPort
      lifetime fuel s s1 s2 e0 e1 e2 e3 i0 i1 m0 m1 l0 l1 l2 l3 hop hopen hrun]
    rw [(hsec (be32 e0 e1 e2 e3)).2.1, (hsec (be32 l0 l1 l2 l3)).2.1]
  · rw [GetExternalAddress_of_reply cg timeNow fuelg sg sg1 sg2 g0 g1 g2 g3 a0 a1 a2 a3
      hopeng hrung]
    rw [(hsec (be32 g0 g1 g2 g3)).2.1]
  · intro fuel1 t m hm
    simp only [AddPortMapping] at hm
    split at hm
    · simp at hm
    · split at hm
      · simp at hm
      · simp at hm
      · rename_i resp s1 _
        simp only [Option.some.injEq, Except.ok.injEq] at hm
        subst hm
        exact ⟨resp.DurationSecs, resp.LifetimeSecs, (hsec _).2.1, (hsec _).2.1,
          (hsec _).2.2, (hsec _).2.2⟩
  · intro fuel1 t a d hd
    simp only [GetExternalAddress] at hd
    split at hd
    · simp at hd
    · simp at hd
    · rename_i resp s1 _
      simp only [Option.some.injEq, Except.ok.injEq, Prod.mk.injEq] at hd
      obtain ⟨_, rfl⟩ := hd
      exact ⟨resp.DurationSecs, (hsec _).2.1, (hsec _).2.2⟩

theorem seconds_never_overflow_witness :
    (AddPortMapping testClient (tickClock Millisecond) (fun _ => 0) "udp" 123 456
        (1200 * Second) 3
        (startWorld (answeringDouble udpRequestBytes
          [0x0, 0x81, 0x0, 0x0, 0xff, 0xff, 0xff, 0xff, 0x0, 0x7b, 0x1, 0xc8,
            0xff, 0xff, 0xff, 0xff]))).1
      = some (Except.ok
          { EpochDuration := 4294967295000000000
            InternalPort := 123
            MappedExternalPort := 456
            Lifetime := 4294967295000000000 })
    ∧ (GetExternalAddress testClient (tickClock Millisecond) 3
        (startWorld (answeringDouble [0x0, 0x0]
          [0x0, 0x80, 0x0, 0x0, 0xff, 0xff, 0xff, 0xff, 0x49, 0x8c, 0x36, 0x9a]))).1
      = some (Except.ok (⟨73, 140, 54, 154⟩, 4294967295000000000)) :=
  ⟨(seconds_never_overflow testClient (tickClock Millisecond) (fun _ => 0) "udp" 1 123 456
      (1200 * Second) 3
      (startWorld (answeringDouble udpRequestBytes
        [0x0, 0x81, 0x0, 0x0, 0xff, 0xff, 0xff, 0xff, 0x0, 0x7b, 0x1, 0xc8,
          0xff, 0xff, 0xff, 0xff]))
      (openedWorld 1000000000000 (answeringDouble udpRequestBytes
        [0x0, 0x81, 0x0, 0x0, 0xff, 0xff, 0xff, 0xff, 0x0, 0x7b, 0x1, 0xc8,
          0xff, 0xff, 0xff, 0xff]))
      (openedWorld 1000003000000 (answeringDouble udpRequestBytes
        [0x0, 0x81, 0x0, 0x0, 0xff, 0xff, 0xff, 0xff, 0x0, 0x7b, 0x1, 0xc8,
          0xff, 0xff, 0xff, 0xff]))
      0xff 0xff 0xff 0xff 0x0 0x7b 0x1 0xc8 0xff 0xff 0xff 0xff
      testClient 3
      (startWorld (answeringDouble [0x0, 0x0]
        [0x0, 0x80, 0x0, 0x0, 0xff, 0xff, 0xff, 0xff, 0x49, 0x8c, 0x36, 0x9a]))
      (openedWorld 1000000000000 (answeringDouble [0x0, 0x0]
        [0x0, 0x80, 0x0, 0x0, 0xff, 0xff, 0xff, 0xff, 0x49, 0x8c, 0x36, 0x9a]))
      (openedWorld 1000003000000 (answeringDouble [0x0, 0x0]
        [0x0, 0x80, 0x0, 0x0, 0xff, 0xff, 0xff, 0xff, 0x49, 0x8c, 0x36, 0x9a]))
      0xff 0xff 0xff 0xff 0x49 0x8c 0x36 0x9a
      (Or.inl ⟨rfl, rfl⟩) (by rfl) (by rfl) (by rfl) (by rfl)).2.2.1.1,
    (seconds_never_overflow testClient (tickClock Millisecond) (fun _ => 0) "udp" 1 123 456
      (1200 * Second) 3
      (startWorld (answeringDouble udpRequestBytes
        [0x0, 0x81, 0x0, 0x0, 0xff, 0xff, 0xff, 0xff, 0x0, 0x7b, 0x1, 0xc8,
          0xff, 0xff, 0xff, 0xff]))
      (openedWorld 1000000000000 (answeringDouble udpRequestBytes
        [0x0, 0x81, 0x0, 0x0, 0xff, 0xff, 0xff, 0xff, 0x0, 0x7b, 0x1, 0xc8,
          0xff, 0xff, 0xff, 0xff]))
      (openedWorld 1000003000000 (answeringDouble udpRequestBytes
        [0x0, 0x81, 0x0, 0x0, 0xff, 0xff, 0xff, 0xff, 0x0, 0x7b, 0x1, 0xc8,
          0xff, 0xff, 0xff, 0xff]))
      0xff 0xff 0xff 0xff 0x0 0x7b 0x1 0xc8 0xff 0xff 0xff 0xff
      testClient 3
      (startWorld (answeringDouble [0x0, 0x0]
        [0x0, 0x80, 0x0, 0x0, 0xff, 0xff, 0xff, 0xff, 0x49, 0x8c, 0x36, 0x9a]))
      (openedWorld 1000000000000 (answeringDouble [0x0, 0x0]
        [0x0, 0x80, 0x0, 0x0, 0xff, 0xff, 0xff, 0xff, 0x49, 0x8c, 0x36, 0x9a]))
      (openedWorld 1000003000000 (answeringDouble [0x0, 0x0]
        [0x0, 0x80, 0x0, 0x0, 0xff, 0xff, 0xff, 0xff, 0x49, 0x8c, 0x36, 0x9a]))
      0xff 0xff 0xff 0xff 0x49 0x8c 0x36 0x9a
      (Or.inl ⟨rfl, rfl⟩) (by rfl) (by rfl) (by rfl) (by rfl)).2.2.2.1.1⟩

/-- The text of `net.IP.String` on the kinds of address that occur, and the
text of the mismatch error `rpc` builds for a reply without sender address. -/
theorem IP.String_examples :
    IP.String [] = "<nil>"
    ∧ IP.String ip10 = "10.0.0.1"
    ∧ IP.String [10, 0, 0, 2] = "10.0.0.2"
    ∧ IP.String [1, 2, 3] = "?010203"
    ∧ IP.String [0xfe, 0x80, 0, 0, 0, 0, 0, 0, 0, 0, 0, 0, 0, 0, 0, 1] = "fe80::1"
    ∧ IP.String [0, 0, 0, 0, 0, 0, 0, 0, 0, 0, 0, 0, 0, 0, 0, 0] = "::"
    ∧ IP.String [0x20, 1, 0xd, 0xb8, 0, 0, 0, 1, 0, 0, 0, 0, 0, 0, 0, 1] = "2001:db8:0:1::1"
    ∧ IP.String [0x20, 1, 0, 0, 0, 0, 0, 1, 0, 0, 0, 0, 0, 2, 0, 3] = "2001::1:0:0:2:3"
    ∧ (Err.mistmatchedGatewayErr ip10 []).Error
        = "error remote address 10.0.0.1 does not match specified gateway <nil>" := by
  refine ⟨by rfl, by rfl, by rfl, by rfl, by rfl, by rfl, by rfl, by rfl, by rfl⟩

end Natpmp
